import Mathlib

/-!
DiligentCore: fence retirement (WebGPU backend) and barrier batching (D3D12 backend).

Shallow embedding of `FenceWebGPUImpl.cpp` and of the resource-transition part of
`CommandContext.cpp`, followed by the properties established about them.

Machine integers are natural numbers; the `Uint32` additions of the source are
reduced modulo `2^32`.  Objects reached through pointers are passed explicitly.
-/

namespace Diligent

/-! FenceWebGPUImpl -/

/-- A sync point is referred to by the identity of its `SyncPointWebGPUImpl` object. -/
abbrev SyncPoint := Nat

/-- The pair `(Value, SyncPoints)` stored in `m_SyncGroups`. -/
abbrev SyncPointGroup := Nat × List SyncPoint

/-- The fields of `FenceWebGPUImpl` read and written by the translated methods. -/
structure FenceWebGPUImpl where
  m_SyncGroups : List SyncPointGroup
  m_LastCompletedFenceValue : Nat
deriving DecidableEq

/-- Modelled from the spec: `UpdateLastCompletedFenceValue` of the fence base class, which is
not part of the sources ("the watermark advances to the group's logical value"). -/
def UpdateLastCompletedFenceValue (f : FenceWebGPUImpl) (NewValue : Nat) : FenceWebGPUImpl :=
  { f with m_LastCompletedFenceValue := NewValue }

/-- The statements `std::swap(SyncPoints.front(), SyncPoints.back()); SyncPoints.pop_back();`. -/
def swapFrontBackPop : List SyncPoint → List SyncPoint
  | [] => []
  | _ :: rest =>
    match rest.getLast? with
    | none => []
    | some last => last :: rest.dropLast

/-- The inner `while (!SyncPoints.empty())` loop of `ProcessSyncPoints`; every iteration that
does not leave the loop pops one point, so `fuel = SyncPoints.size()` iterations suffice. -/
def scanSyncPointsLoop (IsTriggered : SyncPoint → Bool) : Nat → List SyncPoint → List SyncPoint
  | 0, SyncPoints => SyncPoints
  | _ + 1, [] => []
  | fuel + 1, front :: rest =>
    if IsTriggered front then
      scanSyncPointsLoop IsTriggered fuel (swapFrontBackPop (front :: rest))
    else
      front :: rest

/-- The inner loop run on the points of one group. -/
def scanSyncPoints (IsTriggered : SyncPoint → Bool) (SyncPoints : List SyncPoint) :
    List SyncPoint :=
  scanSyncPointsLoop IsTriggered SyncPoints.length SyncPoints

/-- The outer `while (!m_SyncGroups.empty())` loop of `ProcessSyncPoints`, on the queue and the
fence it updates. -/
def processSyncGroups (IsTriggered : SyncPoint → Bool) :
    List SyncPointGroup → FenceWebGPUImpl → FenceWebGPUImpl
  | [], f => { f with m_SyncGroups := [] }
  | SyncGroup :: queue, f =>
    let SyncPoints := scanSyncPoints IsTriggered SyncGroup.2
    if SyncPoints.isEmpty then
      processSyncGroups IsTriggered queue (UpdateLastCompletedFenceValue f SyncGroup.1)
    else
      { f with m_SyncGroups := (SyncGroup.1, SyncPoints) :: queue }

/-- `FenceWebGPUImpl::ProcessSyncPoints`. -/
def ProcessSyncPoints (IsTriggered : SyncPoint → Bool) (f : FenceWebGPUImpl) : FenceWebGPUImpl :=
  processSyncGroups IsTriggered f.m_SyncGroups f

/-- `FenceWebGPUImpl::GetCompletedValue`: the fence after the call and the returned value. -/
def GetCompletedValue (IsTriggered : SyncPoint → Bool) (f : FenceWebGPUImpl) :
    FenceWebGPUImpl × Nat :=
  let f1 := ProcessSyncPoints IsTriggered f
  (f1, f1.m_LastCompletedFenceValue)

/-- The condition of the `DEV_CHECK_ERR` of `AppendSyncPoints`:
`m_SyncGroups.empty() || m_SyncGroups.back().first < Value`. -/
def AppendSyncPoints.check (f : FenceWebGPUImpl) (Value : Nat) : Bool :=
  match f.m_SyncGroups.getLast? with
  | none => true
  | some back => decide (back.1 < Value)

/-- `FenceWebGPUImpl::AppendSyncPoints`: the state change (the check only reports). -/
def AppendSyncPoints (IsTriggered : SyncPoint → Bool) (f : FenceWebGPUImpl)
    (SyncPoints : List SyncPoint) (Value : Nat) : FenceWebGPUImpl :=
  ProcessSyncPoints IsTriggered
    { f with m_SyncGroups := f.m_SyncGroups ++ [(Value, SyncPoints)] }

/-! Histories of one fence -/

/-- What can happen to a fence and its sync points between two observations. -/
inductive FenceEvent
  | append (SyncPoints : List SyncPoint) (Value : Nat)
  | trigger (p : SyncPoint)
  | getCompletedValue

/-- A fence together with the triggered flag of every sync point. -/
structure FenceWorld where
  fence : FenceWebGPUImpl
  IsTriggered : SyncPoint → Bool

/-- One event: a call of `AppendSyncPoints`, a sync point becoming triggered (it stays so), or a
call of `GetCompletedValue`. -/
def FenceWorld.step (w : FenceWorld) : FenceEvent → FenceWorld
  | .append SyncPoints Value =>
    { w with fence := AppendSyncPoints w.IsTriggered w.fence SyncPoints Value }
  | .trigger p => { w with IsTriggered := fun q => decide (q = p) || w.IsTriggered q }
  | .getCompletedValue => { w with fence := (GetCompletedValue w.IsTriggered w.fence).1 }

/-- The events of a history in order. -/
def FenceWorld.run (w : FenceWorld) (evs : List FenceEvent) : FenceWorld :=
  evs.foldl FenceWorld.step w

/-- The groups `(Value, SyncPoints)` appended by a history, oldest first. -/
def appendedGroups : List FenceEvent → List SyncPointGroup
  | [] => []
  | .append SyncPoints Value :: evs => (Value, SyncPoints) :: appendedGroups evs
  | _ :: evs => appendedGroups evs

/-- The state kept by a history `hist` of appended groups: the queue is strictly increasing and
above the watermark, the watermark and the queued values come from the history, and every
appended group is either fully triggered or still queued with all its untriggered points. -/
def FenceInv (wm0 : Nat) (hist : List SyncPointGroup) (IsTriggered : SyncPoint → Bool)
    (queue : List SyncPointGroup) (wm : Nat) : Prop :=
  (wm :: queue.map Prod.fst).Pairwise (· < ·) ∧
  (wm = wm0 ∨ wm ∈ hist.map Prod.fst) ∧
  (∀ q ∈ queue, q.1 ∈ hist.map Prod.fst) ∧
  (∀ g ∈ hist, (∀ p ∈ g.2, IsTriggered p = true) ∨
    ∃ pts, (g.1, pts) ∈ queue ∧ ∀ p ∈ g.2, IsTriggered p = true ∨ p ∈ pts)

/-! CommandContext -/

/-- Enumerators, constants and the state conversion that `CommandContext.cpp` uses and that are
declared in headers outside the translated sources; every result holds for all their values. -/
structure Consts where
  RESOURCE_STATE_UNKNOWN : Nat
  RESOURCE_STATE_UNORDERED_ACCESS : Nat
  RESOURCE_STATE_GENERIC_READ : Nat
  RemainingMipLevels : Nat
  RemainingArraySlices : Nat
  D3D12_RESOURCE_BARRIER_ALL_SUBRESOURCES : Nat
  MaxPendingBarriers : Nat
  USAGE_DYNAMIC : Nat
  BIND_SHADER_RESOURCE : Nat
  BIND_UNORDERED_ACCESS : Nat
  ResourceStateFlagsToD3D12ResourceStates : Nat → Nat
  RESOURCE_STATE_RENDER_TARGET : Nat
  RESOURCE_STATE_DEPTH_WRITE : Nat
  SET_RENDER_TARGETS_FLAG_TRANSITION_COLOR : Nat
  SET_RENDER_TARGETS_FLAG_TRANSITION_DEPTH : Nat
  D3D_PRIMITIVE_TOPOLOGY_UNDEFINED : Nat

/-- One choice of the constants, used to evaluate the code on concrete inputs: the unknown state
is 0, unordered access is one bit outside the generic-read mask, the sentinels are the largest
`Uint32`, and sixteen barriers fill the batch. -/
def sampleConsts : Consts :=
  { RESOURCE_STATE_UNKNOWN := 0
    RESOURCE_STATE_UNORDERED_ACCESS := 0x20
    RESOURCE_STATE_GENERIC_READ := 0x150E
    RemainingMipLevels := 0xFFFFFFFF
    RemainingArraySlices := 0xFFFFFFFF
    D3D12_RESOURCE_BARRIER_ALL_SUBRESOURCES := 0xFFFFFFFF
    MaxPendingBarriers := 16
    USAGE_DYNAMIC := 2
    BIND_SHADER_RESOURCE := 0x8
    BIND_UNORDERED_ACCESS := 0x80
    ResourceStateFlagsToD3D12ResourceStates := fun s => s
    RESOURCE_STATE_RENDER_TARGET := 0x10
    RESOURCE_STATE_DEPTH_WRITE := 0x40
    SET_RENDER_TARGETS_FLAG_TRANSITION_COLOR := 1
    SET_RENDER_TARGETS_FLAG_TRANSITION_DEPTH := 2
    D3D_PRIMITIVE_TOPOLOGY_UNDEFINED := 0 }

/-- The part of `TextureD3D12Impl` read and written by `TransitionResource`: the native
resource, the tracked state and the extents of the texture description. -/
structure TextureD3D12Impl where
  m_pd3d12Resource : Nat
  m_State : Nat
  MipLevels : Nat
  ArraySize : Nat
deriving DecidableEq

/-- The part of `BufferD3D12Impl` read and written by `TransitionResource`. -/
structure BufferD3D12Impl where
  m_pd3d12Resource : Nat
  m_State : Nat
  Usage : Nat
  BindFlags : Nat
deriving DecidableEq

/-- The object a transition is directed at, after the pointers of the descriptor are resolved
(`pTextureD3D12Impl` or `pBufferD3D12Impl`). -/
inductive Resource
  | texture (t : TextureD3D12Impl)
  | buffer (b : BufferD3D12Impl)
deriving DecidableEq

/-- `GetD3D12Resource()`. -/
def Resource.GetD3D12Resource : Resource → Nat
  | .texture t => t.m_pd3d12Resource
  | .buffer b => b.m_pd3d12Resource

/-- `GetState()`. -/
def Resource.GetState : Resource → Nat
  | .texture t => t.m_State
  | .buffer b => b.m_State

/-- `SetState(State)`. -/
def Resource.SetState : Resource → Nat → Resource
  | .texture t, State => .texture { t with m_State := State }
  | .buffer b, State => .buffer { b with m_State := State }

/-- `D3D12_RESOURCE_BARRIER`: the three barrier types with their payloads (the flags are always
`D3D12_RESOURCE_BARRIER_FLAG_NONE`). -/
inductive D3D12_RESOURCE_BARRIER
  | Transition (pResource Subresource StateBefore StateAfter : Nat)
  | UAV (pResource : Nat)
  | Aliasing (pResourceBefore pResourceAfter : Nat)
deriving DecidableEq

/-- Native commands recorded into the command list by the translated methods, with the
arguments that depend on the context (colors and depth values are left out). -/
inductive NativeCommand
  | ResourceBarrier (Barriers : List D3D12_RESOURCE_BARRIER)
  | Close
  | Reset (pAllocator : Nat)
  | OMSetRenderTargets (NumRTVs : Nat) (RTVHandles : List (Option Nat)) (DSVHandle : Option Nat)
  | ClearRenderTargetView (RTVHandle : Nat)
  | ClearDepthStencilView (DSVHandle ClearFlags Stencil : Nat)
  | ClearUnorderedAccessViewFloat (CPUHandle pResource : Nat)
  | ClearUnorderedAccessViewUint (CPUHandle pResource : Nat)
deriving DecidableEq

/-- The fields of `CommandContext` used by the barrier batcher. -/
structure CommandContext where
  m_PendingResourceBarriers : List D3D12_RESOURCE_BARRIER
  m_pCommandList : List NativeCommand
deriving DecidableEq

/-- `StateTransitionDesc`; a null pointer is `none`, a non-null one names an object of the
heap. -/
structure StateTransitionDesc where
  pTexture : Option Nat
  pBuffer : Option Nat
  FirstMipLevel : Nat
  MipLevelsCount : Nat
  FirstArraySlice : Nat
  ArraySliceCount : Nat
  OldState : Nat
  NewState : Nat
  UpdateResourceState : Bool
deriving DecidableEq

/-- The texture and buffer objects that descriptors point to. -/
structure Heap where
  textures : List TextureD3D12Impl
  buffers : List BufferD3D12Impl
deriving DecidableEq

/-- Modelled from the spec: `FlushResourceBarriers`, defined in `CommandContext.h` which is not
part of the sources ("submits the entire pending batch as one native call, then clears it"). -/
def FlushResourceBarriers (ctx : CommandContext) : CommandContext :=
  { ctx with
    m_pCommandList := ctx.m_pCommandList ++ [.ResourceBarrier ctx.m_PendingResourceBarriers]
    m_PendingResourceBarriers := [] }

/-- Modelled from the spec: `D3D12CalcSubresource` of `d3dx12_win.h`, which is not part of the
sources (the subresource index `mip + slice × MipLevels`, the plane slice being 0 here); the
operands and the `Subresource` field that receives the result are 32-bit unsigned integers, so
the index is reduced modulo `2^32`. -/
def D3D12CalcSubresource (MipSlice ArraySlice PlaneSlice MipLevels ArraySize : Nat) : Nat :=
  (MipSlice + ArraySlice * MipLevels + PlaneSlice * MipLevels * ArraySize) % 2 ^ 32

/-- `CommandContext::InsertUAVBarrier`. -/
def InsertUAVBarrier (ctx : CommandContext) (pd3d12Resource : Nat) : CommandContext :=
  { ctx with
    m_PendingResourceBarriers := ctx.m_PendingResourceBarriers ++ [.UAV pd3d12Resource] }

/-- Lines 277-285 of `TransitionResource`: the old state used by the transition. -/
def TransitionResource.oldState (K : Consts) (res : Resource) (Barrier : StateTransitionDesc) :
    Nat :=
  if res.GetState = K.RESOURCE_STATE_UNKNOWN then Barrier.OldState else res.GetState

/-- Lines 290-294: the new state, combined with the old one when both are read-only states. -/
def TransitionResource.newState (K : Consts) (OldState : Nat) (Barrier : StateTransitionDesc) :
    Nat :=
  if OldState &&& K.RESOURCE_STATE_GENERIC_READ = OldState ∧
      Barrier.NewState &&& K.RESOURCE_STATE_GENERIC_READ = Barrier.NewState then
    OldState ||| Barrier.NewState
  else
    Barrier.NewState

/-- The conditions of the four `VERIFY`s on the subresource range (lines 307-312), in order. -/
def TransitionResource.rangeVerifies (K : Consts) (TexDesc : TextureD3D12Impl)
    (Barrier : StateTransitionDesc) : List Bool :=
  [ decide (Barrier.FirstMipLevel < TexDesc.MipLevels),
    decide (Barrier.MipLevelsCount = K.RemainingMipLevels) ||
      decide ((Barrier.FirstMipLevel + Barrier.MipLevelsCount) % 2 ^ 32 < TexDesc.MipLevels),
    decide (Barrier.FirstArraySlice < TexDesc.ArraySize),
    decide (Barrier.ArraySliceCount = K.RemainingArraySlices) ||
      decide ((Barrier.FirstArraySlice + Barrier.ArraySliceCount) % 2 ^ 32 < TexDesc.ArraySize) ]

/-- The condition of the `if` at lines 314-315: the range covers the whole texture. -/
def TransitionResource.coversAll (K : Consts) (TexDesc : TextureD3D12Impl)
    (Barrier : StateTransitionDesc) : Bool :=
  decide (Barrier.FirstMipLevel = 0) &&
  (decide (Barrier.MipLevelsCount = K.RemainingMipLevels) ||
    decide (Barrier.MipLevelsCount = TexDesc.MipLevels)) &&
  decide (Barrier.FirstArraySlice = 0) &&
  (decide (Barrier.ArraySliceCount = K.RemainingArraySlices) ||
    decide (Barrier.ArraySliceCount = TexDesc.ArraySize))

/-- Lines 304-335: the transition barriers appended for one resource, in the order of the
`emplace_back` calls. `StateBefore` and `StateAfter` are those of `BarrierDesc`. -/
def TransitionResource.transitionBarriers (K : Consts) (res : Resource)
    (Barrier : StateTransitionDesc) (StateBefore StateAfter : Nat) :
    List D3D12_RESOURCE_BARRIER :=
  match res with
  | .texture TexDesc =>
    if TransitionResource.coversAll K TexDesc Barrier then
      [.Transition TexDesc.m_pd3d12Resource K.D3D12_RESOURCE_BARRIER_ALL_SUBRESOURCES
        StateBefore StateAfter]
    else
      let EndMip :=
        if Barrier.MipLevelsCount = K.RemainingMipLevels then TexDesc.MipLevels
        else (Barrier.FirstMipLevel + Barrier.MipLevelsCount) % 2 ^ 32
      let EndSlice :=
        if Barrier.ArraySliceCount = K.RemainingArraySlices then TexDesc.ArraySize
        else (Barrier.FirstArraySlice + Barrier.ArraySliceCount) % 2 ^ 32
      (List.range' Barrier.FirstMipLevel (EndMip - Barrier.FirstMipLevel)).flatMap fun mip =>
        (List.range' Barrier.FirstArraySlice (EndSlice - Barrier.FirstArraySlice)).map
          fun slice =>
            .Transition TexDesc.m_pd3d12Resource
              (D3D12CalcSubresource mip slice 0 TexDesc.MipLevels TexDesc.ArraySize)
              StateBefore StateAfter
  | .buffer b =>
    [.Transition b.m_pd3d12Resource K.D3D12_RESOURCE_BARRIER_ALL_SUBRESOURCES
      StateBefore StateAfter]

/-- Lines 277-355 of `TransitionResource` on the resolved resource: the barriers appended to the
pending batch, in order, and the resource with its updated state. -/
def TransitionResource.enqueue (K : Consts) (res : Resource) (Barrier : StateTransitionDesc) :
    List D3D12_RESOURCE_BARRIER × Resource :=
  let OldState := TransitionResource.oldState K res Barrier
  let transition :=
    if OldState &&& Barrier.NewState ≠ Barrier.NewState then
      let NewState := TransitionResource.newState K OldState Barrier
      (TransitionResource.transitionBarriers K res Barrier
          (K.ResourceStateFlagsToD3D12ResourceStates OldState)
          (K.ResourceStateFlagsToD3D12ResourceStates NewState),
        res.SetState (if Barrier.UpdateResourceState then NewState
          else K.RESOURCE_STATE_UNKNOWN))
    else
      ([], res)
  let uav :=
    if OldState = K.RESOURCE_STATE_UNORDERED_ACCESS ∧
        Barrier.NewState = K.RESOURCE_STATE_UNORDERED_ACCESS then
      [D3D12_RESOURCE_BARRIER.UAV res.GetD3D12Resource]
    else
      []
  (transition.1 ++ uav, transition.2)

/-- `CommandContext::TransitionResource(const StateTransitionDesc&)` on the resolved resource:
the barriers are appended, then the batch is flushed when it has reached
`MaxPendingBarriers` (lines 357-358). -/
def TransitionResource.core (K : Consts) (ctx : CommandContext) (res : Resource)
    (Barrier : StateTransitionDesc) : CommandContext × Resource :=
  let r := TransitionResource.enqueue K res Barrier
  let ctx1 :=
    { ctx with m_PendingResourceBarriers := ctx.m_PendingResourceBarriers ++ r.1 }
  let ctx2 :=
    if ctx1.m_PendingResourceBarriers.length ≥ K.MaxPendingBarriers then
      FlushResourceBarriers ctx1
    else
      ctx1
  (ctx2, r.2)

/-- `CommandContext::TransitionResource(const StateTransitionDesc&)`: the texture is used when
`pTexture` is not null and the buffer otherwise (lines 252-264); dereferencing a null or
dangling pointer gives no result. -/
def TransitionResource (K : Consts) (ctx : CommandContext) (heap : Heap)
    (Barrier : StateTransitionDesc) : Option (CommandContext × Heap) :=
  match Barrier.pTexture with
  | some i =>
    match heap.textures[i]? with
    | none => none
    | some t =>
      let r := TransitionResource.core K ctx (.texture t) Barrier
      some (r.1, { heap with textures := heap.textures.set i { t with m_State := r.2.GetState } })
  | none =>
    match Barrier.pBuffer with
    | none => none
    | some j =>
      match heap.buffers[j]? with
      | none => none
      | some b =>
        let r := TransitionResource.core K ctx (.buffer b) Barrier
        some (r.1, { heap with buffers := heap.buffers.set j { b with m_State := r.2.GetState } })

/-- `CommandContext::InsertAliasBarrier`; the arguments are the native resources returned by
`Before.GetD3D12Resource()` and `After.GetD3D12Resource()`. -/
def InsertAliasBarrier (ctx : CommandContext) (Before After : Nat) (FlushImmediate : Bool) :
    CommandContext :=
  let ctx1 :=
    { ctx with
      m_PendingResourceBarriers := ctx.m_PendingResourceBarriers ++ [.Aliasing Before After] }
  if FlushImmediate then FlushResourceBarriers ctx1 else ctx1

/-- Every barrier enqueued on the context so far, in order: the submitted batches followed by
the pending one. -/
def CommandContext.enqueued (ctx : CommandContext) : List D3D12_RESOURCE_BARRIER :=
  (ctx.m_pCommandList.flatMap fun
    | .ResourceBarrier Barriers => Barriers
    | _ => []) ++ ctx.m_PendingResourceBarriers

/-! Sequences of calls on one context -/

/-- The calls of the barrier batcher. -/
inductive ContextCall
  | TransitionResource (Barrier : StateTransitionDesc)
  | InsertAliasBarrier (Before After : Nat) (FlushImmediate : Bool)
  | FlushResourceBarriers
deriving DecidableEq

/-- One call on a context and the heap of resources. -/
def ContextCall.apply (K : Consts) (s : CommandContext × Heap) :
    ContextCall → Option (CommandContext × Heap)
  | .TransitionResource Barrier => Diligent.TransitionResource K s.1 s.2 Barrier
  | .InsertAliasBarrier Before After FlushImmediate =>
    some (Diligent.InsertAliasBarrier s.1 Before After FlushImmediate, s.2)
  | .FlushResourceBarriers => some (Diligent.FlushResourceBarriers s.1, s.2)

/-- The calls of a sequence in order. -/
def runCalls (K : Consts) (s : CommandContext × Heap) :
    List ContextCall → Option (CommandContext × Heap)
  | [] => some s
  | c :: cs =>
    match c.apply K s with
    | none => none
    | some s1 => runCalls K s1 cs

/-- The number of `InsertAliasBarrier` calls without immediate flush made at the end of a
sequence, after its last other call. -/
def unflushedAliasCalls (cs : List ContextCall) : Nat :=
  cs.foldl (fun n c =>
    match c with
    | .InsertAliasBarrier _ _ false => n + 1
    | _ => 0) 0

/-! Contract checks of `TransitionResource` -/

/-- The condition of the `DEV_CHECK_ERR` on the old state (lines 277-285): the first one when
the tracked state is unknown, the second one otherwise. -/
def TransitionResource.oldStateCheck (K : Consts) (res : Resource)
    (Barrier : StateTransitionDesc) : Bool :=
  if res.GetState = K.RESOURCE_STATE_UNKNOWN then
    decide (Barrier.OldState ≠ K.RESOURCE_STATE_UNKNOWN)
  else
    decide (Barrier.OldState = K.RESOURCE_STATE_UNKNOWN) ||
      decide (Barrier.OldState = res.GetState)

/-- The part of a texture view (`ITextureViewD3D12`) used here: the texture returned by
`GetTexture()`, as an object of the heap, and `GetCPUDescriptorHandle()`. -/
structure TextureViewD3D12 where
  pTexture : Nat
  CPUDescriptorHandle : Nat
deriving DecidableEq

/-- Modelled from the spec: `IsInKnownState()` of the texture implementation, which is not part
of the sources (the tracked state is not the `Unknown` sentinel). -/
def TextureD3D12Impl.IsInKnownState (K : Consts) (t : TextureD3D12Impl) : Bool :=
  decide (t.m_State ≠ K.RESOURCE_STATE_UNKNOWN)

/-- Modelled from the spec: `CheckState(State)` of the texture implementation, which is not
part of the sources (the texture "is already in that state": the tracked state has every bit
of `State`). -/
def TextureD3D12Impl.CheckState (t : TextureD3D12Impl) (State : Nat) : Bool :=
  decide (t.m_State &&& State = State)

/-- Modelled from the spec: the constructor `StateTransitionDesc(pTexture, OldState, NewState,
UpdateState)`, declared outside the sources (the range defaults to the first mip and slice
with the "all remaining" sentinels as counts). -/
def StateTransitionDesc.ofTexture (K : Consts) (pTexture OldState NewState : Nat)
    (UpdateState : Bool) : StateTransitionDesc :=
  { pTexture := some pTexture
    pBuffer := none
    FirstMipLevel := 0
    MipLevelsCount := K.RemainingMipLevels
    FirstArraySlice := 0
    ArraySliceCount := K.RemainingArraySlices
    OldState := OldState
    NewState := NewState
    UpdateResourceState := UpdateState }

/-- `CommandContext::TransitionResource(ITextureD3D12*, RESOURCE_STATE)` (lines 213-220). -/
def TransitionResourceTexture (K : Consts) (ctx : CommandContext) (heap : Heap)
    (pTexture NewState : Nat) : Option (CommandContext × Heap) :=
  TransitionResource K ctx heap
    (StateTransitionDesc.ofTexture K pTexture K.RESOURCE_STATE_UNKNOWN NewState true)

/-- The statement
`if (pTexture->IsInKnownState() && !pTexture->CheckState(State)) TransitionResource(pTexture, State);`
of `SetRenderTargets` and of the four clears. -/
def transitionIfNotInState (K : Consts) (ctx : CommandContext) (heap : Heap)
    (pTexture State : Nat) : Option (CommandContext × Heap) :=
  match heap.textures[pTexture]? with
  | none => none
  | some t =>
    if t.IsInKnownState K && !t.CheckState State then
      TransitionResourceTexture K ctx heap pTexture State
    else
      some (ctx, heap)

/-- Recording one native command into the command list. -/
def CommandContext.record (ctx : CommandContext) (c : NativeCommand) : CommandContext :=
  { ctx with m_pCommandList := ctx.m_pCommandList ++ [c] }

/-- The loop over the render targets of `GraphicsContext::SetRenderTargets` (lines 98-124); the
`DEVELOPMENT` branch only reports. -/
def SetRenderTargets.colorTargets (K : Consts) (Flags : Nat) (s : CommandContext × Heap) :
    List (Option TextureViewD3D12) → Option (CommandContext × Heap)
  | [] => some s
  | none :: ppRTVs => SetRenderTargets.colorTargets K Flags s ppRTVs
  | some pRTV :: ppRTVs =>
    if Flags &&& K.SET_RENDER_TARGETS_FLAG_TRANSITION_COLOR ≠ 0 then
      match transitionIfNotInState K s.1 s.2 pRTV.pTexture K.RESOURCE_STATE_RENDER_TARGET with
      | none => none
      | some s1 => SetRenderTargets.colorTargets K Flags s1 ppRTVs
    else
      SetRenderTargets.colorTargets K Flags s ppRTVs

/-- `GraphicsContext::SetRenderTargets`; `ppRTVs` has `NumRTVs` entries, a null view is `none`,
and `RTVHandles` has room for 8 handles. -/
def SetRenderTargets (K : Consts) (ctx : CommandContext) (heap : Heap)
    (ppRTVs : List (Option TextureViewD3D12)) (pDSV : Option TextureViewD3D12) (Flags : Nat) :
    Option (CommandContext × Heap) :=
  if 8 < ppRTVs.length then none
  else
    match SetRenderTargets.colorTargets K Flags (ctx, heap) ppRTVs with
    | none => none
    | some s1 =>
      let RTVHandles := ppRTVs.map fun pRTV => pRTV.map fun v => v.CPUDescriptorHandle
      match pDSV with
      | some dsv =>
        let depth :=
          if Flags &&& K.SET_RENDER_TARGETS_FLAG_TRANSITION_DEPTH ≠ 0 then
            transitionIfNotInState K s1.1 s1.2 dsv.pTexture K.RESOURCE_STATE_DEPTH_WRITE
          else
            some s1
        match depth with
        | none => none
        | some s2 =>
          some (s2.1.record
            (.OMSetRenderTargets ppRTVs.length RTVHandles (some dsv.CPUDescriptorHandle)), s2.2)
      | none =>
        if 0 < ppRTVs.length then
          some (s1.1.record (.OMSetRenderTargets ppRTVs.length RTVHandles none), s1.2)
        else
          some s1

/-- `GraphicsContext::ClearRenderTarget`. -/
def ClearRenderTarget (K : Consts) (ctx : CommandContext) (heap : Heap)
    (pRTV : TextureViewD3D12) : Option (CommandContext × Heap) :=
  match transitionIfNotInState K ctx heap pRTV.pTexture K.RESOURCE_STATE_RENDER_TARGET with
  | none => none
  | some s1 =>
    some ((FlushResourceBarriers s1.1).record
      (.ClearRenderTargetView pRTV.CPUDescriptorHandle), s1.2)

/-- `GraphicsContext::ClearDepthStencil`. -/
def ClearDepthStencil (K : Consts) (ctx : CommandContext) (heap : Heap)
    (pDSV : TextureViewD3D12) (ClearFlags Stencil : Nat) : Option (CommandContext × Heap) :=
  match transitionIfNotInState K ctx heap pDSV.pTexture K.RESOURCE_STATE_DEPTH_WRITE with
  | none => none
  | some s1 =>
    some ((FlushResourceBarriers s1.1).record
      (.ClearDepthStencilView pDSV.CPUDescriptorHandle ClearFlags Stencil), s1.2)

/-- `CommandContext::ClearUAVFloat`; `UNSUPPORTED` only reports. -/
def ClearUAVFloat (K : Consts) (ctx : CommandContext) (heap : Heap)
    (pTexView : TextureViewD3D12) : Option (CommandContext × Heap) :=
  match transitionIfNotInState K ctx heap pTexView.pTexture
      K.RESOURCE_STATE_UNORDERED_ACCESS with
  | none => none
  | some s1 =>
    let ctx2 := FlushResourceBarriers s1.1
    match s1.2.textures[pTexView.pTexture]? with
    | none => none
    | some t =>
      some (ctx2.record
        (.ClearUnorderedAccessViewFloat pTexView.CPUDescriptorHandle t.m_pd3d12Resource), s1.2)

/-- `CommandContext::ClearUAVUint`; `UNSUPPORTED` only reports. -/
def ClearUAVUint (K : Consts) (ctx : CommandContext) (heap : Heap)
    (pTexView : TextureViewD3D12) : Option (CommandContext × Heap) :=
  match transitionIfNotInState K ctx heap pTexView.pTexture
      K.RESOURCE_STATE_UNORDERED_ACCESS with
  | none => none
  | some s1 =>
    let ctx2 := FlushResourceBarriers s1.1
    match s1.2.textures[pTexView.pTexture]? with
    | none => none
    | some t =>
      some (ctx2.record
        (.ClearUnorderedAccessViewUint pTexView.CPUDescriptorHandle t.m_pd3d12Resource), s1.2)

/-- What a part of `SetRenderTargets` may do to the batch of a context: barriers are appended,
and the only commands recorded are capacity flushes, each submitting `MaxPendingBarriers` or
more barriers; below the bound every barrier stays pending. -/
def OnlyCapacityFlushes (K : Consts) (ctx ctx1 : CommandContext) : Prop :=
  ∃ added flushes,
    ctx1.enqueued = ctx.enqueued ++ added ∧
    ctx1.m_pCommandList = ctx.m_pCommandList ++ flushes ∧
    (∀ c ∈ flushes, ∃ batch, c = NativeCommand.ResourceBarrier batch ∧
      K.MaxPendingBarriers ≤ batch.length) ∧
    ((ctx.m_PendingResourceBarriers ++ added).length < K.MaxPendingBarriers →
      flushes = [] ∧ ctx1.m_PendingResourceBarriers = ctx.m_PendingResourceBarriers ++ added)

/-! The whole context: `Close` and `Reset` -/

/-- The `CommandContext` object: the barrier batcher with the command list pointer, the
allocator and the cached bindings. A null pointer is `none`. -/
structure CommandContextObject extends CommandContext where
  m_pCommandListPtr : Option Nat
  m_pCurrentAllocator : Option Nat
  m_pCurPipelineState : Option Nat
  m_pCurGraphicsRootSignature : Option Nat
  m_pCurComputeRootSignature : Option Nat
  m_BoundDescriptorHeaps : Option Nat × Option Nat
  m_DynamicGPUDescriptorAllocators : Option Nat
  m_PrimitiveTopology : Nat
deriving DecidableEq

/-- The condition of `VERIFY_EXPR(m_pCurrentAllocator != nullptr)` in `Close` (line 86). -/
def Close.verify (c : CommandContextObject) : Bool :=
  c.m_pCurrentAllocator.isSome

/-- `CommandContext::Close`: the context after the call, the allocator moved into `pAllocator`
and the returned command list pointer. Calling through a null command list gives no result. -/
def Close (c : CommandContextObject) : Option (CommandContextObject × Option Nat × Nat) :=
  match c.m_pCommandListPtr with
  | none => none
  | some pCommandList =>
    let flushed := FlushResourceBarriers c.toCommandContext
    some ({ c with
        toCommandContext := flushed.record .Close
        m_pCurrentAllocator := none },
      c.m_pCurrentAllocator, pCommandList)

/-- The condition of `VERIFY_EXPR(m_pCommandList != nullptr)`, the only check of `Reset`
(line 55). -/
def Reset.verify (c : CommandContextObject) : Bool :=
  c.m_pCommandListPtr.isSome

/-- `CommandContext::Reset`; `requested` is the allocator that the manager hands out in
`RequestAllocator`. Calling through a null command list gives no result. -/
def Reset (K : Consts) (c : CommandContextObject) (requested : Nat) :
    Option CommandContextObject :=
  let c1 : Option CommandContextObject :=
    match c.m_pCurrentAllocator with
    | some _ => some c
    | none =>
      match c.m_pCommandListPtr with
      | none => none
      | some _ =>
        some { c with
          m_pCurrentAllocator := some requested
          toCommandContext := c.toCommandContext.record (.Reset requested) }
  c1.map fun c1 =>
    { c1 with
      m_pCurPipelineState := none
      m_pCurGraphicsRootSignature := none
      m_pCurComputeRootSignature := none
      m_PendingResourceBarriers := []
      m_BoundDescriptorHeaps := (none, none)
      m_DynamicGPUDescriptorAllocators := none
      m_PrimitiveTopology := K.D3D_PRIMITIVE_TOPOLOGY_UNDEFINED }

/-! Signal, Wait and the values returned along a history -/

/-- `FenceWebGPUImpl::Signal`: the fence after the call and the error reported by
`DEV_ERROR`. -/
def Signal (f : FenceWebGPUImpl) (_Value : Nat) : FenceWebGPUImpl × List String :=
  (f, ["Signal() is not supported in WebGPU backend"])

/-- The loop `while (GetCompletedValue() < Value) m_pDevice->DeviceTick();` of `Wait` in builds
other than the web platform. `IsTriggeredAfter n` gives the triggered flags after `n` calls of
`DeviceTick`, `ticks` counts the calls made so far; the result is the fence on return and the
number of `DeviceTick` calls, and there is none when the loop is still running after `fuel`
polls. -/
def Wait.loop (IsTriggeredAfter : Nat → SyncPoint → Bool) (Value : Nat) :
    Nat → Nat → FenceWebGPUImpl → Option (FenceWebGPUImpl × Nat)
  | 0, _, _ => none
  | fuel + 1, ticks, f =>
    let r := GetCompletedValue (IsTriggeredAfter ticks) f
    if r.2 < Value then
      Wait.loop IsTriggeredAfter Value fuel (ticks + 1) r.1
    else
      some (r.1, ticks)

/-- `FenceWebGPUImpl::Wait` in builds other than the web platform. -/
def Wait (IsTriggeredAfter : Nat → SyncPoint → Bool) (fuel : Nat) (f : FenceWebGPUImpl)
    (Value : Nat) : Option (FenceWebGPUImpl × Nat) :=
  Wait.loop IsTriggeredAfter Value fuel 0 f

/-- The fence before poll number `k` of a `Wait` that is still polling. -/
def Wait.fenceBeforePoll (IsTriggeredAfter : Nat → SyncPoint → Bool) (f : FenceWebGPUImpl) :
    Nat → FenceWebGPUImpl
  | 0 => f
  | k + 1 =>
    (GetCompletedValue (IsTriggeredAfter k) (Wait.fenceBeforePoll IsTriggeredAfter f k)).1

/-- The value returned by poll number `k`, made after `k` calls of `DeviceTick`. -/
def Wait.polled (IsTriggeredAfter : Nat → SyncPoint → Bool) (f : FenceWebGPUImpl)
    (k : Nat) : Nat :=
  (GetCompletedValue (IsTriggeredAfter k) (Wait.fenceBeforePoll IsTriggeredAfter f k)).2

/-- The values returned by the `GetCompletedValue` calls of a history, in order. -/
def returnedValues (w : FenceWorld) : List FenceEvent → List Nat
  | [] => []
  | .getCompletedValue :: evs =>
    (GetCompletedValue w.IsTriggered w.fence).2 ::
      returnedValues (w.step .getCompletedValue) evs
  | e :: evs => returnedValues (w.step e) evs

/-- The order kept by appends with strictly increasing values not below the initial watermark:
the queued values increase strictly and are not below the watermark, and the watermark and the
queued values are the initial watermark or appended values. -/
def FenceOrdered (wm0 : Nat) (hist : List Nat) (queue : List SyncPointGroup) (wm : Nat) :
    Prop :=
  (queue.map Prod.fst).Pairwise (· < ·) ∧
  (∀ q ∈ queue, wm ≤ q.1) ∧
  (wm = wm0 ∨ wm ∈ hist) ∧
  (∀ q ∈ queue, q.1 ∈ hist)

/-! AlignUp -/

/-- Modelled from the spec: `AlignUp` of `Align.hpp`, which is not part of the sources ("the
smallest multiple of a that is not less than v"): the alignment times the quotient of the
value by the alignment, rounded up. -/
def AlignUp (v a : Nat) : Nat :=
  a * ((v + (a - 1)) / a)

/-- The reference value computed by `TEST(Common_Align, AlignUp)` (lines 77-84 of
`AlignTest.cpp`) in unsigned arithmetic of `bits` bits:
`Aligned = (i / Alignment) * Alignment; if (Aligned < i) Aligned += Alignment;`. -/
def alignUpReference (bits i Alignment : Nat) : Nat :=
  let Aligned := (i / Alignment) * Alignment % 2 ^ bits
  if Aligned < i then (Aligned + Alignment) % 2 ^ bits else Aligned

/-- The subresource index carried by a transition barrier. -/
def D3D12_RESOURCE_BARRIER.transitionSubresource : D3D12_RESOURCE_BARRIER → Option Nat
  | .Transition _ Subresource _ _ => some Subresource
  | _ => none

/-! Properties of the fence -/

theorem swapFrontBackPop_length (front : SyncPoint) (rest : List SyncPoint) :
    (swapFrontBackPop (front :: rest)).length = rest.length := by
  cases h : rest.getLast? with
  | none => simp [swapFrontBackPop, List.getLast?_eq_none_iff.mp h]
  | some last =>
    have := List.dropLast_append_getLast? last h
    have hl : rest.length = (rest.dropLast ++ [last]).length := by rw [this]
    simp only [swapFrontBackPop, h]
    simp at hl ⊢
    omega

theorem mem_swapFrontBackPop (front : SyncPoint) (rest : List SyncPoint) (p : SyncPoint) :
    p ∈ swapFrontBackPop (front :: rest) ↔ p ∈ rest := by
  cases h : rest.getLast? with
  | none => simp [swapFrontBackPop, List.getLast?_eq_none_iff.mp h]
  | some last =>
    have := List.dropLast_append_getLast? last h
    simp only [swapFrontBackPop, h]
    constructor
    · intro hp
      rw [← this]
      simp at hp ⊢
      tauto
    · intro hp
      rw [← this] at hp
      simp at hp ⊢
      tauto

/-- With enough fuel the inner loop stops only on an empty group or on an untriggered front. -/
theorem scanSyncPointsLoop_stops (IsTriggered : SyncPoint → Bool) :
    ∀ (fuel : Nat) (pts : List SyncPoint), pts.length ≤ fuel →
      scanSyncPointsLoop IsTriggered fuel pts = [] ∨
      ∃ p rest, scanSyncPointsLoop IsTriggered fuel pts = p :: rest ∧ IsTriggered p = false := by
  intro fuel
  induction fuel with
  | zero =>
    intro pts h
    left
    have : pts = [] := List.length_eq_zero.mp (by omega)
    subst this
    rfl
  | succ n ih =>
    intro pts h
    cases pts with
    | nil => left; rfl
    | cons front rest =>
      by_cases ht : IsTriggered front = true
      · simp only [scanSyncPointsLoop, ht, if_true]
        apply ih
        rw [swapFrontBackPop_length]
        simpa using h
      · right
        refine ⟨front, rest, ?_, by simpa using ht⟩
        simp [scanSyncPointsLoop, ht]

/-- The inner loop removes triggered points only. -/
theorem mem_scanSyncPointsLoop_of_untriggered (IsTriggered : SyncPoint → Bool) :
    ∀ (fuel : Nat) (pts : List SyncPoint) (p : SyncPoint), p ∈ pts → IsTriggered p = false →
      p ∈ scanSyncPointsLoop IsTriggered fuel pts := by
  intro fuel
  induction fuel with
  | zero => intro pts p hp _; exact hp
  | succ n ih =>
    intro pts p hp hu
    cases pts with
    | nil => cases hp
    | cons front rest =>
      by_cases ht : IsTriggered front = true
      · simp only [scanSyncPointsLoop, ht, if_true]
        apply ih _ _ _ hu
        rw [mem_swapFrontBackPop]
        rcases List.mem_cons.mp hp with h | h
        · subst h; rw [ht] at hu; cases hu
        · exact h
      · simpa [scanSyncPointsLoop, ht] using hp

/-- The inner loop adds no point. -/
theorem mem_of_mem_scanSyncPointsLoop (IsTriggered : SyncPoint → Bool) :
    ∀ (fuel : Nat) (pts : List SyncPoint) (p : SyncPoint),
      p ∈ scanSyncPointsLoop IsTriggered fuel pts → p ∈ pts := by
  intro fuel
  induction fuel with
  | zero => intro pts p hp; exact hp
  | succ n ih =>
    intro pts p hp
    cases pts with
    | nil => simp [scanSyncPointsLoop] at hp
    | cons front rest =>
      by_cases ht : IsTriggered front = true
      · simp only [scanSyncPointsLoop, ht, if_true] at hp
        have := ih _ _ hp
        rw [mem_swapFrontBackPop] at this
        exact List.mem_cons_of_mem _ this
      · simpa [scanSyncPointsLoop, ht] using hp

/-- A group is emptied by the scan exactly when all its points are triggered. -/
theorem scanSyncPoints_eq_nil_iff (IsTriggered : SyncPoint → Bool) (pts : List SyncPoint) :
    scanSyncPoints IsTriggered pts = [] ↔ pts.all IsTriggered = true := by
  unfold scanSyncPoints
  constructor
  · intro h
    rw [List.all_eq_true]
    intro p hp
    by_contra hu
    have hu2 : IsTriggered p = false := by simpa using hu
    have := mem_scanSyncPointsLoop_of_untriggered IsTriggered pts.length pts p hp hu2
    rw [h] at this
    cases this
  · intro h
    rw [List.all_eq_true] at h
    rcases scanSyncPointsLoop_stops IsTriggered pts.length pts (le_refl _) with h0 | ⟨p, rest, he, hu⟩
    · exact h0
    · have hp : p ∈ pts := mem_of_mem_scanSyncPointsLoop IsTriggered _ _ p (by rw [he]; simp)
      rw [h p hp] at hu
      cases hu

/-- The outer loop retires the longest leading run of fully triggered groups. -/
theorem processSyncGroups_eq (IsTriggered : SyncPoint → Bool) :
    ∀ (queue : List SyncPointGroup) (f : FenceWebGPUImpl),
      processSyncGroups IsTriggered queue f =
        { m_SyncGroups :=
            match queue.dropWhile (fun g => g.2.all IsTriggered) with
            | [] => []
            | g :: tl => (g.1, scanSyncPoints IsTriggered g.2) :: tl
          m_LastCompletedFenceValue :=
            match (queue.takeWhile (fun g => g.2.all IsTriggered)).getLast? with
            | none => f.m_LastCompletedFenceValue
            | some g => g.1 } := by
  intro queue
  induction queue with
  | nil => intro f; rfl
  | cons g rest ih =>
    intro f
    by_cases hall : g.2.all IsTriggered = true
    · have hnil := (scanSyncPoints_eq_nil_iff IsTriggered g.2).mpr hall
      simp only [processSyncGroups, hnil, List.isEmpty_nil, if_true, ih,
        List.dropWhile_cons, List.takeWhile_cons, hall, UpdateLastCompletedFenceValue]
      cases hl : (List.takeWhile (fun g => g.2.all IsTriggered) rest).getLast? with
      | none =>
        have : List.takeWhile (fun g => g.2.all IsTriggered) rest = [] :=
          List.getLast?_eq_none_iff.mp hl
        simp [this]
      | some x =>
        have : (g :: List.takeWhile (fun g => g.2.all IsTriggered) rest).getLast? = some x := by
          rw [List.getLast?_cons, hl]; rfl
        simp [this]
    · have hne : scanSyncPoints IsTriggered g.2 ≠ [] := fun h =>
        hall ((scanSyncPoints_eq_nil_iff IsTriggered g.2).mp h)
      have hne2 : (scanSyncPoints IsTriggered g.2).isEmpty = false := by
        cases h : scanSyncPoints IsTriggered g.2 with
        | nil => exact absurd h hne
        | cons _ _ => rfl
      simp [processSyncGroups, hne2, List.dropWhile_cons, List.takeWhile_cons, hall]

/-- C2. `GetCompletedValue` removes exactly the longest leading run of groups whose points are
all triggered (an empty group counts), keeps the remaining groups in order (the first of them
with its points scanned), returns the value of the last removed group, and returns the old
watermark with the queue length unchanged when no group is removed.  On groups 10, 20, 30 with
the points of 10 and 20 triggered and none of 30 it returns 20 and leaves group 30 queued. -/
theorem GetCompletedValue_retires_leading_run :
    (∀ (IsTriggered : SyncPoint → Bool) (f : FenceWebGPUImpl),
      let run := f.m_SyncGroups.takeWhile (fun g => g.2.all IsTriggered)
      let rest := f.m_SyncGroups.dropWhile (fun g => g.2.all IsTriggered)
      let r := GetCompletedValue IsTriggered f
      r.1.m_SyncGroups.map Prod.fst = rest.map Prod.fst ∧
      r.1.m_SyncGroups.tail = rest.tail ∧
      (∀ g ∈ rest.head?, r.1.m_SyncGroups.head? = some (g.1, scanSyncPoints IsTriggered g.2)) ∧
      f.m_SyncGroups = run ++ rest ∧
      (∀ g ∈ run, ∀ p ∈ g.2, IsTriggered p = true) ∧
      (∀ g ∈ rest.head?, ∃ p ∈ g.2, IsTriggered p = false) ∧
      (∀ g ∈ run.getLast?, r.2 = g.1) ∧
      r.2 = r.1.m_LastCompletedFenceValue ∧
      (run = [] → r.2 = f.m_LastCompletedFenceValue ∧
        r.1.m_LastCompletedFenceValue = f.m_LastCompletedFenceValue ∧
        r.1.m_SyncGroups.length = f.m_SyncGroups.length)) ∧
    GetCompletedValue (fun p => decide (p < 5))
      ⟨[(10, [1, 2]), (20, [3, 4]), (30, [5, 6])], 0⟩ = (⟨[(30, [5, 6])], 20⟩, 20) := by
  refine ⟨?_, by decide⟩
  intro IsTriggered f
  have htd := List.takeWhile_append_dropWhile (fun g : SyncPointGroup => g.2.all IsTriggered)
    f.m_SyncGroups
  have hrun : ∀ g ∈ f.m_SyncGroups.takeWhile (fun g => g.2.all IsTriggered),
      ∀ p ∈ g.2, IsTriggered p = true := by
    intro g hg
    have := List.mem_takeWhile_imp hg
    exact List.all_eq_true.mp this
  have hhead : ∀ g ∈ (f.m_SyncGroups.dropWhile (fun g => g.2.all IsTriggered)).head?,
      ∃ p ∈ g.2, IsTriggered p = false := by
    intro g hg
    have h1 := List.head?_dropWhile_not (fun g : SyncPointGroup => g.2.all IsTriggered)
      f.m_SyncGroups
    rw [Option.mem_def.mp hg] at h1
    simp only [Bool.not_eq_true] at h1
    by_contra hcon
    push_neg at hcon
    have : g.2.all IsTriggered = true := by
      rw [List.all_eq_true]
      intro p hp
      simpa using hcon p hp
    simp [this] at h1
  simp only [GetCompletedValue, ProcessSyncPoints, processSyncGroups_eq]
  refine ⟨?_, ?_, ?_, htd.symm, hrun, hhead, ?_, trivial, ?_⟩
  · cases f.m_SyncGroups.dropWhile (fun g => g.2.all IsTriggered) <;> simp
  · cases f.m_SyncGroups.dropWhile (fun g => g.2.all IsTriggered) <;> simp
  · intro g hg
    cases hd : f.m_SyncGroups.dropWhile (fun g => g.2.all IsTriggered) with
    | nil => rw [hd] at hg; simp at hg
    | cons a tl => rw [hd] at hg; simp at hg; subst hg; simp
  · intro g hg
    rw [Option.mem_def.mp hg]
  · intro hnil
    rw [hnil]
    refine ⟨rfl, rfl, ?_⟩
    have hq : f.m_SyncGroups = f.m_SyncGroups.dropWhile (fun g => g.2.all IsTriggered) := by
      conv_lhs => rw [← htd, hnil]
      rfl
    cases hd : f.m_SyncGroups.dropWhile (fun g => g.2.all IsTriggered) with
    | nil => rw [hq, hd]
    | cons a tl => rw [hq, hd]; simp [hd]

/-- C3, as stated, fails: on a fresh fence a group appended under value 10 whose only point has
triggered is retired at once, and the check then accepts the smaller value 5. -/
theorem AppendSyncPoints_check_accepts_after_retirement :
    (AppendSyncPoints (fun _ => true) ⟨[], 0⟩ [1] 10).m_SyncGroups = [] ∧
    ¬ (10 < 5) ∧
    AppendSyncPoints.check (AppendSyncPoints (fun _ => true) ⟨[], 0⟩ [1] 10) 5 = true := by
  decide

/-- C3, amended. The check of `AppendSyncPoints` fails exactly when a group is still queued
and the value is not strictly greater than the value of the group at the back of the queue,
the one appended last; with no group queued it passes for every value; and on a queue with
strictly increasing values it fails exactly for the values that are not strictly greater than
every value still queued. -/
theorem AppendSyncPoints_check_fails_iff (f : FenceWebGPUImpl) (Value : Nat) :
    (AppendSyncPoints.check f Value = false ↔
      ∃ back, f.m_SyncGroups.getLast? = some back ∧ Value ≤ back.1) ∧
    (f.m_SyncGroups = [] → AppendSyncPoints.check f Value = true) ∧
    ((f.m_SyncGroups.map Prod.fst).Pairwise (· < ·) →
      (AppendSyncPoints.check f Value = false ↔ ∃ g ∈ f.m_SyncGroups, Value ≤ g.1)) := by
  unfold AppendSyncPoints.check
  cases h : f.m_SyncGroups.getLast? with
  | none =>
    have hq := List.getLast?_eq_none_iff.mp h
    simp [hq]
  | some back =>
    have hq := List.dropLast_append_getLast? back h
    have hne : f.m_SyncGroups ≠ [] := by
      intro h0; rw [h0] at h; cases h
    refine ⟨?_, fun h0 => absurd h0 hne, ?_⟩
    · simp only [decide_eq_false_iff_not, not_lt, Option.some.injEq, exists_eq_left']
    · intro hsorted
      simp only [decide_eq_false_iff_not, not_lt]
      constructor
      · intro hv
        exact ⟨back, by rw [← hq]; simp, hv⟩
      · rintro ⟨g, hg, hv⟩
        rw [← hq] at hg hsorted
        rw [List.map_append, List.pairwise_append] at hsorted
        rcases List.mem_append.mp hg with hg1 | hg1
        · have := hsorted.2.2 g.1 (List.mem_map_of_mem _ hg1) back.1 (by simp)
          omega
        · simp at hg1; subst hg1; exact hv

/-- C3 (amended) on the queue of groups 20 and 10, in this order, and the value 15, which the
check accepts. -/
theorem AppendSyncPoints_check_fails_iff_witness :
    AppendSyncPoints.check ⟨[(20, [1]), (10, [2])], 0⟩ 15 = true ∧
    ((AppendSyncPoints.check ⟨[(20, [1]), (10, [2])], 0⟩ 15 = false ↔
      ∃ back, [((20 : Nat), [(1 : SyncPoint)]), (10, [2])].getLast? = some back ∧
        15 ≤ back.1) ∧
    ((⟨[(20, [1]), (10, [2])], 0⟩ : FenceWebGPUImpl).m_SyncGroups = [] →
      AppendSyncPoints.check ⟨[(20, [1]), (10, [2])], 0⟩ 15 = true) ∧
    (([((20 : Nat), [(1 : SyncPoint)]), (10, [2])].map Prod.fst).Pairwise (· < ·) →
      (AppendSyncPoints.check ⟨[(20, [1]), (10, [2])], 0⟩ 15 = false ↔
        ∃ g ∈ [((20 : Nat), [(1 : SyncPoint)]), (10, [2])], 15 ≤ g.1))) :=
  ⟨by decide, AppendSyncPoints_check_fails_iff ⟨[(20, [1]), (10, [2])], 0⟩ 15⟩

/-- C4, as stated, fails: in the group `[1, 2]` with only point 2 triggered the scan stops at
the untriggered front, and the triggered point 2 stays in the oldest queued group. -/
theorem ProcessSyncPoints_keeps_triggered_point :
    (ProcessSyncPoints (fun p => decide (p = 2)) ⟨[(10, [1, 2])], 0⟩).m_SyncGroups.head?
      = some (10, [1, 2]) ∧
    (2 : SyncPoint) ∈ [1, 2] ∧ (fun p : SyncPoint => decide (p = 2)) 2 = true := by
  decide

/-- C4, amended. After `ProcessSyncPoints` the oldest group still queued is not empty and its
front point is untriggered; the scan removed no untriggered point of it. -/
theorem ProcessSyncPoints_front_untriggered (IsTriggered : SyncPoint → Bool)
    (f : FenceWebGPUImpl) (g : SyncPointGroup)
    (hg : (ProcessSyncPoints IsTriggered f).m_SyncGroups.head? = some g) :
    (∃ p rest, g.2 = p :: rest ∧ IsTriggered p = false) ∧
    ∃ g0 ∈ f.m_SyncGroups, g0.1 = g.1 ∧ (∀ p ∈ g.2, p ∈ g0.2) ∧
      ∀ p ∈ g0.2, IsTriggered p = false → p ∈ g.2 := by
  simp only [ProcessSyncPoints, processSyncGroups_eq] at hg
  cases hd : f.m_SyncGroups.dropWhile (fun g => g.2.all IsTriggered) with
  | nil => rw [hd] at hg; simp at hg
  | cons a tl =>
    rw [hd] at hg
    simp only [List.head?_cons, Option.some.injEq] at hg
    subst hg
    have ha : a ∈ f.m_SyncGroups :=
      (List.dropWhile_sublist _).subset (by rw [hd]; simp)
    have hnall : ¬ (a.2.all IsTriggered = true) := by
      have h1 := List.head?_dropWhile_not (fun g : SyncPointGroup => g.2.all IsTriggered)
        f.m_SyncGroups
      rw [hd] at h1
      simpa using h1
    refine ⟨?_, a, ha, rfl, ?_, ?_⟩
    · rcases scanSyncPointsLoop_stops IsTriggered a.2.length a.2 (le_refl _) with h0 | h1
      · exact absurd ((scanSyncPoints_eq_nil_iff IsTriggered a.2).mp h0) hnall
      · exact h1
    · intro p hp
      exact mem_of_mem_scanSyncPointsLoop IsTriggered _ _ p hp
    · intro p hp hu
      exact mem_scanSyncPointsLoop_of_untriggered IsTriggered _ _ p hp hu

/-- C4 (amended) on the group `[1, 2, 3, 1]` with point 1 triggered. -/
theorem ProcessSyncPoints_front_untriggered_witness :
    (∃ p rest, ((10 : Nat), [(3 : SyncPoint), 2]).2 = p :: rest ∧
      (fun p : SyncPoint => decide (p = 1)) p = false) ∧
    ∃ g0 ∈ (⟨[(10, [1, 2, 3, 1])], 0⟩ : FenceWebGPUImpl).m_SyncGroups,
      g0.1 = ((10 : Nat), [(3 : SyncPoint), 2]).1 ∧
      (∀ p ∈ ((10 : Nat), [(3 : SyncPoint), 2]).2, p ∈ g0.2) ∧
      ∀ p ∈ g0.2, (fun p : SyncPoint => decide (p = 1)) p = false →
        p ∈ ((10 : Nat), [(3 : SyncPoint), 2]).2 :=
  ProcessSyncPoints_front_untriggered (fun p => decide (p = 1)) ⟨[(10, [1, 2, 3, 1])], 0⟩
    (10, [3, 2]) (by decide)

theorem appendedGroups_append (xs ys : List FenceEvent) :
    appendedGroups (xs ++ ys) = appendedGroups xs ++ appendedGroups ys := by
  induction xs with
  | nil => rfl
  | cons e xs ih => cases e <;> simp [appendedGroups, ih]

theorem FenceInv_processSyncGroups (wm0 : Nat) (hist : List SyncPointGroup)
    (IsTriggered : SyncPoint → Bool) :
    ∀ (queue : List SyncPointGroup) (f : FenceWebGPUImpl),
      FenceInv wm0 hist IsTriggered queue f.m_LastCompletedFenceValue →
      FenceInv wm0 hist IsTriggered (processSyncGroups IsTriggered queue f).m_SyncGroups
        (processSyncGroups IsTriggered queue f).m_LastCompletedFenceValue := by
  intro queue
  induction queue with
  | nil => intro f h; exact h
  | cons g rest ih =>
    intro f ⟨hs, hw, hq, hh⟩
    simp only [List.map_cons, List.pairwise_cons] at hs
    by_cases hnil : scanSyncPoints IsTriggered g.2 = []
    · have hall := List.all_eq_true.mp ((scanSyncPoints_eq_nil_iff IsTriggered g.2).mp hnil)
      simp only [processSyncGroups, hnil, List.isEmpty_nil, if_true]
      apply ih
      refine ⟨?_, ?_, ?_, ?_⟩
      · simp only [UpdateLastCompletedFenceValue, List.pairwise_cons]
        exact hs.2
      · right
        exact hq g (by simp)
      · intro q hq1
        exact hq q (List.mem_cons_of_mem _ hq1)
      · intro h0 hh0
        rcases hh h0 hh0 with h1 | ⟨pts, hmem, hpts⟩
        · exact Or.inl h1
        · rcases List.mem_cons.mp hmem with he | hr
          · left
            intro p hp
            rcases hpts p hp with h2 | h2
            · exact h2
            · have : g.2 = pts := by rw [← he]
              exact hall p (by rw [this]; exact h2)
          · exact Or.inr ⟨pts, hr, hpts⟩
    · have hne2 : (scanSyncPoints IsTriggered g.2).isEmpty = false := by
        cases h : scanSyncPoints IsTriggered g.2 with
        | nil => exact absurd h hnil
        | cons _ _ => rfl
      simp only [processSyncGroups, hne2]
      refine ⟨?_, hw, ?_, ?_⟩
      · simpa using hs
      · intro q hq1
        rcases List.mem_cons.mp hq1 with he | hr
        · subst he; exact hq g (by simp)
        · exact hq q (List.mem_cons_of_mem _ hr)
      · intro h0 hh0
        rcases hh h0 hh0 with h1 | ⟨pts, hmem, hpts⟩
        · exact Or.inl h1
        · rcases List.mem_cons.mp hmem with he | hr
          · right
            refine ⟨scanSyncPoints IsTriggered g.2, ?_, ?_⟩
            · have : h0.1 = g.1 := by rw [← he]
              rw [this]; simp
            · intro p hp
              have hgp : g.2 = pts := by rw [← he]
              rcases hpts p hp with h2 | h2
              · exact Or.inl h2
              · by_cases ht : IsTriggered p = true
                · exact Or.inl ht
                · right
                  exact mem_scanSyncPointsLoop_of_untriggered IsTriggered _ _ p
                    (by rw [hgp]; exact h2) (by simpa using ht)
          · exact Or.inr ⟨pts, List.mem_cons_of_mem _ hr, hpts⟩

theorem FenceInv_trigger (wm0 : Nat) (hist : List SyncPointGroup)
    (t t2 : SyncPoint → Bool) (queue : List SyncPointGroup) (wm : Nat)
    (hmono : ∀ p, t p = true → t2 p = true) (h : FenceInv wm0 hist t queue wm) :
    FenceInv wm0 hist t2 queue wm := by
  obtain ⟨hs, hw, hq, hh⟩ := h
  refine ⟨hs, hw, hq, ?_⟩
  intro g hg
  rcases hh g hg with h1 | ⟨pts, hmem, hpts⟩
  · exact Or.inl fun p hp => hmono p (h1 p hp)
  · exact Or.inr ⟨pts, hmem, fun p hp => (hpts p hp).imp (hmono p) id⟩

theorem FenceInv_append (wm0 : Nat) (hist : List SyncPointGroup)
    (t : SyncPoint → Bool) (queue : List SyncPointGroup) (wm : Nat)
    (SyncPoints : List SyncPoint) (Value : Nat)
    (hnew : ∀ v ∈ hist.map Prod.fst, v < Value) (hwm0 : wm0 < Value)
    (h : FenceInv wm0 hist t queue wm) :
    FenceInv wm0 (hist ++ [(Value, SyncPoints)]) t (queue ++ [(Value, SyncPoints)]) wm := by
  obtain ⟨hs, hw, hq, hh⟩ := h
  have hwv : wm < Value := by
    rcases hw with h1 | h1
    · omega
    · exact hnew wm h1
  refine ⟨?_, ?_, ?_, ?_⟩
  · simp only [List.map_append, List.map_cons, List.map_nil]
    rw [← List.cons_append, List.pairwise_append]
    refine ⟨hs, by simp, ?_⟩
    intro a ha b hb
    simp only [List.mem_singleton] at hb
    subst hb
    rcases List.mem_cons.mp ha with h1 | h1
    · omega
    · obtain ⟨q, hq1, rfl⟩ := List.mem_map.mp h1
      exact hnew q.1 (hq q hq1)
  · rcases hw with h1 | h1
    · exact Or.inl h1
    · right; simp only [List.map_append, List.mem_append]; exact Or.inl h1
  · intro q hq1
    simp only [List.map_append, List.mem_append]
    rcases List.mem_append.mp hq1 with h1 | h1
    · exact Or.inl (hq q h1)
    · right; simp at h1; subst h1; simp
  · intro g hg
    rcases List.mem_append.mp hg with h1 | h1
    · rcases hh g h1 with h2 | ⟨pts, hmem, hpts⟩
      · exact Or.inl h2
      · exact Or.inr ⟨pts, List.mem_append_left _ hmem, hpts⟩
    · simp at h1; subst h1
      exact Or.inr ⟨SyncPoints, by simp, fun p hp => Or.inr hp⟩

/-- The invariant holds after every history of a fresh fence whose appended values are strictly
increasing and above the initial watermark. -/
theorem FenceInv_run (wm0 : Nat) (t0 : SyncPoint → Bool) :
    ∀ evs : List FenceEvent,
      ((appendedGroups evs).map Prod.fst).Pairwise (· < ·) →
      (∀ g ∈ appendedGroups evs, wm0 < g.1) →
      FenceInv wm0 (appendedGroups evs) (FenceWorld.run ⟨⟨[], wm0⟩, t0⟩ evs).IsTriggered
        (FenceWorld.run ⟨⟨[], wm0⟩, t0⟩ evs).fence.m_SyncGroups
        (FenceWorld.run ⟨⟨[], wm0⟩, t0⟩ evs).fence.m_LastCompletedFenceValue := by
  intro evs
  induction evs using List.reverseRecOn with
  | nil =>
    intro _ _
    exact ⟨by simp [FenceWorld.run], Or.inl rfl, by simp [FenceWorld.run],
      by simp [appendedGroups]⟩
  | append_singleton evs e ih =>
    intro hp hw
    rw [appendedGroups_append] at hp hw ⊢
    have hp1 : ((appendedGroups evs).map Prod.fst).Pairwise (· < ·) := by
      rw [List.map_append, List.pairwise_append] at hp
      exact hp.1
    have hw1 : ∀ g ∈ appendedGroups evs, wm0 < g.1 :=
      fun g hg => hw g (List.mem_append_left _ hg)
    have ih1 := ih hp1 hw1
    simp only [FenceWorld.run, List.foldl_append, List.foldl_cons, List.foldl_nil] at ih1 ⊢
    cases e with
    | append SyncPoints Value =>
      simp only [appendedGroups] at hp hw ⊢
      simp only [FenceWorld.step, AppendSyncPoints, ProcessSyncPoints]
      apply FenceInv_processSyncGroups
      apply FenceInv_append _ _ _ _ _ _ _ _ _ ih1
      · intro v hv
        rw [List.map_append, List.pairwise_append] at hp
        exact hp.2.2 v hv Value (by simp)
      · exact hw (Value, SyncPoints) (by simp)
    | trigger p =>
      simp only [appendedGroups, List.append_nil, FenceWorld.step]
      refine FenceInv_trigger _ _ _ _ _ _ ?_ ih1
      intro q hq
      simp [hq]
    | getCompletedValue =>
      simp only [appendedGroups, List.append_nil, FenceWorld.step, GetCompletedValue,
        ProcessSyncPoints]
      exact FenceInv_processSyncGroups _ _ _ _ _ ih1

/-- C1. Fence safety: on a fresh fence, after any history of `AppendSyncPoints` calls, trigger
events and `GetCompletedValue` calls whose appended values are strictly increasing and above
the initial watermark, a `GetCompletedValue` call returning `w` finds every sync point of every
group appended under a value `≤ w` triggered; so `w` is below the value of every group that
holds an untriggered point and of every group appended after it. -/
theorem fence_safety (wm0 : Nat) (t0 : SyncPoint → Bool) (evs : List FenceEvent)
    (hinc : ((appendedGroups evs).map Prod.fst).Pairwise (· < ·))
    (habove : ∀ g ∈ appendedGroups evs, wm0 < g.1) :
    let w := FenceWorld.run ⟨⟨[], wm0⟩, t0⟩ evs
    let ret := (GetCompletedValue w.IsTriggered w.fence).2
    (∀ g ∈ appendedGroups evs, g.1 ≤ ret → ∀ p ∈ g.2, w.IsTriggered p = true) ∧
    (∀ older g newer, appendedGroups evs = older ++ g :: newer →
      (∃ p ∈ g.2, w.IsTriggered p = false) → ∀ g2 ∈ g :: newer, ret < g2.1) := by
  intro w ret
  have hinv := FenceInv_processSyncGroups wm0 (appendedGroups evs) w.IsTriggered
    w.fence.m_SyncGroups w.fence (FenceInv_run wm0 t0 evs hinc habove)
  obtain ⟨hs, _, _, hh⟩ := hinv
  have main : ∀ g ∈ appendedGroups evs, g.1 ≤ ret → ∀ p ∈ g.2, w.IsTriggered p = true := by
    intro g hg hle
    rcases hh g hg with h1 | ⟨pts, hmem, _⟩
    · exact h1
    · exfalso
      rw [List.pairwise_cons] at hs
      have := hs.1 g.1 (List.mem_map.mpr ⟨(g.1, pts), hmem, rfl⟩)
      have hret : ret = (processSyncGroups w.IsTriggered w.fence.m_SyncGroups
          w.fence).m_LastCompletedFenceValue := rfl
      omega
  refine ⟨main, ?_⟩
  intro older g newer heq ⟨p, hp, hu⟩ g2 hg2
  have hgm : g ∈ appendedGroups evs := by rw [heq]; simp
  have hlt : ret < g.1 := by
    by_contra hcon
    have := main g hgm (by omega) p hp
    rw [this] at hu
    cases hu
  rcases List.mem_cons.mp hg2 with h1 | h1
  · subst h1; exact hlt
  · rw [heq, List.map_append, List.map_cons, List.pairwise_append, List.pairwise_cons] at hinc
    have := hinc.2.1.1 g2.1 (List.mem_map_of_mem Prod.fst h1)
    omega

/-- C1 at a history with two groups in which the point of the newer group triggers first and
every point has triggered by the end, so that the final `GetCompletedValue` returns 20. -/
theorem fence_safety_witness :
    let w := FenceWorld.run ⟨⟨[], 0⟩, fun _ => false⟩
      [.append [1, 2] 10, .append [3] 20, .trigger 3, .trigger 1, .getCompletedValue,
        .trigger 2]
    let ret := (GetCompletedValue w.IsTriggered w.fence).2
    (∀ g ∈ appendedGroups [.append [1, 2] 10, .append [3] 20, .trigger 3, .trigger 1,
        .getCompletedValue, .trigger 2],
      g.1 ≤ ret → ∀ p ∈ g.2, w.IsTriggered p = true) ∧
    (∀ older g newer, appendedGroups [.append [1, 2] 10, .append [3] 20, .trigger 3,
        .trigger 1, .getCompletedValue, .trigger 2] = older ++ g :: newer →
      (∃ p ∈ g.2, w.IsTriggered p = false) → ∀ g2 ∈ g :: newer, ret < g2.1) :=
  fence_safety 0 (fun _ => false)
    [.append [1, 2] 10, .append [3] 20, .trigger 3, .trigger 1, .getCompletedValue, .trigger 2]
    (by decide) (by decide)

/-! Properties of the barrier batcher -/

theorem enqueued_FlushResourceBarriers (ctx : CommandContext) :
    (FlushResourceBarriers ctx).enqueued = ctx.enqueued := by
  simp [FlushResourceBarriers, CommandContext.enqueued, List.flatMap_append]

/-- A call enqueues on the context exactly the barriers computed for the resource. -/
theorem enqueued_core (K : Consts) (ctx : CommandContext) (res : Resource)
    (Barrier : StateTransitionDesc) :
    (TransitionResource.core K ctx res Barrier).1.enqueued =
      ctx.enqueued ++ (TransitionResource.enqueue K res Barrier).1 := by
  unfold TransitionResource.core
  dsimp only
  split
  · rw [enqueued_FlushResourceBarriers]
    simp [CommandContext.enqueued]
  · simp [CommandContext.enqueued]

theorem core_snd (K : Consts) (ctx : CommandContext) (res : Resource)
    (Barrier : StateTransitionDesc) :
    (TransitionResource.core K ctx res Barrier).2 = (TransitionResource.enqueue K res Barrier).2 :=
  rfl

theorem lor_eq_left_of_land_eq (a b : Nat) (h : a &&& b = b) : a ||| b = a := by
  apply Nat.eq_of_testBit_eq
  intro i
  have hb : (a &&& b).testBit i = b.testBit i := by rw [h]
  rw [Nat.testBit_land] at hb
  rw [Nat.testBit_lor]
  cases ha : a.testBit i <;> cases hbb : b.testBit i <;> simp_all

/-- C5, as stated, fails: a texture tracked in the unordered-access state and asked for the
unordered-access state has every requested bit, and one UAV barrier is appended. -/
theorem TransitionResource_noop_appends_uav :
    TransitionResource.oldState sampleConsts (.texture ⟨7, 0x20, 1, 1⟩)
        ⟨some 0, none, 0, 0xFFFFFFFF, 0, 0xFFFFFFFF, 0, 0x20, true⟩ &&& 0x20 = 0x20 ∧
    (TransitionResource.core sampleConsts ⟨[], []⟩ (.texture ⟨7, 0x20, 1, 1⟩)
        ⟨some 0, none, 0, 0xFFFFFFFF, 0, 0xFFFFFFFF, 0, 0x20, true⟩).1.m_PendingResourceBarriers
      = [.UAV 7] := by
  decide

/-- C5, amended. When the old state used by the transition has every bit of the requested
state, and the two are not both the unordered-access state, `TransitionResource` appends no
barrier and leaves the resource unchanged; below the capacity bound the context is unchanged. -/
theorem TransitionResource_noop (K : Consts) (ctx : CommandContext) (res : Resource)
    (Barrier : StateTransitionDesc)
    (hsub : TransitionResource.oldState K res Barrier &&& Barrier.NewState = Barrier.NewState)
    (hnuav : ¬ (TransitionResource.oldState K res Barrier = K.RESOURCE_STATE_UNORDERED_ACCESS ∧
      Barrier.NewState = K.RESOURCE_STATE_UNORDERED_ACCESS)) :
    (TransitionResource.core K ctx res Barrier).1.enqueued = ctx.enqueued ∧
    (TransitionResource.core K ctx res Barrier).2 = res ∧
    (ctx.m_PendingResourceBarriers.length < K.MaxPendingBarriers →
      (TransitionResource.core K ctx res Barrier).1 = ctx) := by
  have he : TransitionResource.enqueue K res Barrier = ([], res) := by
    unfold TransitionResource.enqueue
    simp only [hsub, ne_eq, not_true_eq_false, if_false, hnuav, List.append_nil]
  refine ⟨?_, ?_, ?_⟩
  · rw [enqueued_core, he, List.append_nil]
  · rw [core_snd, he]
  · intro hlt
    unfold TransitionResource.core
    simp only [he, List.append_nil]
    rw [if_neg (by omega)]

/-- C5 (amended) on a buffer already in a superset of the requested state. -/
theorem TransitionResource_noop_witness :
    (TransitionResource.core sampleConsts ⟨[.UAV 3], []⟩ (.buffer ⟨7, 0x102, 0, 0⟩)
        ⟨none, some 0, 0, 0, 0, 0, 0, 0x100, true⟩).1.enqueued
      = (⟨[.UAV 3], []⟩ : CommandContext).enqueued ∧
    (TransitionResource.core sampleConsts ⟨[.UAV 3], []⟩ (.buffer ⟨7, 0x102, 0, 0⟩)
        ⟨none, some 0, 0, 0, 0, 0, 0, 0x100, true⟩).2 = .buffer ⟨7, 0x102, 0, 0⟩ ∧
    ((⟨[.UAV 3], []⟩ : CommandContext).m_PendingResourceBarriers.length
        < sampleConsts.MaxPendingBarriers →
      (TransitionResource.core sampleConsts ⟨[.UAV 3], []⟩ (.buffer ⟨7, 0x102, 0, 0⟩)
        ⟨none, some 0, 0, 0, 0, 0, 0, 0x100, true⟩).1 = ⟨[.UAV 3], []⟩) :=
  TransitionResource_noop sampleConsts ⟨[.UAV 3], []⟩ (.buffer ⟨7, 0x102, 0, 0⟩)
    ⟨none, some 0, 0, 0, 0, 0, 0, 0x100, true⟩ (by decide) (by decide)

/-- Every barrier built from `BarrierDesc` is a transition barrier of the resource, with the
before and after states of `BarrierDesc`. -/
theorem transitionBarriers_states (K : Consts) (res : Resource) (Barrier : StateTransitionDesc)
    (StateBefore StateAfter : Nat) :
    ∀ b ∈ TransitionResource.transitionBarriers K res Barrier StateBefore StateAfter,
      ∃ sub, b = .Transition res.GetD3D12Resource sub StateBefore StateAfter := by
  intro b hb
  unfold TransitionResource.transitionBarriers at hb
  cases res with
  | texture t =>
    simp only at hb
    split at hb
    · simp only [List.mem_singleton] at hb
      exact ⟨_, hb⟩
    · simp only [List.mem_flatMap, List.mem_map] at hb
      obtain ⟨mip, _, slice, _, rfl⟩ := hb
      exact ⟨_, rfl⟩
  | buffer bf =>
    simp only [List.mem_singleton] at hb
    exact ⟨_, hb⟩

theorem GetState_SetState (res : Resource) (State : Nat) :
    (res.SetState State).GetState = State := by
  cases res <;> rfl

/-- C6. Read-state merge: for a resource whose known tracked state `A` and the requested state
`B` are both subsets of `RESOURCE_STATE_GENERIC_READ`, with state tracking enabled, the tracked
state after `TransitionResource` is `A | B`, and every transition barrier appended by the call
goes from the conversion of `A` to the conversion of `A | B`. -/
theorem TransitionResource_read_merge (K : Consts) (ctx : CommandContext) (res : Resource)
    (Barrier : StateTransitionDesc)
    (hknown : res.GetState ≠ K.RESOURCE_STATE_UNKNOWN)
    (hA : res.GetState &&& K.RESOURCE_STATE_GENERIC_READ = res.GetState)
    (hB : Barrier.NewState &&& K.RESOURCE_STATE_GENERIC_READ = Barrier.NewState)
    (hupd : Barrier.UpdateResourceState = true) :
    (TransitionResource.core K ctx res Barrier).2.GetState
      = res.GetState ||| Barrier.NewState ∧
    ∃ added, (TransitionResource.core K ctx res Barrier).1.enqueued = ctx.enqueued ++ added ∧
      ∀ b ∈ added, ∀ pResource sub before after,
        b = D3D12_RESOURCE_BARRIER.Transition pResource sub before after →
        before = K.ResourceStateFlagsToD3D12ResourceStates res.GetState ∧
        after = K.ResourceStateFlagsToD3D12ResourceStates
          (res.GetState ||| Barrier.NewState) := by
  have hold : TransitionResource.oldState K res Barrier = res.GetState := by
    unfold TransitionResource.oldState
    rw [if_neg hknown]
  have hnew : TransitionResource.newState K res.GetState Barrier
      = res.GetState ||| Barrier.NewState := by
    unfold TransitionResource.newState
    rw [if_pos ⟨hA, hB⟩]
  refine ⟨?_, (TransitionResource.enqueue K res Barrier).1, enqueued_core K ctx res Barrier, ?_⟩
  · rw [core_snd]
    unfold TransitionResource.enqueue
    simp only [hold, hnew, hupd, if_true]
    by_cases hs : res.GetState &&& Barrier.NewState = Barrier.NewState
    · simp only [hs, ne_eq, not_true_eq_false, if_false]
      exact (lor_eq_left_of_land_eq _ _ hs).symm
    · simp only [hs, ne_eq, not_false_eq_true, if_true]
      exact GetState_SetState _ _
  · intro b hb pResource sub before after hbe
    unfold TransitionResource.enqueue at hb
    simp only [hold, hnew] at hb
    rcases List.mem_append.mp hb with h1 | h1
    · split at h1
      · obtain ⟨s, hs⟩ := transitionBarriers_states K res Barrier _ _ b h1
        rw [hs] at hbe
        cases hbe
        exact ⟨rfl, rfl⟩
      · cases h1
    · split at h1
      · simp only [List.mem_singleton] at h1
        rw [h1] at hbe
        cases hbe
      · cases h1

/-- C6 on a texture going from the shader-resource bit to the copy-source bit. -/
theorem TransitionResource_read_merge_witness :
    (TransitionResource.core sampleConsts ⟨[], []⟩ (.texture ⟨7, 0x100, 3, 2⟩)
        ⟨some 0, none, 0, 0xFFFFFFFF, 0, 0xFFFFFFFF, 0, 0x1000, true⟩).2.GetState
      = (Resource.texture ⟨7, 0x100, 3, 2⟩).GetState ||| 0x1000 ∧
    ∃ added, (TransitionResource.core sampleConsts ⟨[], []⟩ (.texture ⟨7, 0x100, 3, 2⟩)
        ⟨some 0, none, 0, 0xFFFFFFFF, 0, 0xFFFFFFFF, 0, 0x1000, true⟩).1.enqueued
        = (⟨[], []⟩ : CommandContext).enqueued ++ added ∧
      ∀ b ∈ added, ∀ pResource sub before after,
        b = D3D12_RESOURCE_BARRIER.Transition pResource sub before after →
        before = sampleConsts.ResourceStateFlagsToD3D12ResourceStates
          (Resource.texture ⟨7, 0x100, 3, 2⟩).GetState ∧
        after = sampleConsts.ResourceStateFlagsToD3D12ResourceStates
          ((Resource.texture ⟨7, 0x100, 3, 2⟩).GetState ||| 0x1000) :=
  TransitionResource_read_merge sampleConsts ⟨[], []⟩ (.texture ⟨7, 0x100, 3, 2⟩)
    ⟨some 0, none, 0, 0xFFFFFFFF, 0, 0xFFFFFFFF, 0, 0x1000, true⟩
    (by decide) (by decide) (by decide) rfl

/-- C7. Full-extent collapse: a transition that is not a no-op, directed at a buffer or at a
texture with a range covering all mips and slices, appends exactly one barrier, a transition
barrier of the resource whose subresource is `D3D12_RESOURCE_BARRIER_ALL_SUBRESOURCES`,
whatever the numbers of mips and slices. -/
theorem TransitionResource_full_extent (K : Consts) (ctx : CommandContext) (res : Resource)
    (Barrier : StateTransitionDesc)
    (hne : TransitionResource.oldState K res Barrier &&& Barrier.NewState ≠ Barrier.NewState)
    (hfull : ∀ t, res = .texture t →
      Barrier.FirstMipLevel = 0 ∧
      (Barrier.MipLevelsCount = t.MipLevels ∨ Barrier.MipLevelsCount = K.RemainingMipLevels) ∧
      Barrier.FirstArraySlice = 0 ∧
      (Barrier.ArraySliceCount = t.ArraySize ∨
        Barrier.ArraySliceCount = K.RemainingArraySlices)) :
    (TransitionResource.core K ctx res Barrier).1.enqueued = ctx.enqueued ++
      [.Transition res.GetD3D12Resource K.D3D12_RESOURCE_BARRIER_ALL_SUBRESOURCES
        (K.ResourceStateFlagsToD3D12ResourceStates (TransitionResource.oldState K res Barrier))
        (K.ResourceStateFlagsToD3D12ResourceStates
          (TransitionResource.newState K (TransitionResource.oldState K res Barrier)
            Barrier))] := by
  rw [enqueued_core]
  congr 1
  have hnuav : ¬ (TransitionResource.oldState K res Barrier = K.RESOURCE_STATE_UNORDERED_ACCESS ∧
      Barrier.NewState = K.RESOURCE_STATE_UNORDERED_ACCESS) := by
    rintro ⟨h1, h2⟩
    apply hne
    rw [h1, h2]
    simp
  unfold TransitionResource.enqueue
  simp only [hne, ne_eq, not_false_eq_true, if_true, hnuav, if_false, List.append_nil]
  cases res with
  | buffer b => rfl
  | texture t =>
    obtain ⟨h1, h2, h3, h4⟩ := hfull t rfl
    have hc : TransitionResource.coversAll K t Barrier = true := by
      unfold TransitionResource.coversAll
      rcases h2 with h2 | h2 <;> rcases h4 with h4 | h4 <;> simp [h1, h2, h3, h4]
    simp [TransitionResource.transitionBarriers, hc, Resource.GetD3D12Resource]

/-- C7 on a texture with 5 mips and 6 slices and the range (0, 5, 0, remaining). -/
theorem TransitionResource_full_extent_witness :
    (TransitionResource.core sampleConsts ⟨[], []⟩ (.texture ⟨7, 0x10, 5, 6⟩)
        ⟨some 0, none, 0, 5, 0, 0xFFFFFFFF, 0, 0x100, true⟩).1.enqueued
      = (⟨[], []⟩ : CommandContext).enqueued ++
      [.Transition (Resource.texture ⟨7, 0x10, 5, 6⟩).GetD3D12Resource
        sampleConsts.D3D12_RESOURCE_BARRIER_ALL_SUBRESOURCES
        (sampleConsts.ResourceStateFlagsToD3D12ResourceStates
          (TransitionResource.oldState sampleConsts (.texture ⟨7, 0x10, 5, 6⟩)
            ⟨some 0, none, 0, 5, 0, 0xFFFFFFFF, 0, 0x100, true⟩))
        (sampleConsts.ResourceStateFlagsToD3D12ResourceStates
          (TransitionResource.newState sampleConsts
            (TransitionResource.oldState sampleConsts (.texture ⟨7, 0x10, 5, 6⟩)
              ⟨some 0, none, 0, 5, 0, 0xFFFFFFFF, 0, 0x100, true⟩)
            ⟨some 0, none, 0, 5, 0, 0xFFFFFFFF, 0, 0x100, true⟩))] :=
  TransitionResource_full_extent sampleConsts ⟨[], []⟩ (.texture ⟨7, 0x10, 5, 6⟩)
    ⟨some 0, none, 0, 5, 0, 0xFFFFFFFF, 0, 0x100, true⟩ (by decide)
    (by
      intro t ht
      cases ht
      decide)

/-- The barrier list of a transition that is not a no-op: the transition barriers alone. -/
theorem enqueue_fst_of_transition (K : Consts) (res : Resource) (Barrier : StateTransitionDesc)
    (hne : TransitionResource.oldState K res Barrier &&& Barrier.NewState ≠ Barrier.NewState) :
    (TransitionResource.enqueue K res Barrier).1
      = TransitionResource.transitionBarriers K res Barrier
        (K.ResourceStateFlagsToD3D12ResourceStates (TransitionResource.oldState K res Barrier))
        (K.ResourceStateFlagsToD3D12ResourceStates
          (TransitionResource.newState K (TransitionResource.oldState K res Barrier)
            Barrier)) := by
  have hnuav : ¬ (TransitionResource.oldState K res Barrier
        = K.RESOURCE_STATE_UNORDERED_ACCESS ∧
      Barrier.NewState = K.RESOURCE_STATE_UNORDERED_ACCESS) := by
    rintro ⟨h1, h2⟩
    apply hne
    rw [h1, h2]
    simp
  unfold TransitionResource.enqueue
  simp only [hne, ne_eq, not_false_eq_true, if_true, hnuav, if_false, List.append_nil]

/-- The barriers of the split branch (lines 320-332): one for each (mip, slice) pair of the
range, mip-major, carrying the 32-bit subresource index. -/
theorem transitionBarriers_split (K : Consts) (t : TextureD3D12Impl)
    (Barrier : StateTransitionDesc) (mipCount sliceCount StateBefore StateAfter : Nat)
    (hM : t.MipLevels < 2 ^ 32) (hA : t.ArraySize < 2 ^ 32)
    (hmc : mipCount = if Barrier.MipLevelsCount = K.RemainingMipLevels
      then t.MipLevels - Barrier.FirstMipLevel else Barrier.MipLevelsCount)
    (hsc : sliceCount = if Barrier.ArraySliceCount = K.RemainingArraySlices
      then t.ArraySize - Barrier.FirstArraySlice else Barrier.ArraySliceCount)
    (hmips : Barrier.FirstMipLevel + mipCount ≤ t.MipLevels)
    (hslices : Barrier.FirstArraySlice + sliceCount ≤ t.ArraySize)
    (hpart : TransitionResource.coversAll K t Barrier = false) :
    TransitionResource.transitionBarriers K (.texture t) Barrier StateBefore StateAfter
      = (List.product (List.range' Barrier.FirstMipLevel mipCount)
          (List.range' Barrier.FirstArraySlice sliceCount)).map
        (fun ms => .Transition t.m_pd3d12Resource ((ms.1 + ms.2 * t.MipLevels) % 2 ^ 32)
          StateBefore StateAfter) := by
  have hEndMip : (if Barrier.MipLevelsCount = K.RemainingMipLevels then t.MipLevels
      else (Barrier.FirstMipLevel + Barrier.MipLevelsCount) % 2 ^ 32) - Barrier.FirstMipLevel
      = mipCount := by
    by_cases h : Barrier.MipLevelsCount = K.RemainingMipLevels
    · rw [if_pos h] at hmc ⊢
      exact hmc.symm
    · rw [if_neg h] at hmc ⊢
      subst hmc
      rw [Nat.mod_eq_of_lt (by omega)]
      omega
  have hEndSlice : (if Barrier.ArraySliceCount = K.RemainingArraySlices then t.ArraySize
      else (Barrier.FirstArraySlice + Barrier.ArraySliceCount) % 2 ^ 32)
        - Barrier.FirstArraySlice = sliceCount := by
    by_cases h : Barrier.ArraySliceCount = K.RemainingArraySlices
    · rw [if_pos h] at hsc ⊢
      exact hsc.symm
    · rw [if_neg h] at hsc ⊢
      subst hsc
      rw [Nat.mod_eq_of_lt (by omega)]
      omega
  simp only [TransitionResource.transitionBarriers, hpart, Bool.false_eq_true, if_false,
    hEndMip, hEndSlice, List.product, List.map_flatMap, List.map_map]
  congr 1
  funext mip
  congr 1
  funext slice
  simp only [Function.comp_apply, D3D12CalcSubresource, Nat.zero_mul, Nat.add_zero]

/-- A (mip, slice) pair of a range within the extents of the texture has a subresource index
below `MipLevels × ArraySize`. -/
theorem split_index_lt (t : TextureD3D12Impl) (FirstMip mipCount FirstSlice sliceCount : Nat)
    (hmips : FirstMip + mipCount ≤ t.MipLevels)
    (hslices : FirstSlice + sliceCount ≤ t.ArraySize) (ms : Nat × Nat)
    (hms : ms ∈ List.product (List.range' FirstMip mipCount)
      (List.range' FirstSlice sliceCount)) :
    ms.1 < t.MipLevels ∧ ms.2 < t.ArraySize ∧
      ms.1 + ms.2 * t.MipLevels < t.MipLevels * t.ArraySize := by
  obtain ⟨m, s⟩ := ms
  rw [List.pair_mem_product, List.mem_range'_1, List.mem_range'_1] at hms
  have b1 : m < t.MipLevels := by omega
  have b2 : s < t.ArraySize := by omega
  refine ⟨b1, b2, ?_⟩
  have h1 : (s + 1) * t.MipLevels ≤ t.ArraySize * t.MipLevels :=
    Nat.mul_le_mul_right _ (by omega)
  rw [Nat.add_mul, Nat.one_mul, Nat.mul_comm t.ArraySize] at h1
  show m + s * t.MipLevels < t.MipLevels * t.ArraySize
  omega

/-- The subresource index determines the (mip, slice) pair among the mips of the texture. -/
theorem split_index_injective (MipLevels m1 s1 m2 s2 : Nat) (b1 : m1 < MipLevels)
    (b2 : m2 < MipLevels) (heq : m1 + s1 * MipLevels = m2 + s2 * MipLevels) :
    m1 = m2 ∧ s1 = s2 := by
  have hmod : (m1 + s1 * MipLevels) % MipLevels = (m2 + s2 * MipLevels) % MipLevels := by
    rw [heq]
  rw [Nat.add_mul_mod_self_right, Nat.add_mul_mod_self_right, Nat.mod_eq_of_lt b1,
    Nat.mod_eq_of_lt b2] at hmod
  subst hmod
  have hs : s1 * MipLevels = s2 * MipLevels := by omega
  have hpos : 0 < MipLevels := by omega
  exact ⟨rfl, Nat.eq_of_mul_eq_mul_right hpos hs⟩

/-- The barriers of the split branch of a texture with at most `2^32` subresources: the
subresource index of (mip, slice) is `mip + slice × MipLevels`. -/
theorem transitionBarriers_split_unwrapped (K : Consts) (t : TextureD3D12Impl)
    (Barrier : StateTransitionDesc) (mipCount sliceCount StateBefore StateAfter : Nat)
    (hM : t.MipLevels < 2 ^ 32) (hA : t.ArraySize < 2 ^ 32)
    (hmc : mipCount = if Barrier.MipLevelsCount = K.RemainingMipLevels
      then t.MipLevels - Barrier.FirstMipLevel else Barrier.MipLevelsCount)
    (hsc : sliceCount = if Barrier.ArraySliceCount = K.RemainingArraySlices
      then t.ArraySize - Barrier.FirstArraySlice else Barrier.ArraySliceCount)
    (hmips : Barrier.FirstMipLevel + mipCount ≤ t.MipLevels)
    (hslices : Barrier.FirstArraySlice + sliceCount ≤ t.ArraySize)
    (hpart : TransitionResource.coversAll K t Barrier = false)
    (hbound : t.MipLevels * t.ArraySize ≤ 2 ^ 32) :
    TransitionResource.transitionBarriers K (.texture t) Barrier StateBefore StateAfter
      = (List.product (List.range' Barrier.FirstMipLevel mipCount)
          (List.range' Barrier.FirstArraySlice sliceCount)).map
        (fun ms => .Transition t.m_pd3d12Resource (ms.1 + ms.2 * t.MipLevels)
          StateBefore StateAfter) := by
  rw [transitionBarriers_split K t Barrier mipCount sliceCount StateBefore StateAfter hM hA
    hmc hsc hmips hslices hpart]
  apply List.map_congr_left
  intro ms hms
  have h := (split_index_lt t _ _ _ _ hmips hslices ms hms).2.2
  rw [Nat.mod_eq_of_lt (by omega)]

/-- C8, as stated, fails: the subresource index is computed in 32 bits. For a texture with
65536 mips and 65538 slices and the range holding mip 65534 of slice 65536, which lies within
the extents (all four range checks pass) and does not cover them, the one barrier appended
carries the subresource index 65534 and not `65534 + 65536 × 65536 = 4295032830`. -/
theorem TransitionResource_sub_range_index_wraps :
    TransitionResource.rangeVerifies sampleConsts ⟨7, 0x10, 65536, 65538⟩
      ⟨some 0, none, 65534, 1, 65536, 1, 0, 0x100, true⟩ = [true, true, true, true] ∧
    TransitionResource.coversAll sampleConsts ⟨7, 0x10, 65536, 65538⟩
      ⟨some 0, none, 65534, 1, 65536, 1, 0, 0x100, true⟩ = false ∧
    (TransitionResource.core sampleConsts ⟨[], []⟩ (.texture ⟨7, 0x10, 65536, 65538⟩)
      ⟨some 0, none, 65534, 1, 65536, 1, 0, 0x100, true⟩).1.enqueued
      = [.Transition 7 65534 0x10 0x100] ∧
    (65534 : Nat) + 65536 * 65536 = 4295032830 ∧ (65534 : Nat) ≠ 4295032830 := by
  decide

/-- C8, amended. Sub-range split: a texture transition that is not a no-op, whose range lies
within the extents of the texture and does not cover them all, appends exactly one transition
barrier for each (mip, slice) pair of the range, mip-major, `mipCount × sliceCount` in all (a
"remaining" count standing for the levels or slices from the first one to the end), the
barrier of (mip, slice) carrying the subresource `(mip + slice × MipLevels) mod 2^32`, all with
the same before and after states; when the texture has at most `2^32` subresources that index
is `mip + slice × MipLevels`. -/
theorem TransitionResource_sub_range (K : Consts) (ctx : CommandContext)
    (t : TextureD3D12Impl) (Barrier : StateTransitionDesc) (mipCount sliceCount : Nat)
    (hM : t.MipLevels < 2 ^ 32) (hA : t.ArraySize < 2 ^ 32)
    (hmc : mipCount = if Barrier.MipLevelsCount = K.RemainingMipLevels
      then t.MipLevels - Barrier.FirstMipLevel else Barrier.MipLevelsCount)
    (hsc : sliceCount = if Barrier.ArraySliceCount = K.RemainingArraySlices
      then t.ArraySize - Barrier.FirstArraySlice else Barrier.ArraySliceCount)
    (hmips : Barrier.FirstMipLevel + mipCount ≤ t.MipLevels)
    (hslices : Barrier.FirstArraySlice + sliceCount ≤ t.ArraySize)
    (hne : TransitionResource.oldState K (.texture t) Barrier &&& Barrier.NewState
      ≠ Barrier.NewState)
    (hpart : TransitionResource.coversAll K t Barrier = false) :
    let pairs := List.product (List.range' Barrier.FirstMipLevel mipCount)
      (List.range' Barrier.FirstArraySlice sliceCount)
    (TransitionResource.core K ctx (.texture t) Barrier).1.enqueued = ctx.enqueued ++
      pairs.map (fun ms => .Transition t.m_pd3d12Resource
        ((ms.1 + ms.2 * t.MipLevels) % 2 ^ 32)
        (K.ResourceStateFlagsToD3D12ResourceStates
          (TransitionResource.oldState K (.texture t) Barrier))
        (K.ResourceStateFlagsToD3D12ResourceStates
          (TransitionResource.newState K (TransitionResource.oldState K (.texture t) Barrier)
            Barrier))) ∧
    (t.MipLevels * t.ArraySize ≤ 2 ^ 32 →
      (TransitionResource.core K ctx (.texture t) Barrier).1.enqueued = ctx.enqueued ++
        pairs.map (fun ms => .Transition t.m_pd3d12Resource (ms.1 + ms.2 * t.MipLevels)
          (K.ResourceStateFlagsToD3D12ResourceStates
            (TransitionResource.oldState K (.texture t) Barrier))
          (K.ResourceStateFlagsToD3D12ResourceStates
            (TransitionResource.newState K
              (TransitionResource.oldState K (.texture t) Barrier) Barrier)))) ∧
    pairs.length = mipCount * sliceCount ∧
    pairs.Nodup ∧
    ∀ mip slice, (mip, slice) ∈ pairs ↔
      (Barrier.FirstMipLevel ≤ mip ∧ mip < Barrier.FirstMipLevel + mipCount) ∧
      (Barrier.FirstArraySlice ≤ slice ∧ slice < Barrier.FirstArraySlice + sliceCount) := by
  intro pairs
  refine ⟨?_, ?_, ?_, ?_, ?_⟩
  · rw [enqueued_core, enqueue_fst_of_transition K _ Barrier hne,
      transitionBarriers_split K t Barrier mipCount sliceCount _ _ hM hA hmc hsc hmips hslices
        hpart]
  · intro hbound
    rw [enqueued_core, enqueue_fst_of_transition K _ Barrier hne,
      transitionBarriers_split_unwrapped K t Barrier mipCount sliceCount _ _ hM hA hmc hsc
        hmips hslices hpart hbound]
  · exact (List.length_product _ _).trans (by rw [List.length_range', List.length_range'])
  · exact List.Nodup.product (List.nodup_range' _ _) (List.nodup_range' _ _)
  · intro mip slice
    simp only [pairs, List.pair_mem_product, List.mem_range'_1]

/-- C8 (amended) on a texture with 4 mips and 6 slices and the range (1, 2, 3, remaining). -/
theorem TransitionResource_sub_range_witness :
    let pairs := List.product (List.range' 1 2) (List.range' 3 3)
    (TransitionResource.core sampleConsts ⟨[], []⟩ (.texture ⟨7, 0x10, 4, 6⟩)
        ⟨some 0, none, 1, 2, 3, 0xFFFFFFFF, 0, 0x100, true⟩).1.enqueued
      = (⟨[], []⟩ : CommandContext).enqueued ++
      pairs.map (fun ms => .Transition 7 ((ms.1 + ms.2 * 4) % 2 ^ 32)
        (sampleConsts.ResourceStateFlagsToD3D12ResourceStates
          (TransitionResource.oldState sampleConsts (.texture ⟨7, 0x10, 4, 6⟩)
            ⟨some 0, none, 1, 2, 3, 0xFFFFFFFF, 0, 0x100, true⟩))
        (sampleConsts.ResourceStateFlagsToD3D12ResourceStates
          (TransitionResource.newState sampleConsts
            (TransitionResource.oldState sampleConsts (.texture ⟨7, 0x10, 4, 6⟩)
              ⟨some 0, none, 1, 2, 3, 0xFFFFFFFF, 0, 0x100, true⟩)
            ⟨some 0, none, 1, 2, 3, 0xFFFFFFFF, 0, 0x100, true⟩))) ∧
    (4 * 6 ≤ 2 ^ 32 →
      (TransitionResource.core sampleConsts ⟨[], []⟩ (.texture ⟨7, 0x10, 4, 6⟩)
          ⟨some 0, none, 1, 2, 3, 0xFFFFFFFF, 0, 0x100, true⟩).1.enqueued
        = (⟨[], []⟩ : CommandContext).enqueued ++
        pairs.map (fun ms => .Transition 7 (ms.1 + ms.2 * 4)
          (sampleConsts.ResourceStateFlagsToD3D12ResourceStates
            (TransitionResource.oldState sampleConsts (.texture ⟨7, 0x10, 4, 6⟩)
              ⟨some 0, none, 1, 2, 3, 0xFFFFFFFF, 0, 0x100, true⟩))
          (sampleConsts.ResourceStateFlagsToD3D12ResourceStates
            (TransitionResource.newState sampleConsts
              (TransitionResource.oldState sampleConsts (.texture ⟨7, 0x10, 4, 6⟩)
                ⟨some 0, none, 1, 2, 3, 0xFFFFFFFF, 0, 0x100, true⟩)
              ⟨some 0, none, 1, 2, 3, 0xFFFFFFFF, 0, 0x100, true⟩)))) ∧
    pairs.length = 2 * 3 ∧
    pairs.Nodup ∧
    ∀ mip slice, (mip, slice) ∈ pairs ↔
      (1 ≤ mip ∧ mip < 1 + 2) ∧ (3 ≤ slice ∧ slice < 3 + 3) :=
  TransitionResource_sub_range sampleConsts ⟨[], []⟩ ⟨7, 0x10, 4, 6⟩
    ⟨some 0, none, 1, 2, 3, 0xFFFFFFFF, 0, 0x100, true⟩ 2 3
    (by decide) (by decide) (by decide) (by decide) (by decide) (by decide) (by decide)
    (by decide)

/-- C9: evaluation of the range checks. For a texture with 4 mips and 6 slices the second and
fourth check fail on the explicit full range (0, 4, 0, 6), which the collapse branch accepts,
and on the range (2, 2, 3, 3) that ends at the last mip and the last slice; they hold on the
range (1, 2, 3, 2) that ends one before. -/
theorem rangeVerifies_reject_range_reaching_end :
    TransitionResource.rangeVerifies sampleConsts ⟨7, 0x10, 4, 6⟩
        ⟨some 0, none, 0, 4, 0, 6, 0, 0x100, true⟩ = [true, false, true, false] ∧
    TransitionResource.coversAll sampleConsts ⟨7, 0x10, 4, 6⟩
        ⟨some 0, none, 0, 4, 0, 6, 0, 0x100, true⟩ = true ∧
    TransitionResource.rangeVerifies sampleConsts ⟨7, 0x10, 4, 6⟩
        ⟨some 0, none, 2, 2, 3, 3, 0, 0x100, true⟩ = [true, false, true, false] ∧
    TransitionResource.rangeVerifies sampleConsts ⟨7, 0x10, 4, 6⟩
        ⟨some 0, none, 1, 2, 3, 2, 0, 0x100, true⟩ = [true, true, true, true] := by
  decide

/-- On return of `TransitionResource` the pending batch is below the capacity bound. -/
theorem core_pending_le (K : Consts) (ctx : CommandContext) (res : Resource)
    (Barrier : StateTransitionDesc) :
    (TransitionResource.core K ctx res Barrier).1.m_PendingResourceBarriers.length
      ≤ K.MaxPendingBarriers - 1 := by
  unfold TransitionResource.core
  dsimp only
  split
  · simp [FlushResourceBarriers]
  · rename_i h
    simp only [ge_iff_le, not_le] at h ⊢
    omega

theorem TransitionResource_pending_le (K : Consts) (ctx : CommandContext) (heap : Heap)
    (Barrier : StateTransitionDesc) (s : CommandContext × Heap)
    (h : TransitionResource K ctx heap Barrier = some s) :
    s.1.m_PendingResourceBarriers.length ≤ K.MaxPendingBarriers - 1 := by
  unfold TransitionResource at h
  split at h
  · split at h
    · cases h
    · simp only [Option.some.injEq] at h
      subst h
      exact core_pending_le _ _ _ _
  · split at h
    · cases h
    · split at h
      · cases h
      · simp only [Option.some.injEq] at h
        subst h
        exact core_pending_le _ _ _ _

theorem runCalls_append (K : Consts) (cs : List ContextCall) (c : ContextCall) :
    ∀ s : CommandContext × Heap,
      runCalls K s (cs ++ [c]) = (runCalls K s cs).bind fun s1 => c.apply K s1 := by
  induction cs with
  | nil =>
    intro s
    simp only [List.nil_append, runCalls, Option.some_bind]
    cases c.apply K s <;> rfl
  | cons d ds ih =>
    intro s
    simp only [List.cons_append, runCalls]
    cases d.apply K s with
    | none => rfl
    | some s1 => exact ih s1

/-- C10, as stated, fails: with a capacity bound of 16, seventeen `InsertAliasBarrier` calls
without immediate flush leave 17 barriers pending, and one sub-range transition of a texture
with 4 mips and 6 slices appends 20 barriers before the capacity is looked at. -/
theorem pending_batch_exceeds_MaxPendingBarriers :
    sampleConsts.MaxPendingBarriers = 16 ∧
    (runCalls sampleConsts (⟨[], []⟩, ⟨[], []⟩)
      (List.replicate 17 (.InsertAliasBarrier 1 2 false))).map
        (fun s => s.1.m_PendingResourceBarriers.length) = some 17 ∧
    (TransitionResource.enqueue sampleConsts (.texture ⟨7, 0x10, 4, 6⟩)
      ⟨some 0, none, 0, 0xFFFFFFFF, 1, 0xFFFFFFFF, 0, 0x100, true⟩).1.length = 20 := by
  decide

/-- C10, amended. The capacity is looked at only at the end of `TransitionResource`: along every
sequence of `TransitionResource`, `InsertAliasBarrier` and `FlushResourceBarriers` calls on a
context that starts below the bound, after each call the pending batch holds at most
`MaxPendingBarriers - 1` barriers plus one for each `InsertAliasBarrier` call without immediate
flush made since the last other call. -/
theorem pending_batch_bound (K : Consts) (calls : List ContextCall) :
    ∀ (s0 s : CommandContext × Heap),
      s0.1.m_PendingResourceBarriers.length ≤ K.MaxPendingBarriers - 1 →
      runCalls K s0 calls = some s →
      s.1.m_PendingResourceBarriers.length
        ≤ K.MaxPendingBarriers - 1 + unflushedAliasCalls calls := by
  induction calls using List.reverseRecOn with
  | nil =>
    intro s0 s h0 hrun
    simp only [runCalls, Option.some.injEq] at hrun
    subst hrun
    simpa [unflushedAliasCalls] using h0
  | append_singleton cs c ih =>
    intro s0 s h0 hrun
    rw [runCalls_append] at hrun
    cases hcs : runCalls K s0 cs with
    | none => rw [hcs] at hrun; cases hrun
    | some s1 =>
      rw [hcs] at hrun
      simp only [Option.some_bind] at hrun
      have ih1 := ih s0 s1 h0 hcs
      simp only [unflushedAliasCalls, List.foldl_append, List.foldl_cons, List.foldl_nil]
        at ih1 ⊢
      cases c with
      | TransitionResource Barrier =>
        have := TransitionResource_pending_le K s1.1 s1.2 Barrier s hrun
        simp only
        omega
      | InsertAliasBarrier Before After FlushImmediate =>
        simp only [ContextCall.apply, Option.some.injEq] at hrun
        subst hrun
        cases FlushImmediate with
        | true => simp [InsertAliasBarrier, FlushResourceBarriers]
        | false =>
          simp only [InsertAliasBarrier, Bool.false_eq_true, if_false, List.length_append,
            List.length_singleton]
          omega
      | FlushResourceBarriers =>
        simp only [ContextCall.apply, Option.some.injEq] at hrun
        subst hrun
        simp [FlushResourceBarriers]

/-- C10 (amended) on a transition followed by two alias barriers without flush. -/
theorem pending_batch_bound_witness :
    (⟨[.UAV 9], []⟩ : CommandContext).m_PendingResourceBarriers.length
      ≤ sampleConsts.MaxPendingBarriers - 1 ∧
    ((⟨[.UAV 9, .Transition 7 0xFFFFFFFF 0x10 0x100, .Aliasing 1 2, .Aliasing 3 4], []⟩,
        ⟨[⟨7, 0x100, 4, 6⟩], []⟩) : CommandContext × Heap).1.m_PendingResourceBarriers.length
      ≤ sampleConsts.MaxPendingBarriers - 1 + unflushedAliasCalls
        [.TransitionResource ⟨some 0, none, 0, 0xFFFFFFFF, 0, 0xFFFFFFFF, 0, 0x100, true⟩,
          .InsertAliasBarrier 1 2 false, .InsertAliasBarrier 3 4 false] :=
  ⟨by decide,
    pending_batch_bound sampleConsts
      [.TransitionResource ⟨some 0, none, 0, 0xFFFFFFFF, 0, 0xFFFFFFFF, 0, 0x100, true⟩,
        .InsertAliasBarrier 1 2 false, .InsertAliasBarrier 3 4 false]
      (⟨[.UAV 9], []⟩, ⟨[⟨7, 0x10, 4, 6⟩], []⟩)
      (⟨[.UAV 9, .Transition 7 0xFFFFFFFF 0x10 0x100, .Aliasing 1 2, .Aliasing 3 4], []⟩,
        ⟨[⟨7, 0x100, 4, 6⟩], []⟩)
      (by decide) (by decide)⟩

theorem lor_land_right (a b : Nat) : (a ||| b) &&& b = b := by
  apply Nat.eq_of_testBit_eq
  intro i
  rw [Nat.testBit_land, Nat.testBit_lor]
  cases a.testBit i <;> cases b.testBit i <;> rfl

/-- C11. Automatic capacity flush (`MaxPendingBarriers ≥ 1`): when the batch holds
`MaxPendingBarriers` or more barriers after `TransitionResource` has appended its own, the
whole batch is submitted as one `ResourceBarrier` command and the pending batch is empty on
return; otherwise nothing is submitted; in both cases fewer than `MaxPendingBarriers` barriers
are pending on return. -/
theorem TransitionResource_capacity_flush (K : Consts) (ctx : CommandContext) (res : Resource)
    (Barrier : StateTransitionDesc) (hmax : 1 ≤ K.MaxPendingBarriers) :
    let batch := ctx.m_PendingResourceBarriers ++ (TransitionResource.enqueue K res Barrier).1
    let r := TransitionResource.core K ctx res Barrier
    (K.MaxPendingBarriers ≤ batch.length →
      r.1.m_PendingResourceBarriers = [] ∧
      r.1.m_pCommandList = ctx.m_pCommandList ++ [.ResourceBarrier batch]) ∧
    (batch.length < K.MaxPendingBarriers →
      r.1.m_PendingResourceBarriers = batch ∧ r.1.m_pCommandList = ctx.m_pCommandList) ∧
    r.1.m_PendingResourceBarriers.length < K.MaxPendingBarriers := by
  intro batch r
  refine ⟨?_, ?_, ?_⟩
  · intro h
    have hr : r.1 = FlushResourceBarriers { ctx with m_PendingResourceBarriers := batch } := by
      show (TransitionResource.core K ctx res Barrier).1 = _
      unfold TransitionResource.core
      simp only
      rw [if_pos h]
    rw [hr]
    exact ⟨rfl, rfl⟩
  · intro h
    have hr : r.1 = { ctx with m_PendingResourceBarriers := batch } := by
      show (TransitionResource.core K ctx res Barrier).1 = _
      unfold TransitionResource.core
      simp only
      rw [if_neg (by
        show ¬ K.MaxPendingBarriers ≤ batch.length
        omega)]
    rw [hr]
    exact ⟨rfl, rfl⟩
  · have := core_pending_le K ctx res Barrier
    show (TransitionResource.core K ctx res Barrier).1.m_PendingResourceBarriers.length < _
    omega

/-- C11 with fifteen barriers pending and a bound of sixteen: the transition fills the batch. -/
theorem TransitionResource_capacity_flush_witness :
    let batch := (⟨List.replicate 15 (.UAV 3), []⟩ : CommandContext).m_PendingResourceBarriers
      ++ (TransitionResource.enqueue sampleConsts (.buffer ⟨7, 0x100, 0, 0⟩)
        ⟨none, some 0, 0, 0, 0, 0, 0, 0x800, true⟩).1
    let r := TransitionResource.core sampleConsts ⟨List.replicate 15 (.UAV 3), []⟩
      (.buffer ⟨7, 0x100, 0, 0⟩) ⟨none, some 0, 0, 0, 0, 0, 0, 0x800, true⟩
    (sampleConsts.MaxPendingBarriers ≤ batch.length →
      r.1.m_PendingResourceBarriers = [] ∧
      r.1.m_pCommandList = (⟨List.replicate 15 (.UAV 3), []⟩ : CommandContext).m_pCommandList
        ++ [.ResourceBarrier batch]) ∧
    (batch.length < sampleConsts.MaxPendingBarriers →
      r.1.m_PendingResourceBarriers = batch ∧
      r.1.m_pCommandList
        = (⟨List.replicate 15 (.UAV 3), []⟩ : CommandContext).m_pCommandList) ∧
    r.1.m_PendingResourceBarriers.length < sampleConsts.MaxPendingBarriers :=
  TransitionResource_capacity_flush sampleConsts ⟨List.replicate 15 (.UAV 3), []⟩
    (.buffer ⟨7, 0x100, 0, 0⟩) ⟨none, some 0, 0, 0, 0, 0, 0, 0x800, true⟩ (by decide)

/-- C12. UAV self-hazard: when the old state used by the transition and the requested state
are both `RESOURCE_STATE_UNORDERED_ACCESS`, `TransitionResource` appends exactly one barrier, a
UAV barrier naming the resource (hence no transition barrier), and leaves the resource with
its tracked state unchanged. -/
theorem TransitionResource_uav_hazard (K : Consts) (ctx : CommandContext) (res : Resource)
    (Barrier : StateTransitionDesc)
    (hold : TransitionResource.oldState K res Barrier = K.RESOURCE_STATE_UNORDERED_ACCESS)
    (hnew : Barrier.NewState = K.RESOURCE_STATE_UNORDERED_ACCESS) :
    (TransitionResource.core K ctx res Barrier).1.enqueued
      = ctx.enqueued ++ [.UAV res.GetD3D12Resource] ∧
    (TransitionResource.core K ctx res Barrier).2 = res := by
  have he : TransitionResource.enqueue K res Barrier = ([.UAV res.GetD3D12Resource], res) := by
    unfold TransitionResource.enqueue
    simp [hold, hnew]
  rw [enqueued_core, core_snd, he]
  exact ⟨rfl, rfl⟩

/-- C12 on a texture tracked in the unordered-access state. -/
theorem TransitionResource_uav_hazard_witness :
    (TransitionResource.core sampleConsts ⟨[.Aliasing 1 2], []⟩ (.texture ⟨7, 0x20, 3, 1⟩)
        ⟨some 0, none, 0, 0xFFFFFFFF, 0, 0xFFFFFFFF, 0, 0x20, true⟩).1.enqueued
      = (⟨[.Aliasing 1 2], []⟩ : CommandContext).enqueued
        ++ [.UAV (Resource.texture ⟨7, 0x20, 3, 1⟩).GetD3D12Resource] ∧
    (TransitionResource.core sampleConsts ⟨[.Aliasing 1 2], []⟩ (.texture ⟨7, 0x20, 3, 1⟩)
        ⟨some 0, none, 0, 0xFFFFFFFF, 0, 0xFFFFFFFF, 0, 0x20, true⟩).2
      = .texture ⟨7, 0x20, 3, 1⟩ :=
  TransitionResource_uav_hazard sampleConsts ⟨[.Aliasing 1 2], []⟩ (.texture ⟨7, 0x20, 3, 1⟩)
    ⟨some 0, none, 0, 0xFFFFFFFF, 0, 0xFFFFFFFF, 0, 0x20, true⟩ (by decide) (by decide)

/-- C14. Old-state resolution: the old state used by `TransitionResource` is the tracked state
when it is known and the supplied `OldState` when it is unknown, every transition barrier
appended carries its conversion as `StateBefore`, and the old-state check fails exactly when
the tracked and the supplied state are both unknown, or the tracked state is known and the
supplied one is neither unknown nor equal to it. -/
theorem TransitionResource_old_state (K : Consts) (ctx : CommandContext) (res : Resource)
    (Barrier : StateTransitionDesc) :
    (res.GetState ≠ K.RESOURCE_STATE_UNKNOWN →
      TransitionResource.oldState K res Barrier = res.GetState) ∧
    (res.GetState = K.RESOURCE_STATE_UNKNOWN →
      TransitionResource.oldState K res Barrier = Barrier.OldState) ∧
    (∃ added, (TransitionResource.core K ctx res Barrier).1.enqueued = ctx.enqueued ++ added ∧
      ∀ b ∈ added, ∀ pResource sub before after,
        b = D3D12_RESOURCE_BARRIER.Transition pResource sub before after →
        before = K.ResourceStateFlagsToD3D12ResourceStates
          (TransitionResource.oldState K res Barrier)) ∧
    (TransitionResource.oldStateCheck K res Barrier = false ↔
      (res.GetState = K.RESOURCE_STATE_UNKNOWN ∧
        Barrier.OldState = K.RESOURCE_STATE_UNKNOWN) ∨
      (res.GetState ≠ K.RESOURCE_STATE_UNKNOWN ∧
        Barrier.OldState ≠ K.RESOURCE_STATE_UNKNOWN ∧ Barrier.OldState ≠ res.GetState)) := by
  refine ⟨?_, ?_, ⟨(TransitionResource.enqueue K res Barrier).1, enqueued_core K ctx res Barrier,
    ?_⟩, ?_⟩
  · intro h
    unfold TransitionResource.oldState
    rw [if_neg h]
  · intro h
    unfold TransitionResource.oldState
    rw [if_pos h]
  · intro b hb pResource sub before after hbe
    unfold TransitionResource.enqueue at hb
    simp only at hb
    rcases List.mem_append.mp hb with h1 | h1
    · split at h1
      · obtain ⟨s, hs⟩ := transitionBarriers_states K res Barrier _ _ b h1
        rw [hs] at hbe
        cases hbe
        rfl
      · cases h1
    · split at h1
      · simp only [List.mem_singleton] at h1
        rw [h1] at hbe
        cases hbe
      · cases h1
  · unfold TransitionResource.oldStateCheck
    by_cases h : res.GetState = K.RESOURCE_STATE_UNKNOWN
    · simp [h]
    · simp [h]

/-- C15. State-record update: after a `TransitionResource` call that appends a transition
barrier, with state tracking the tracked state is the computed new state, which is the
requested state or the union of the old and the requested state and contains every bit of the
requested state; without state tracking it is the unknown state. -/
theorem TransitionResource_state_record (K : Consts) (ctx : CommandContext) (res : Resource)
    (Barrier : StateTransitionDesc)
    (hemit : ∃ pResource sub before after,
      D3D12_RESOURCE_BARRIER.Transition pResource sub before after
        ∈ (TransitionResource.enqueue K res Barrier).1) :
    (Barrier.UpdateResourceState = true →
      (TransitionResource.core K ctx res Barrier).2.GetState
        = TransitionResource.newState K (TransitionResource.oldState K res Barrier) Barrier ∧
      ((TransitionResource.core K ctx res Barrier).2.GetState = Barrier.NewState ∨
        (TransitionResource.core K ctx res Barrier).2.GetState
          = TransitionResource.oldState K res Barrier ||| Barrier.NewState) ∧
      (TransitionResource.core K ctx res Barrier).2.GetState &&& Barrier.NewState
        = Barrier.NewState) ∧
    (Barrier.UpdateResourceState = false →
      (TransitionResource.core K ctx res Barrier).2.GetState = K.RESOURCE_STATE_UNKNOWN) := by
  obtain ⟨pResource, sub, before, after, hmem⟩ := hemit
  have hne : TransitionResource.oldState K res Barrier &&& Barrier.NewState
      ≠ Barrier.NewState := by
    intro hsub
    unfold TransitionResource.enqueue at hmem
    simp only [hsub, ne_eq, not_true_eq_false, if_false, List.nil_append] at hmem
    split at hmem
    · simp at hmem
    · cases hmem
  have hst : (TransitionResource.core K ctx res Barrier).2.GetState
      = if Barrier.UpdateResourceState then
          TransitionResource.newState K (TransitionResource.oldState K res Barrier) Barrier
        else K.RESOURCE_STATE_UNKNOWN := by
    rw [core_snd]
    unfold TransitionResource.enqueue
    simp only [hne, ne_eq, not_false_eq_true, if_true]
    exact GetState_SetState _ _
  constructor
  · intro hupd
    rw [hst, hupd]
    simp only [if_true]
    refine ⟨trivial, ?_, ?_⟩
    · unfold TransitionResource.newState
      split
      · exact Or.inr rfl
      · exact Or.inl rfl
    · unfold TransitionResource.newState
      split
      · exact lor_land_right _ _
      · simp
  · intro hupd
    rw [hst, hupd]
    simp

/-- C15 on a texture going from the render-target state to the shader-resource state. -/
theorem TransitionResource_state_record_witness :
    (StateTransitionDesc.UpdateResourceState
        ⟨some 0, none, 0, 0xFFFFFFFF, 0, 0xFFFFFFFF, 0, 0x100, true⟩ = true →
      (TransitionResource.core sampleConsts ⟨[], []⟩ (.texture ⟨7, 0x10, 3, 2⟩)
        ⟨some 0, none, 0, 0xFFFFFFFF, 0, 0xFFFFFFFF, 0, 0x100, true⟩).2.GetState
        = TransitionResource.newState sampleConsts
          (TransitionResource.oldState sampleConsts (.texture ⟨7, 0x10, 3, 2⟩)
            ⟨some 0, none, 0, 0xFFFFFFFF, 0, 0xFFFFFFFF, 0, 0x100, true⟩)
          ⟨some 0, none, 0, 0xFFFFFFFF, 0, 0xFFFFFFFF, 0, 0x100, true⟩ ∧
      ((TransitionResource.core sampleConsts ⟨[], []⟩ (.texture ⟨7, 0x10, 3, 2⟩)
        ⟨some 0, none, 0, 0xFFFFFFFF, 0, 0xFFFFFFFF, 0, 0x100, true⟩).2.GetState = 0x100 ∨
        (TransitionResource.core sampleConsts ⟨[], []⟩ (.texture ⟨7, 0x10, 3, 2⟩)
          ⟨some 0, none, 0, 0xFFFFFFFF, 0, 0xFFFFFFFF, 0, 0x100, true⟩).2.GetState
          = TransitionResource.oldState sampleConsts (.texture ⟨7, 0x10, 3, 2⟩)
            ⟨some 0, none, 0, 0xFFFFFFFF, 0, 0xFFFFFFFF, 0, 0x100, true⟩ ||| 0x100) ∧
      (TransitionResource.core sampleConsts ⟨[], []⟩ (.texture ⟨7, 0x10, 3, 2⟩)
        ⟨some 0, none, 0, 0xFFFFFFFF, 0, 0xFFFFFFFF, 0, 0x100, true⟩).2.GetState &&& 0x100
        = 0x100) ∧
    (StateTransitionDesc.UpdateResourceState
        ⟨some 0, none, 0, 0xFFFFFFFF, 0, 0xFFFFFFFF, 0, 0x100, true⟩ = false →
      (TransitionResource.core sampleConsts ⟨[], []⟩ (.texture ⟨7, 0x10, 3, 2⟩)
        ⟨some 0, none, 0, 0xFFFFFFFF, 0, 0xFFFFFFFF, 0, 0x100, true⟩).2.GetState
        = sampleConsts.RESOURCE_STATE_UNKNOWN) :=
  TransitionResource_state_record sampleConsts ⟨[], []⟩ (.texture ⟨7, 0x10, 3, 2⟩)
    ⟨some 0, none, 0, 0xFFFFFFFF, 0, 0xFFFFFFFF, 0, 0x100, true⟩
    ⟨7, 0xFFFFFFFF, 0x10, 0x100, by decide⟩

/-- C16. `Close` of a context that owns an allocator submits the pending batch as one command
recorded before the native `Close`, leaves no barrier pending, hands the owned allocator to
the caller, leaves the context without allocator and returns its command list; the ownership
check fails for every context without allocator, in particular for a second `Close`. -/
theorem Close_hands_over_allocator (c : CommandContextObject) (pCommandList pAllocator : Nat)
    (hlist : c.m_pCommandListPtr = some pCommandList)
    (halloc : c.m_pCurrentAllocator = some pAllocator) :
    Close.verify c = true ∧
    (∃ c1, Close c = some (c1, some pAllocator, pCommandList) ∧
      c1.m_PendingResourceBarriers = [] ∧
      c1.m_pCommandList = c.m_pCommandList ++
        [.ResourceBarrier c.m_PendingResourceBarriers, .Close] ∧
      c1.m_pCurrentAllocator = none ∧
      c1.m_pCommandListPtr = some pCommandList ∧
      Close.verify c1 = false) ∧
    (∀ c2 : CommandContextObject, c2.m_pCurrentAllocator = none → Close.verify c2 = false) := by
  refine ⟨by simp [Close.verify, halloc], ?_, ?_⟩
  · have h : Close c = some ({ c with
          toCommandContext := (FlushResourceBarriers c.toCommandContext).record .Close
          m_pCurrentAllocator := none }, some pAllocator, pCommandList) := by
      simp only [Close, hlist, halloc]
    refine ⟨_, h, rfl, ?_, rfl, hlist, rfl⟩
    simp [CommandContext.record, FlushResourceBarriers]
  · intro c2 h2
    simp [Close.verify, h2]

/-- C16 on a context with one pending barrier that owns allocator 5. -/
theorem Close_hands_over_allocator_witness :
    Close.verify ⟨⟨[.UAV 3], []⟩, some 1, some 5, some 8, none, none, (none, none), none, 4⟩
      = true ∧
    (∃ c1, Close ⟨⟨[.UAV 3], []⟩, some 1, some 5, some 8, none, none, (none, none), none, 4⟩
        = some (c1, some 5, 1) ∧
      c1.m_PendingResourceBarriers = [] ∧
      c1.m_pCommandList = (⟨⟨[.UAV 3], []⟩, some 1, some 5, some 8, none, none, (none, none),
          none, 4⟩ : CommandContextObject).m_pCommandList ++
        [.ResourceBarrier (⟨⟨[.UAV 3], []⟩, some 1, some 5, some 8, none, none, (none, none),
          none, 4⟩ : CommandContextObject).m_PendingResourceBarriers, .Close] ∧
      c1.m_pCurrentAllocator = none ∧
      c1.m_pCommandListPtr = some 1 ∧
      Close.verify c1 = false) ∧
    (∀ c2 : CommandContextObject, c2.m_pCurrentAllocator = none → Close.verify c2 = false) :=
  Close_hands_over_allocator
    ⟨⟨[.UAV 3], []⟩, some 1, some 5, some 8, none, none, (none, none), none, 4⟩ 1 5 rfl rfl

/-- C17, as stated, fails: `Reset` of a context that still owns allocator 5 passes its only
check and completes, keeping allocator 5 instead of the allocator 9 offered by the manager and
recording no command list reset. -/
theorem Reset_accepts_owned_allocator :
    Reset.verify ⟨⟨[.UAV 3], []⟩, some 1, some 5, some 8, none, none, (none, none), none, 4⟩
      = true ∧
    Reset sampleConsts
        ⟨⟨[.UAV 3], []⟩, some 1, some 5, some 8, none, none, (none, none), none, 4⟩ 9
      = some ⟨⟨[], []⟩, some 1, some 5, none, none, none, (none, none), none, 0⟩ := by
  decide

/-- C17, amended. After `Reset` of a context with a command list the pending batch is empty,
the cached pipeline state and root signatures are null, the primitive topology is undefined and
the context owns an allocator: the one requested from the manager, with the command list reset
onto it, when it owned none before, and the one it already owned, with nothing requested or
recorded, when it still owned one; the only check of `Reset` holds in both cases. -/
theorem Reset_clears_context (K : Consts) (c : CommandContextObject)
    (pCommandList requested : Nat) (hlist : c.m_pCommandListPtr = some pCommandList) :
    Reset.verify c = true ∧
    ∃ c1, Reset K c requested = some c1 ∧
      c1.m_PendingResourceBarriers = [] ∧
      c1.m_pCurPipelineState = none ∧
      c1.m_pCurGraphicsRootSignature = none ∧
      c1.m_pCurComputeRootSignature = none ∧
      c1.m_PrimitiveTopology = K.D3D_PRIMITIVE_TOPOLOGY_UNDEFINED ∧
      c1.m_pCommandListPtr = some pCommandList ∧
      (c.m_pCurrentAllocator = none →
        c1.m_pCurrentAllocator = some requested ∧
        c1.m_pCommandList = c.m_pCommandList ++ [.Reset requested]) ∧
      (∀ owned, c.m_pCurrentAllocator = some owned →
        c1.m_pCurrentAllocator = some owned ∧ c1.m_pCommandList = c.m_pCommandList) := by
  refine ⟨by simp [Reset.verify, hlist], ?_⟩
  cases halloc : c.m_pCurrentAllocator with
  | none =>
    have h : Reset K c requested = some
        { c with
          m_pCurrentAllocator := some requested
          m_pCommandList := c.m_pCommandList ++ [.Reset requested]
          m_pCurPipelineState := none
          m_pCurGraphicsRootSignature := none
          m_pCurComputeRootSignature := none
          m_PendingResourceBarriers := []
          m_BoundDescriptorHeaps := (none, none)
          m_DynamicGPUDescriptorAllocators := none
          m_PrimitiveTopology := K.D3D_PRIMITIVE_TOPOLOGY_UNDEFINED } := by
      simp only [Reset, halloc, hlist, Option.map_some', CommandContext.record]
    refine ⟨_, h, rfl, rfl, rfl, rfl, rfl, hlist, ?_, ?_⟩
    · intro _
      exact ⟨rfl, rfl⟩
    · intro owned h
      cases h
  | some a =>
    have h : Reset K c requested = some
        { c with
          m_pCurPipelineState := none
          m_pCurGraphicsRootSignature := none
          m_pCurComputeRootSignature := none
          m_PendingResourceBarriers := []
          m_BoundDescriptorHeaps := (none, none)
          m_DynamicGPUDescriptorAllocators := none
          m_PrimitiveTopology := K.D3D_PRIMITIVE_TOPOLOGY_UNDEFINED } := by
      simp only [Reset, halloc, Option.map_some']
    refine ⟨_, h, rfl, rfl, rfl, rfl, rfl, hlist, ?_, ?_⟩
    · intro h
      cases h
    · intro owned h
      cases h
      exact ⟨halloc, rfl⟩

/-- C17 (amended) on a closed context, which owns no allocator. -/
theorem Reset_clears_context_witness :
    Reset.verify ⟨⟨[.UAV 3], [.Close]⟩, some 1, none, some 8, some 2, none, (some 6, none),
      none, 4⟩ = true ∧
    ∃ c1, Reset sampleConsts ⟨⟨[.UAV 3], [.Close]⟩, some 1, none, some 8, some 2, none,
        (some 6, none), none, 4⟩ 9 = some c1 ∧
      c1.m_PendingResourceBarriers = [] ∧
      c1.m_pCurPipelineState = none ∧
      c1.m_pCurGraphicsRootSignature = none ∧
      c1.m_pCurComputeRootSignature = none ∧
      c1.m_PrimitiveTopology = sampleConsts.D3D_PRIMITIVE_TOPOLOGY_UNDEFINED ∧
      c1.m_pCommandListPtr = some 1 ∧
      ((⟨⟨[.UAV 3], [.Close]⟩, some 1, none, some 8, some 2, none, (some 6, none), none, 4⟩
          : CommandContextObject).m_pCurrentAllocator = none →
        c1.m_pCurrentAllocator = some 9 ∧
        c1.m_pCommandList = (⟨⟨[.UAV 3], [.Close]⟩, some 1, none, some 8, some 2, none,
          (some 6, none), none, 4⟩ : CommandContextObject).m_pCommandList ++ [.Reset 9]) ∧
      (∀ owned, (⟨⟨[.UAV 3], [.Close]⟩, some 1, none, some 8, some 2, none, (some 6, none),
          none, 4⟩ : CommandContextObject).m_pCurrentAllocator = some owned →
        c1.m_pCurrentAllocator = some owned ∧
        c1.m_pCommandList = (⟨⟨[.UAV 3], [.Close]⟩, some 1, none, some 8, some 2, none,
          (some 6, none), none, 4⟩ : CommandContextObject).m_pCommandList) :=
  Reset_clears_context sampleConsts
    ⟨⟨[.UAV 3], [.Close]⟩, some 1, none, some 8, some 2, none, (some 6, none), none, 4⟩ 1 9 rfl

/-- C18. `InsertAliasBarrier` appends one aliasing barrier with the two native resources after
the barriers already pending, which stay unchanged and in order; with `FlushImmediate` the
whole batch including the new barrier is submitted as one command and nothing is left pending,
without it the pending count grows by one and nothing is submitted. -/
theorem InsertAliasBarrier_appends_one (ctx : CommandContext) (Before After : Nat) :
    (InsertAliasBarrier ctx Before After false).m_PendingResourceBarriers
      = ctx.m_PendingResourceBarriers ++ [.Aliasing Before After] ∧
    (InsertAliasBarrier ctx Before After false).m_PendingResourceBarriers.length
      = ctx.m_PendingResourceBarriers.length + 1 ∧
    (InsertAliasBarrier ctx Before After false).m_pCommandList = ctx.m_pCommandList ∧
    (InsertAliasBarrier ctx Before After true).m_PendingResourceBarriers = [] ∧
    (InsertAliasBarrier ctx Before After true).m_pCommandList = ctx.m_pCommandList ++
      [.ResourceBarrier (ctx.m_PendingResourceBarriers ++ [.Aliasing Before After])] ∧
    (∀ FlushImmediate, (InsertAliasBarrier ctx Before After FlushImmediate).enqueued
      = ctx.enqueued ++ [.Aliasing Before After]) := by
  refine ⟨rfl, by simp [InsertAliasBarrier], rfl, rfl, rfl, ?_⟩
  intro FlushImmediate
  cases FlushImmediate
  · simp [InsertAliasBarrier, CommandContext.enqueued]
  · simp only [InsertAliasBarrier, if_true]
    rw [enqueued_FlushResourceBarriers]
    simp [CommandContext.enqueued]

theorem OnlyCapacityFlushes_refl (K : Consts) (ctx : CommandContext) :
    OnlyCapacityFlushes K ctx ctx :=
  ⟨[], [], by simp, by simp, by simp, by simp⟩

theorem OnlyCapacityFlushes_trans (K : Consts) (a b c : CommandContext)
    (hab : OnlyCapacityFlushes K a b) (hbc : OnlyCapacityFlushes K b c) :
    OnlyCapacityFlushes K a c := by
  obtain ⟨add1, fl1, he1, hc1, hf1, hp1⟩ := hab
  obtain ⟨add2, fl2, he2, hc2, hf2, hp2⟩ := hbc
  refine ⟨add1 ++ add2, fl1 ++ fl2, ?_, ?_, ?_, ?_⟩
  · rw [he2, he1, List.append_assoc]
  · rw [hc2, hc1, List.append_assoc]
  · intro x hx
    rcases List.mem_append.mp hx with h | h
    · exact hf1 x h
    · exact hf2 x h
  · intro hlt
    have h1 : (a.m_PendingResourceBarriers ++ add1).length < K.MaxPendingBarriers := by
      simp only [List.length_append] at hlt ⊢
      omega
    obtain ⟨hfl1, hpb⟩ := hp1 h1
    have h2 : (b.m_PendingResourceBarriers ++ add2).length < K.MaxPendingBarriers := by
      rw [hpb]
      simp only [List.length_append] at hlt ⊢
      omega
    obtain ⟨hfl2, hpc⟩ := hp2 h2
    refine ⟨by rw [hfl1, hfl2]; rfl, ?_⟩
    rw [hpc, hpb, List.append_assoc]

theorem OnlyCapacityFlushes_core (K : Consts) (ctx : CommandContext) (res : Resource)
    (Barrier : StateTransitionDesc) :
    OnlyCapacityFlushes K ctx (TransitionResource.core K ctx res Barrier).1 := by
  by_cases h : K.MaxPendingBarriers ≤
      (ctx.m_PendingResourceBarriers ++ (TransitionResource.enqueue K res Barrier).1).length
  · refine ⟨(TransitionResource.enqueue K res Barrier).1,
      [.ResourceBarrier
        (ctx.m_PendingResourceBarriers ++ (TransitionResource.enqueue K res Barrier).1)],
      enqueued_core K ctx res Barrier, ?_, ?_, ?_⟩
    · unfold TransitionResource.core
      simp only
      rw [if_pos h]
      rfl
    · intro c hc
      simp only [List.mem_singleton] at hc
      exact ⟨_, hc, h⟩
    · intro hlt
      omega
  · refine ⟨(TransitionResource.enqueue K res Barrier).1, [],
      enqueued_core K ctx res Barrier, ?_, by simp, ?_⟩
    · unfold TransitionResource.core
      simp only
      rw [if_neg h]
      simp
    · intro _
      refine ⟨rfl, ?_⟩
      unfold TransitionResource.core
      simp only
      rw [if_neg h]

theorem OnlyCapacityFlushes_TransitionResource (K : Consts) (ctx : CommandContext)
    (heap : Heap) (Barrier : StateTransitionDesc) (s : CommandContext × Heap)
    (h : TransitionResource K ctx heap Barrier = some s) :
    OnlyCapacityFlushes K ctx s.1 := by
  unfold TransitionResource at h
  split at h
  · split at h
    · cases h
    · simp only [Option.some.injEq] at h
      subst h
      exact OnlyCapacityFlushes_core _ _ _ _
  · split at h
    · cases h
    · split at h
      · cases h
      · simp only [Option.some.injEq] at h
        subst h
        exact OnlyCapacityFlushes_core _ _ _ _

theorem OnlyCapacityFlushes_transitionIfNotInState (K : Consts) (ctx : CommandContext)
    (heap : Heap) (pTexture State : Nat) (s : CommandContext × Heap)
    (h : transitionIfNotInState K ctx heap pTexture State = some s) :
    OnlyCapacityFlushes K ctx s.1 := by
  unfold transitionIfNotInState at h
  split at h
  · cases h
  · split at h
    · exact OnlyCapacityFlushes_TransitionResource K ctx heap _ s h
    · simp only [Option.some.injEq] at h
      subst h
      exact OnlyCapacityFlushes_refl K ctx

theorem OnlyCapacityFlushes_colorTargets (K : Consts) (Flags : Nat) :
    ∀ (ppRTVs : List (Option TextureViewD3D12)) (s s1 : CommandContext × Heap),
      SetRenderTargets.colorTargets K Flags s ppRTVs = some s1 →
      OnlyCapacityFlushes K s.1 s1.1 := by
  intro ppRTVs
  induction ppRTVs with
  | nil =>
    intro s s1 h
    simp only [SetRenderTargets.colorTargets, Option.some.injEq] at h
    subst h
    exact OnlyCapacityFlushes_refl K s.1
  | cons v rest ih =>
    intro s s1 h
    cases v with
    | none => exact ih s s1 (by simpa [SetRenderTargets.colorTargets] using h)
    | some pRTV =>
      simp only [SetRenderTargets.colorTargets] at h
      split at h
      · split at h
        · cases h
        · rename_i s2 hs2
          exact OnlyCapacityFlushes_trans K _ _ _
            (OnlyCapacityFlushes_transitionIfNotInState K _ _ _ _ s2 hs2) (ih s2 s1 h)
      · exact ih s s1 h

/-- C19, as stated, fails: for one render target whose texture is tracked in the
shader-resource state, `SetRenderTargets` with the colour-transition flag records
`OMSetRenderTargets` as the only command while the transition it enqueued is still pending. -/
theorem SetRenderTargets_leaves_transition_pending :
    SetRenderTargets sampleConsts ⟨[], []⟩ ⟨[⟨7, 0x100, 1, 1⟩], []⟩ [some ⟨0, 50⟩] none 1
      = some (⟨[.Transition 7 0xFFFFFFFF 0x100 0x10], [.OMSetRenderTargets 1 [some 50] none]⟩,
          ⟨[⟨7, 0x10, 1, 1⟩], []⟩) := by
  decide

/-- C19, amended. `SetRenderTargets` does not flush: up to the moment `OMSetRenderTargets` is
recorded (the context `ctx1`, which the recording leaves with the same pending batch) it only
appends the transitions of its targets, and the only commands recorded are the capacity
flushes of `TransitionResource`, each submitting `MaxPendingBarriers` or more barriers; below
that bound every barrier pending before the call or enqueued by it is still pending. -/
theorem SetRenderTargets_only_capacity_flushes (K : Consts) (ctx : CommandContext)
    (heap : Heap) (ppRTVs : List (Option TextureViewD3D12)) (pDSV : Option TextureViewD3D12)
    (Flags : Nat) (s : CommandContext × Heap)
    (h : SetRenderTargets K ctx heap ppRTVs pDSV Flags = some s) :
    ∃ ctx1, OnlyCapacityFlushes K ctx ctx1 ∧
      s.1.m_PendingResourceBarriers = ctx1.m_PendingResourceBarriers ∧
      s.1.m_pCommandList = ctx1.m_pCommandList ++
        (if pDSV.isSome ∨ 0 < ppRTVs.length then
          [.OMSetRenderTargets ppRTVs.length
            (ppRTVs.map fun pRTV => pRTV.map fun v => v.CPUDescriptorHandle)
            (pDSV.map fun v => v.CPUDescriptorHandle)]
        else []) := by
  unfold SetRenderTargets at h
  split at h
  · cases h
  · split at h
    · cases h
    · rename_i s1 hs1
      have h1 := OnlyCapacityFlushes_colorTargets K Flags ppRTVs (ctx, heap) s1 hs1
      cases pDSV with
      | none =>
        simp only at h
        split at h
        · rename_i hpos
          simp only [Option.some.injEq] at h
          subst h
          exact ⟨s1.1, h1, rfl, by simp [CommandContext.record, hpos]⟩
        · rename_i hpos
          simp only [Option.some.injEq] at h
          subst h
          exact ⟨s1.1, h1, rfl, by simp [hpos]⟩
      | some dsv =>
        simp only at h
        split at h
        · cases h
        · rename_i s2 hs2
          simp only [Option.some.injEq] at h
          subst h
          have h2 : OnlyCapacityFlushes K s1.1 s2.1 := by
            split at hs2
            · exact OnlyCapacityFlushes_transitionIfNotInState K _ _ _ _ s2 hs2
            · simp only [Option.some.injEq] at hs2
              subst hs2
              exact OnlyCapacityFlushes_refl K _
          exact ⟨s2.1, OnlyCapacityFlushes_trans K _ _ _ h1 h2, rfl,
            by simp [CommandContext.record]⟩

/-- C19 (amended) on one render target and a depth target that both need a transition. -/
theorem SetRenderTargets_only_capacity_flushes_witness :
    ∃ ctx1, OnlyCapacityFlushes sampleConsts ⟨[.UAV 3], []⟩ ctx1 ∧
      CommandContext.m_PendingResourceBarriers
        ⟨[.UAV 3, .Transition 7 0xFFFFFFFF 0x100 0x10, .Transition 8 0xFFFFFFFF 0x100 0x40],
          [.OMSetRenderTargets 1 [some 50] (some 60)]⟩ = ctx1.m_PendingResourceBarriers ∧
      (⟨[.UAV 3, .Transition 7 0xFFFFFFFF 0x100 0x10, .Transition 8 0xFFFFFFFF 0x100 0x40],
          [.OMSetRenderTargets 1 [some 50] (some 60)]⟩ : CommandContext).m_pCommandList
        = ctx1.m_pCommandList ++
        (if (some (⟨1, 60⟩ : TextureViewD3D12)).isSome ∨
            0 < [some (⟨0, 50⟩ : TextureViewD3D12)].length then
          [.OMSetRenderTargets [some (⟨0, 50⟩ : TextureViewD3D12)].length
            ([some (⟨0, 50⟩ : TextureViewD3D12)].map fun pRTV =>
              pRTV.map fun v => v.CPUDescriptorHandle)
            ((some (⟨1, 60⟩ : TextureViewD3D12)).map fun v => v.CPUDescriptorHandle)]
        else []) :=
  SetRenderTargets_only_capacity_flushes sampleConsts ⟨[.UAV 3], []⟩
    ⟨[⟨7, 0x100, 1, 1⟩, ⟨8, 0x100, 1, 1⟩], []⟩ [some ⟨0, 50⟩] (some ⟨1, 60⟩) 3
    (⟨[.UAV 3, .Transition 7 0xFFFFFFFF 0x100 0x10, .Transition 8 0xFFFFFFFF 0x100 0x40],
        [.OMSetRenderTargets 1 [some 50] (some 60)]⟩,
      ⟨[⟨7, 0x10, 1, 1⟩, ⟨8, 0x40, 1, 1⟩], []⟩)
    (by decide)

/-- On a texture in a known state the statement succeeds and leaves the texture, with the same
native resource, in a state that has every bit of `State`. -/
theorem transitionIfNotInState_known (K : Consts) (ctx : CommandContext) (heap : Heap)
    (pTexture State : Nat) (t : TextureD3D12Impl)
    (ht : heap.textures[pTexture]? = some t) (hk : t.m_State ≠ K.RESOURCE_STATE_UNKNOWN) :
    ∃ s t1, transitionIfNotInState K ctx heap pTexture State = some s ∧
      s.2.textures[pTexture]? = some t1 ∧
      t1.m_pd3d12Resource = t.m_pd3d12Resource ∧
      t1.m_State &&& State = State := by
  unfold transitionIfNotInState
  simp only [ht]
  by_cases hc : t.m_State &&& State = State
  · refine ⟨(ctx, heap), t, ?_, ht, rfl, hc⟩
    simp [TextureD3D12Impl.CheckState, hc]
  · have hlt : pTexture < heap.textures.length := by
      by_contra hge
      rw [List.getElem?_eq_none (by omega)] at ht
      cases ht
    have hcond : (t.IsInKnownState K && !t.CheckState State) = true := by
      simp [TextureD3D12Impl.IsInKnownState, TextureD3D12Impl.CheckState, hk, hc]
    simp only [hcond, if_true, TransitionResourceTexture, TransitionResource,
      StateTransitionDesc.ofTexture, ht]
    refine ⟨_, _, rfl, List.getElem?_set_self hlt, rfl, ?_⟩
    show (TransitionResource.core K ctx (.texture t) _).2.GetState &&& State = State
    rw [core_snd]
    have hold : ∀ B : StateTransitionDesc,
        TransitionResource.oldState K (.texture t) B = t.m_State := by
      intro B
      unfold TransitionResource.oldState
      simp only [Resource.GetState]
      rw [if_neg hk]
    unfold TransitionResource.enqueue
    simp only [hold, hc, ne_eq, not_false_eq_true, if_true, GetState_SetState]
    unfold TransitionResource.newState
    simp only
    split
    · exact lor_land_right _ _
    · simp

/-- C20. For a view whose texture is in a known state, each of `ClearRenderTarget`,
`ClearDepthStencil`, `ClearUAVFloat` and `ClearUAVUint` first brings the texture to the
required state when it is not in it (the context and heap `s1`), then submits the whole pending
batch, and records the native clear right after that command: no barrier is pending when the
clear is recorded, and the tracked state of the texture has every bit of the required state. -/
theorem clears_flush_before_recording (K : Consts) (ctx : CommandContext) (heap : Heap)
    (view : TextureViewD3D12) (t : TextureD3D12Impl) (ClearFlags Stencil : Nat)
    (ht : heap.textures[view.pTexture]? = some t)
    (hk : t.m_State ≠ K.RESOURCE_STATE_UNKNOWN) :
    (∃ s1 t1,
      transitionIfNotInState K ctx heap view.pTexture K.RESOURCE_STATE_RENDER_TARGET
        = some s1 ∧
      ClearRenderTarget K ctx heap view = some
        (⟨[], s1.1.m_pCommandList ++ [.ResourceBarrier s1.1.m_PendingResourceBarriers,
          .ClearRenderTargetView view.CPUDescriptorHandle]⟩, s1.2) ∧
      s1.2.textures[view.pTexture]? = some t1 ∧
      t1.m_State &&& K.RESOURCE_STATE_RENDER_TARGET = K.RESOURCE_STATE_RENDER_TARGET) ∧
    (∃ s1 t1,
      transitionIfNotInState K ctx heap view.pTexture K.RESOURCE_STATE_DEPTH_WRITE
        = some s1 ∧
      ClearDepthStencil K ctx heap view ClearFlags Stencil = some
        (⟨[], s1.1.m_pCommandList ++ [.ResourceBarrier s1.1.m_PendingResourceBarriers,
          .ClearDepthStencilView view.CPUDescriptorHandle ClearFlags Stencil]⟩, s1.2) ∧
      s1.2.textures[view.pTexture]? = some t1 ∧
      t1.m_State &&& K.RESOURCE_STATE_DEPTH_WRITE = K.RESOURCE_STATE_DEPTH_WRITE) ∧
    (∃ s1 t1,
      transitionIfNotInState K ctx heap view.pTexture K.RESOURCE_STATE_UNORDERED_ACCESS
        = some s1 ∧
      ClearUAVFloat K ctx heap view = some
        (⟨[], s1.1.m_pCommandList ++ [.ResourceBarrier s1.1.m_PendingResourceBarriers,
          .ClearUnorderedAccessViewFloat view.CPUDescriptorHandle t.m_pd3d12Resource]⟩,
          s1.2) ∧
      ClearUAVUint K ctx heap view = some
        (⟨[], s1.1.m_pCommandList ++ [.ResourceBarrier s1.1.m_PendingResourceBarriers,
          .ClearUnorderedAccessViewUint view.CPUDescriptorHandle t.m_pd3d12Resource]⟩,
          s1.2) ∧
      s1.2.textures[view.pTexture]? = some t1 ∧
      t1.m_State &&& K.RESOURCE_STATE_UNORDERED_ACCESS
        = K.RESOURCE_STATE_UNORDERED_ACCESS) := by
  refine ⟨?_, ?_, ?_⟩
  · obtain ⟨s1, t1, hs, ht1, _, hst⟩ := transitionIfNotInState_known K ctx heap view.pTexture
      K.RESOURCE_STATE_RENDER_TARGET t ht hk
    refine ⟨s1, t1, hs, ?_, ht1, hst⟩
    simp [ClearRenderTarget, hs, FlushResourceBarriers, CommandContext.record]
  · obtain ⟨s1, t1, hs, ht1, _, hst⟩ := transitionIfNotInState_known K ctx heap view.pTexture
      K.RESOURCE_STATE_DEPTH_WRITE t ht hk
    refine ⟨s1, t1, hs, ?_, ht1, hst⟩
    simp [ClearDepthStencil, hs, FlushResourceBarriers, CommandContext.record]
  · obtain ⟨s1, t1, hs, ht1, hres, hst⟩ := transitionIfNotInState_known K ctx heap
      view.pTexture K.RESOURCE_STATE_UNORDERED_ACCESS t ht hk
    refine ⟨s1, t1, hs, ?_, ?_, ht1, hst⟩
    · simp [ClearUAVFloat, hs, ht1, hres, FlushResourceBarriers, CommandContext.record]
    · simp [ClearUAVUint, hs, ht1, hres, FlushResourceBarriers, CommandContext.record]

/-- C20 on a texture tracked in the shader-resource state, with one barrier already pending. -/
theorem clears_flush_before_recording_witness :
    (∃ s1 t1,
      transitionIfNotInState sampleConsts ⟨[.UAV 3], []⟩ ⟨[⟨7, 0x100, 1, 1⟩], []⟩
        (TextureViewD3D12.pTexture ⟨0, 50⟩) sampleConsts.RESOURCE_STATE_RENDER_TARGET
        = some s1 ∧
      ClearRenderTarget sampleConsts ⟨[.UAV 3], []⟩ ⟨[⟨7, 0x100, 1, 1⟩], []⟩ ⟨0, 50⟩ = some
        (⟨[], s1.1.m_pCommandList ++ [.ResourceBarrier s1.1.m_PendingResourceBarriers,
          .ClearRenderTargetView (TextureViewD3D12.CPUDescriptorHandle ⟨0, 50⟩)]⟩, s1.2) ∧
      s1.2.textures[TextureViewD3D12.pTexture ⟨0, 50⟩]? = some t1 ∧
      t1.m_State &&& sampleConsts.RESOURCE_STATE_RENDER_TARGET
        = sampleConsts.RESOURCE_STATE_RENDER_TARGET) ∧
    (∃ s1 t1,
      transitionIfNotInState sampleConsts ⟨[.UAV 3], []⟩ ⟨[⟨7, 0x100, 1, 1⟩], []⟩
        (TextureViewD3D12.pTexture ⟨0, 50⟩) sampleConsts.RESOURCE_STATE_DEPTH_WRITE
        = some s1 ∧
      ClearDepthStencil sampleConsts ⟨[.UAV 3], []⟩ ⟨[⟨7, 0x100, 1, 1⟩], []⟩ ⟨0, 50⟩ 1 0
        = some
        (⟨[], s1.1.m_pCommandList ++ [.ResourceBarrier s1.1.m_PendingResourceBarriers,
          .ClearDepthStencilView (TextureViewD3D12.CPUDescriptorHandle ⟨0, 50⟩) 1 0]⟩,
          s1.2) ∧
      s1.2.textures[TextureViewD3D12.pTexture ⟨0, 50⟩]? = some t1 ∧
      t1.m_State &&& sampleConsts.RESOURCE_STATE_DEPTH_WRITE
        = sampleConsts.RESOURCE_STATE_DEPTH_WRITE) ∧
    (∃ s1 t1,
      transitionIfNotInState sampleConsts ⟨[.UAV 3], []⟩ ⟨[⟨7, 0x100, 1, 1⟩], []⟩
        (TextureViewD3D12.pTexture ⟨0, 50⟩) sampleConsts.RESOURCE_STATE_UNORDERED_ACCESS
        = some s1 ∧
      ClearUAVFloat sampleConsts ⟨[.UAV 3], []⟩ ⟨[⟨7, 0x100, 1, 1⟩], []⟩ ⟨0, 50⟩ = some
        (⟨[], s1.1.m_pCommandList ++ [.ResourceBarrier s1.1.m_PendingResourceBarriers,
          .ClearUnorderedAccessViewFloat (TextureViewD3D12.CPUDescriptorHandle ⟨0, 50⟩)
            (TextureD3D12Impl.m_pd3d12Resource ⟨7, 0x100, 1, 1⟩)]⟩, s1.2) ∧
      ClearUAVUint sampleConsts ⟨[.UAV 3], []⟩ ⟨[⟨7, 0x100, 1, 1⟩], []⟩ ⟨0, 50⟩ = some
        (⟨[], s1.1.m_pCommandList ++ [.ResourceBarrier s1.1.m_PendingResourceBarriers,
          .ClearUnorderedAccessViewUint (TextureViewD3D12.CPUDescriptorHandle ⟨0, 50⟩)
            (TextureD3D12Impl.m_pd3d12Resource ⟨7, 0x100, 1, 1⟩)]⟩, s1.2) ∧
      s1.2.textures[TextureViewD3D12.pTexture ⟨0, 50⟩]? = some t1 ∧
      t1.m_State &&& sampleConsts.RESOURCE_STATE_UNORDERED_ACCESS
        = sampleConsts.RESOURCE_STATE_UNORDERED_ACCESS) :=
  clears_flush_before_recording sampleConsts ⟨[.UAV 3], []⟩ ⟨[⟨7, 0x100, 1, 1⟩], []⟩ ⟨0, 50⟩
    ⟨7, 0x100, 1, 1⟩ 1 0 (by decide) (by decide)

/-! Signal, Wait, idempotence and monotonicity of the fence -/

/-- C23. `Signal` reports an error and leaves the queue of sync groups and the watermark as
they were, so that a following `GetCompletedValue` returns what it would have returned
without it. -/
theorem Signal_reports_and_keeps_fence (f : FenceWebGPUImpl) (Value : Nat)
    (IsTriggered : SyncPoint → Bool) :
    (Signal f Value).2 ≠ [] ∧
    (Signal f Value).1.m_SyncGroups = f.m_SyncGroups ∧
    (Signal f Value).1.m_LastCompletedFenceValue = f.m_LastCompletedFenceValue ∧
    GetCompletedValue IsTriggered (Signal f Value).1 = GetCompletedValue IsTriggered f := by
  refine ⟨by simp [Signal], rfl, rfl, rfl⟩

theorem scanSyncPointsLoop_untriggered_front (IsTriggered : SyncPoint → Bool) (fuel : Nat)
    (p : SyncPoint) (rest : List SyncPoint) (hp : IsTriggered p = false) :
    scanSyncPointsLoop IsTriggered fuel (p :: rest) = p :: rest := by
  cases fuel with
  | zero => rfl
  | succ n => simp [scanSyncPointsLoop, hp]

/-- A scanned group is left as it is by a second scan. -/
theorem scanSyncPoints_idem (IsTriggered : SyncPoint → Bool) (pts : List SyncPoint) :
    scanSyncPoints IsTriggered (scanSyncPoints IsTriggered pts)
      = scanSyncPoints IsTriggered pts := by
  rcases scanSyncPointsLoop_stops IsTriggered pts.length pts (le_refl _) with h | ⟨p, rest, h, hp⟩
  · have h1 : scanSyncPoints IsTriggered pts = [] := h
    rw [h1]
    rfl
  · have h1 : scanSyncPoints IsTriggered pts = p :: rest := h
    rw [h1]
    exact scanSyncPointsLoop_untriggered_front IsTriggered _ p rest hp

/-- C26. Retirement is idempotent: with the same triggered flags a second `ProcessSyncPoints`
changes neither the queue of groups, with the contents and order of each group, nor the
watermark, and two consecutive `GetCompletedValue` calls return the same value. -/
theorem ProcessSyncPoints_idempotent (IsTriggered : SyncPoint → Bool) (f : FenceWebGPUImpl) :
    ProcessSyncPoints IsTriggered (ProcessSyncPoints IsTriggered f)
      = ProcessSyncPoints IsTriggered f ∧
    (GetCompletedValue IsTriggered (GetCompletedValue IsTriggered f).1).2
      = (GetCompletedValue IsTriggered f).2 ∧
    (GetCompletedValue IsTriggered (GetCompletedValue IsTriggered f).1).1
      = (GetCompletedValue IsTriggered f).1 := by
  have key : ProcessSyncPoints IsTriggered (ProcessSyncPoints IsTriggered f)
      = ProcessSyncPoints IsTriggered f := by
    have h1 := processSyncGroups_eq IsTriggered f.m_SyncGroups f
    cases hd : f.m_SyncGroups.dropWhile (fun g => g.2.all IsTriggered) with
    | nil =>
      rw [hd] at h1
      simp only [ProcessSyncPoints]
      rw [h1]
      rfl
    | cons g tl =>
      rw [hd] at h1
      have hnall : ¬ (g.2.all IsTriggered = true) := by
        have h2 := List.head?_dropWhile_not (fun g : SyncPointGroup => g.2.all IsTriggered)
          f.m_SyncGroups
        rw [hd] at h2
        simpa using h2
      have hne : scanSyncPoints IsTriggered g.2 ≠ [] := fun h =>
        hnall ((scanSyncPoints_eq_nil_iff IsTriggered g.2).mp h)
      have hne2 : (scanSyncPoints IsTriggered g.2).isEmpty = false := by
        cases h : scanSyncPoints IsTriggered g.2 with
        | nil => exact absurd h hne
        | cons _ _ => rfl
      simp only [ProcessSyncPoints]
      rw [h1]
      simp only [processSyncGroups, scanSyncPoints_idem, hne2]
      rfl
  refine ⟨key, ?_, ?_⟩
  · simp only [GetCompletedValue]
    rw [key]
  · simp only [GetCompletedValue]
    exact key

/-- The loop started at poll number `k`, on the fence before that poll: what it returns. -/
theorem Wait_loop_some (IsTriggeredAfter : Nat → SyncPoint → Bool) (f : FenceWebGPUImpl)
    (Value : Nat) :
    ∀ (fuel k : Nat) (f1 : FenceWebGPUImpl) (n : Nat),
      Wait.loop IsTriggeredAfter Value fuel k (Wait.fenceBeforePoll IsTriggeredAfter f k)
        = some (f1, n) →
      k ≤ n ∧ n < k + fuel ∧
      (∀ j, k ≤ j → j < n → Wait.polled IsTriggeredAfter f j < Value) ∧
      Value ≤ Wait.polled IsTriggeredAfter f n ∧
      f1 = Wait.fenceBeforePoll IsTriggeredAfter f (n + 1) := by
  intro fuel
  induction fuel with
  | zero => intro k f1 n h; cases h
  | succ m ih =>
    intro k f1 n h
    simp only [Wait.loop] at h
    split at h
    · rename_i hlt
      have h2 := ih (k + 1) f1 n h
      obtain ⟨h3, h4, h5, h6, h7⟩ := h2
      refine ⟨by omega, by omega, ?_, h6, h7⟩
      intro j hj1 hj2
      by_cases hjk : j = k
      · subst hjk
        exact hlt
      · exact h5 j (by omega) hj2
    · rename_i hge
      simp only [Option.some.injEq, Prod.mk.injEq] at h
      obtain ⟨h1, h2⟩ := h
      subst h2
      refine ⟨le_refl _, by omega, ?_, ?_, h1.symm⟩
      · intro j hj1 hj2
        omega
      · exact Nat.le_of_not_lt hge

/-- With enough fuel the loop returns at the first poll that is not below `Value`. -/
theorem Wait_loop_returns (IsTriggeredAfter : Nat → SyncPoint → Bool) (f : FenceWebGPUImpl)
    (Value n : Nat) (hn : Value ≤ Wait.polled IsTriggeredAfter f n) :
    ∀ (d k fuel : Nat), k + d = n → d < fuel →
      (∀ j, k ≤ j → j < n → Wait.polled IsTriggeredAfter f j < Value) →
      Wait.loop IsTriggeredAfter Value fuel k (Wait.fenceBeforePoll IsTriggeredAfter f k)
        = some (Wait.fenceBeforePoll IsTriggeredAfter f (n + 1), n) := by
  intro d
  induction d with
  | zero =>
    intro k fuel hk hf _
    have hkn : k = n := by omega
    subst hkn
    cases fuel with
    | zero => omega
    | succ m =>
      simp only [Wait.loop]
      rw [if_neg (by
        show ¬ Wait.polled IsTriggeredAfter f k < Value
        omega)]
      rfl
  | succ d ih =>
    intro k fuel hk hf hlow
    cases fuel with
    | zero => omega
    | succ m =>
      simp only [Wait.loop]
      rw [if_pos (by
        show Wait.polled IsTriggeredAfter f k < Value
        exact hlow k (le_refl _) (by omega))]
      exact ih (k + 1) m (by omega) (by omega) (fun j hj1 hj2 => hlow j (by omega) hj2)

/-- C22. `Wait` in builds other than the web platform: when it returns, the watermark is not
below `Value`, and `DeviceTick` has been called once after each poll that returned less than
`Value`, these being all polls before the last one; it returns, given enough fuel, at the first
poll that is not below `Value`, and without any `DeviceTick` call when that is the first
poll. -/
theorem Wait_returns_at_first_completed_poll (IsTriggeredAfter : Nat → SyncPoint → Bool)
    (fuel : Nat) (f f1 : FenceWebGPUImpl) (Value ticks : Nat)
    (h : Wait IsTriggeredAfter fuel f Value = some (f1, ticks)) :
    Value ≤ f1.m_LastCompletedFenceValue ∧
    (∀ j, j < ticks → Wait.polled IsTriggeredAfter f j < Value) ∧
    Value ≤ Wait.polled IsTriggeredAfter f ticks ∧
    f1.m_LastCompletedFenceValue = Wait.polled IsTriggeredAfter f ticks ∧
    (Value ≤ Wait.polled IsTriggeredAfter f 0 → ticks = 0) ∧
    (∀ n fuel2, n < fuel2 →
      (∀ j, j < n → Wait.polled IsTriggeredAfter f j < Value) →
      Value ≤ Wait.polled IsTriggeredAfter f n →
      ∃ f2, Wait IsTriggeredAfter fuel2 f Value = some (f2, n)) := by
  have h1 := Wait_loop_some IsTriggeredAfter f Value fuel 0 f1 ticks h
  obtain ⟨_, _, hlow, hge, hf1⟩ := h1
  have hwm : f1.m_LastCompletedFenceValue = Wait.polled IsTriggeredAfter f ticks := by
    rw [hf1]
    rfl
  refine ⟨by omega, fun j hj => hlow j (Nat.zero_le _) hj, hge, hwm, ?_, ?_⟩
  · intro h0
    by_contra hne
    have := hlow 0 (le_refl _) (by omega)
    omega
  · intro n fuel2 hn hlow2 hge2
    exact ⟨_, Wait_loop_returns IsTriggeredAfter f Value n hge2 n 0 fuel2 (by omega) hn
      (fun j _ hj => hlow2 j hj)⟩

/-- C22 on a fence whose only group, of value 10, is triggered by the second `DeviceTick`. -/
theorem Wait_returns_at_first_completed_poll_witness :
    (10 : Nat) ≤ (⟨[], 10⟩ : FenceWebGPUImpl).m_LastCompletedFenceValue ∧
    (∀ j, j < 2 →
      Wait.polled (fun n p => decide (p < n)) ⟨[(10, [1])], 0⟩ j < 10) ∧
    10 ≤ Wait.polled (fun n p => decide (p < n)) ⟨[(10, [1])], 0⟩ 2 ∧
    (⟨[], 10⟩ : FenceWebGPUImpl).m_LastCompletedFenceValue
      = Wait.polled (fun n p => decide (p < n)) ⟨[(10, [1])], 0⟩ 2 ∧
    (10 ≤ Wait.polled (fun n p => decide (p < n)) ⟨[(10, [1])], 0⟩ 0 → 2 = 0) ∧
    (∀ n fuel2, n < fuel2 →
      (∀ j, j < n → Wait.polled (fun n p => decide (p < n)) ⟨[(10, [1])], 0⟩ j < 10) →
      10 ≤ Wait.polled (fun n p => decide (p < n)) ⟨[(10, [1])], 0⟩ n →
      ∃ f2, Wait (fun n p => decide (p < n)) fuel2 ⟨[(10, [1])], 0⟩ 10 = some (f2, n)) :=
  Wait_returns_at_first_completed_poll (fun n p => decide (p < n)) 5 ⟨[(10, [1])], 0⟩
    ⟨[], 10⟩ 10 2 (by decide)

theorem FenceOrdered_processSyncGroups (wm0 : Nat) (hist : List Nat)
    (IsTriggered : SyncPoint → Bool) :
    ∀ (queue : List SyncPointGroup) (f : FenceWebGPUImpl),
      FenceOrdered wm0 hist queue f.m_LastCompletedFenceValue →
      FenceOrdered wm0 hist (processSyncGroups IsTriggered queue f).m_SyncGroups
        (processSyncGroups IsTriggered queue f).m_LastCompletedFenceValue ∧
      f.m_LastCompletedFenceValue
        ≤ (processSyncGroups IsTriggered queue f).m_LastCompletedFenceValue := by
  intro queue
  induction queue with
  | nil => intro f h; exact ⟨h, le_refl _⟩
  | cons g rest ih =>
    intro f ⟨hs, hw, hi, hq⟩
    simp only [List.map_cons, List.pairwise_cons] at hs
    by_cases hnil : scanSyncPoints IsTriggered g.2 = []
    · simp only [processSyncGroups, hnil, List.isEmpty_nil, if_true]
      have hstep : FenceOrdered wm0 hist rest
          (UpdateLastCompletedFenceValue f g.1).m_LastCompletedFenceValue := by
        refine ⟨hs.2, ?_, Or.inr (hq g (by simp)), fun q hq1 =>
          hq q (List.mem_cons_of_mem _ hq1)⟩
        intro q hq1
        have := hs.1 q.1 (List.mem_map_of_mem Prod.fst hq1)
        simp only [UpdateLastCompletedFenceValue]
        omega
      obtain ⟨h1, h2⟩ := ih _ hstep
      refine ⟨h1, le_trans ?_ h2⟩
      simp only [UpdateLastCompletedFenceValue]
      exact hw g (by simp)
    · have hne2 : (scanSyncPoints IsTriggered g.2).isEmpty = false := by
        cases h : scanSyncPoints IsTriggered g.2 with
        | nil => exact absurd h hnil
        | cons _ _ => rfl
      simp only [processSyncGroups, hne2]
      refine ⟨⟨by simpa using hs, ?_, hi, ?_⟩, le_refl _⟩
      · intro q hq1
        rcases List.mem_cons.mp hq1 with he | hr
        · subst he; exact hw g (by simp)
        · exact hw q (List.mem_cons_of_mem _ hr)
      · intro q hq1
        rcases List.mem_cons.mp hq1 with he | hr
        · subst he; exact hq g (by simp)
        · exact hq q (List.mem_cons_of_mem _ hr)

/-- Along a history that keeps the order, the returned values never decrease and are not
below the watermark the history started from. -/
theorem returnedValues_sorted (wm0 : Nat) :
    ∀ (evs : List FenceEvent) (w : FenceWorld) (hist : List Nat),
      FenceOrdered wm0 hist w.fence.m_SyncGroups w.fence.m_LastCompletedFenceValue →
      (hist ++ (appendedGroups evs).map Prod.fst).Pairwise (· < ·) →
      (∀ g ∈ appendedGroups evs, wm0 ≤ g.1) →
      (returnedValues w evs).Pairwise (· ≤ ·) ∧
      ∀ r ∈ returnedValues w evs, w.fence.m_LastCompletedFenceValue ≤ r := by
  intro evs
  induction evs with
  | nil => intro w hist _ _ _; simp [returnedValues]
  | cons e evs ih =>
    intro w hist hord hinc habove
    cases e with
    | append SyncPoints Value =>
      simp only [appendedGroups, List.map_cons] at hinc habove
      have hlt : ∀ v ∈ hist, v < Value := by
        intro v hv
        rw [List.pairwise_append] at hinc
        exact hinc.2.2 v hv Value (by simp)
      obtain ⟨hs, hw, hi, hq⟩ := hord
      have hwm : w.fence.m_LastCompletedFenceValue ≤ Value := by
        rcases hi with h1 | h1
        · rw [h1]; exact habove (Value, SyncPoints) (by simp)
        · exact Nat.le_of_lt (hlt _ h1)
      have hord1 : FenceOrdered wm0 (hist ++ [Value])
          (w.fence.m_SyncGroups ++ [(Value, SyncPoints)])
          w.fence.m_LastCompletedFenceValue := by
        refine ⟨?_, ?_, ?_, ?_⟩
        · rw [List.map_append, List.pairwise_append]
          refine ⟨hs, by simp, ?_⟩
          intro a ha b hb
          simp only [List.map_cons, List.map_nil, List.mem_singleton] at hb
          subst hb
          obtain ⟨q, hq1, rfl⟩ := List.mem_map.mp ha
          exact hlt q.1 (hq q hq1)
        · intro q hq1
          rcases List.mem_append.mp hq1 with h1 | h1
          · exact hw q h1
          · simp at h1; subst h1; exact hwm
        · exact hi.imp id (fun h => List.mem_append_left _ h)
        · intro q hq1
          rcases List.mem_append.mp hq1 with h1 | h1
          · exact List.mem_append_left _ (hq q h1)
          · simp at h1; subst h1; simp
      obtain ⟨hord2, hle⟩ := FenceOrdered_processSyncGroups wm0 (hist ++ [Value])
        w.IsTriggered (w.fence.m_SyncGroups ++ [(Value, SyncPoints)])
        { w.fence with m_SyncGroups := w.fence.m_SyncGroups ++ [(Value, SyncPoints)] } hord1
      have ih1 := ih (w.step (.append SyncPoints Value)) (hist ++ [Value]) hord2
        (by simpa using hinc) (fun g hg => habove g (List.mem_cons_of_mem _ hg))
      refine ⟨ih1.1, fun r hr => le_trans hle (ih1.2 r hr)⟩
    | trigger p =>
      exact ih (w.step (.trigger p)) hist hord hinc habove
    | getCompletedValue =>
      obtain ⟨hord2, hle⟩ := FenceOrdered_processSyncGroups wm0 hist w.IsTriggered
        w.fence.m_SyncGroups w.fence hord
      have ih1 := ih (w.step .getCompletedValue) hist hord2 hinc habove
      simp only [returnedValues, List.pairwise_cons, List.mem_cons]
      refine ⟨⟨fun r hr => ih1.2 r hr, ih1.1⟩, ?_⟩
      rintro r (hr | hr)
      · rw [hr]; exact hle
      · exact le_trans hle (ih1.2 r hr)

/-- C24. Monotone watermark: on a fence created with an empty queue, along every history of
`AppendSyncPoints` calls with strictly increasing values, trigger events and
`GetCompletedValue` calls, the values returned by the successive `GetCompletedValue` calls
never decrease, for every initial watermark that is not above the appended values, and so for
the initial watermark 0. -/
theorem watermark_monotone (evs : List FenceEvent)
    (hinc : ((appendedGroups evs).map Prod.fst).Pairwise (· < ·)) :
    (∀ (wm0 : Nat) (t0 : SyncPoint → Bool), (∀ g ∈ appendedGroups evs, wm0 ≤ g.1) →
      (returnedValues ⟨⟨[], wm0⟩, t0⟩ evs).Pairwise (· ≤ ·)) ∧
    (∀ t0 : SyncPoint → Bool, (returnedValues ⟨⟨[], 0⟩, t0⟩ evs).Pairwise (· ≤ ·)) := by
  have main : ∀ (wm0 : Nat) (t0 : SyncPoint → Bool), (∀ g ∈ appendedGroups evs, wm0 ≤ g.1) →
      (returnedValues ⟨⟨[], wm0⟩, t0⟩ evs).Pairwise (· ≤ ·) := by
    intro wm0 t0 habove
    exact (returnedValues_sorted wm0 evs ⟨⟨[], wm0⟩, t0⟩ []
      ⟨by simp, by simp, Or.inl rfl, by simp⟩ (by simpa using hinc) habove).1
  exact ⟨main, fun t0 => main 0 t0 (fun _ _ => Nat.zero_le _)⟩

/-- C24 on a history with three polls, which return 0, 10 and 20. -/
theorem watermark_monotone_witness :
    (∀ (wm0 : Nat) (t0 : SyncPoint → Bool),
      (∀ g ∈ appendedGroups [.append [1] 10, .getCompletedValue, .trigger 1,
        .getCompletedValue, .append [] 20, .getCompletedValue], wm0 ≤ g.1) →
      (returnedValues ⟨⟨[], wm0⟩, t0⟩ [.append [1] 10, .getCompletedValue, .trigger 1,
        .getCompletedValue, .append [] 20, .getCompletedValue]).Pairwise (· ≤ ·)) ∧
    (∀ t0 : SyncPoint → Bool,
      (returnedValues ⟨⟨[], 0⟩, t0⟩ [.append [1] 10, .getCompletedValue, .trigger 1,
        .getCompletedValue, .append [] 20, .getCompletedValue]).Pairwise (· ≤ ·)) :=
  watermark_monotone [.append [1] 10, .getCompletedValue, .trigger 1, .getCompletedValue,
    .append [] 20, .getCompletedValue] (by decide)

/-! AlignUp -/

/-- The rounded-up quotient: the value itself on a multiple of the alignment, the next
multiple otherwise. -/
theorem AlignUp_cases (v a : Nat) (ha : 0 < a) :
    (v % a = 0 → AlignUp v a = v) ∧
    (v % a ≠ 0 → AlignUp v a = a * (v / a) + a) := by
  have hdm := Nat.div_add_mod v a
  have hsplit : v + (a - 1) = a * (v / a) + (v % a + (a - 1)) := by omega
  have hmod := Nat.mod_lt v ha
  constructor
  · intro h0
    unfold AlignUp
    have h1 : (v % a + (a - 1)) / a = 0 := Nat.div_eq_of_lt (by omega)
    rw [hsplit, Nat.mul_add_div ha, h1, Nat.add_zero]
    omega
  · intro h0
    unfold AlignUp
    have h1 : (v % a + (a - 1)) / a = 1 :=
      Nat.div_eq_of_lt_le (by omega) (by omega)
    rw [hsplit, Nat.mul_add_div ha, h1, Nat.mul_add, Nat.mul_one]

/-- C25. For a value `v` of `bits` bits and a power-of-two alignment `a` such that the result
is representable, `AlignUp v a` equals the reference computed by the test, is the smallest
multiple of `a` that is not less than `v`, and is `v` itself when `v` is a multiple of `a`;
`AlignUp 17 16 = 32`, `AlignUp 400 128 = 512` and
`AlignUp (2^63 + 1) 1024 = 2^63 + 1024`. -/
theorem AlignUp_eq_reference (bits v a k : Nat) (hpow : a = 2 ^ k) (hv : v < 2 ^ bits)
    (hrep : AlignUp v a < 2 ^ bits) :
    AlignUp v a = alignUpReference bits v a ∧
    a ∣ AlignUp v a ∧
    v ≤ AlignUp v a ∧
    (∀ m, a ∣ m → v ≤ m → AlignUp v a ≤ m) ∧
    (a ∣ v → AlignUp v a = v) ∧
    AlignUp 17 16 = 32 ∧ AlignUp 400 128 = 512 ∧
    AlignUp (2 ^ 63 + 1) 1024 = 2 ^ 63 + 1024 ∧
    alignUpReference 64 (2 ^ 63 + 1) 1024 = 2 ^ 63 + 1024 := by
  have ha : 0 < a := by rw [hpow]; exact Nat.pos_pow_of_pos k (by decide)
  obtain ⟨hz, hnz⟩ := AlignUp_cases v a ha
  have hdm := Nat.div_add_mod v a
  have hmod := Nat.mod_lt v ha
  have hqa : v / a * a = a * (v / a) := Nat.mul_comm _ _
  have hle : a * (v / a) ≤ v := by omega
  refine ⟨?_, ⟨(v + (a - 1)) / a, rfl⟩, ?_, ?_, ?_, by decide, by decide, by decide,
    by decide⟩
  · unfold alignUpReference
    simp only
    rw [hqa, Nat.mod_eq_of_lt (by omega)]
    by_cases h0 : v % a = 0
    · rw [hz h0, if_neg (by omega)]
      omega
    · have h1 := hnz h0
      rw [if_pos (by omega), Nat.mod_eq_of_lt (by omega)]
      exact h1
  · by_cases h0 : v % a = 0
    · rw [hz h0]
    · rw [hnz h0]; omega
  · intro m hdvd hvm
    by_cases h0 : v % a = 0
    · rw [hz h0]; exact hvm
    · rw [hnz h0]
      obtain ⟨c, rfl⟩ := hdvd
      have hlt : a * (v / a) < a * c := by omega
      have hc : v / a < c := Nat.lt_of_mul_lt_mul_left hlt
      have : a * (v / a + 1) ≤ a * c := Nat.mul_le_mul_left a hc
      rw [Nat.mul_add, Nat.mul_one] at this
      exact this
  · intro hdvd
    exact hz (Nat.mod_eq_zero_of_dvd hdvd)

/-- C25 on the value 17 and the alignment 16 in 8-bit arithmetic. -/
theorem AlignUp_eq_reference_witness :
    AlignUp 17 16 = alignUpReference 8 17 16 ∧
    16 ∣ AlignUp 17 16 ∧
    17 ≤ AlignUp 17 16 ∧
    (∀ m, 16 ∣ m → 17 ≤ m → AlignUp 17 16 ≤ m) ∧
    (16 ∣ 17 → AlignUp 17 16 = 17) ∧
    AlignUp 17 16 = 32 ∧ AlignUp 400 128 = 512 ∧
    AlignUp (2 ^ 63 + 1) 1024 = 2 ^ 63 + 1024 ∧
    alignUpReference 64 (2 ^ 63 + 1) 1024 = 2 ^ 63 + 1024 :=
  AlignUp_eq_reference 8 17 16 4 (by decide) (by decide) (by decide)

/-! Sub-range transitions: the state record and the subresource indices -/

/-- C27, as stated, fails: the subresource index is computed in 32 bits. For a texture with
65536 mips and 65538 slices and the range holding mip 65534 of slice 65536 (within the extents,
all four range checks passing) the tracked state becomes the new state and the one barrier
appended carries the subresource index 65534, which is the subresource of mip 65534 of
slice 0, outside the range. -/
theorem TransitionResource_sub_range_names_uncovered_subresource :
    TransitionResource.rangeVerifies sampleConsts ⟨7, 0x10, 65536, 65538⟩
      ⟨some 0, none, 65534, 1, 65536, 1, 0, 0x100, true⟩ = [true, true, true, true] ∧
    TransitionResource.coversAll sampleConsts ⟨7, 0x10, 65536, 65538⟩
      ⟨some 0, none, 65534, 1, 65536, 1, 0, 0x100, true⟩ = false ∧
    (TransitionResource.enqueue sampleConsts (.texture ⟨7, 0x10, 65536, 65538⟩)
      ⟨some 0, none, 65534, 1, 65536, 1, 0, 0x100, true⟩).2.GetState = 0x100 ∧
    (TransitionResource.enqueue sampleConsts (.texture ⟨7, 0x10, 65536, 65538⟩)
      ⟨some 0, none, 65534, 1, 65536, 1, 0, 0x100, true⟩).1
      = [.Transition 7 65534 0x10 0x100] ∧
    D3D12CalcSubresource 65534 0 0 65536 65538 = 65534 ∧
    (65534 : Nat) < 65536 ∧ (0 : Nat) < 65538 ∧ ¬ ((65536 : Nat) ≤ 0) := by
  decide

/-- C27, amended. Sub-range transitions update the whole-resource record (the unknown state
being the empty mask): after a texture transition that is not a no-op, restricted to a range
within the extents of a texture with at most `2^32` subresources that does not cover the
texture, with state tracking, the tracked state is the computed new state although the barriers
appended are exactly one for each (mip, slice) pair of the range, carrying the subresource
`mip + slice × MipLevels`, and no subresource of the texture outside the range is named by a
barrier; an immediately following `TransitionResource` of the texture to the same requested
state, other than the UAV-to-UAV case, appends no barrier and leaves the resource as it is. -/
theorem TransitionResource_sub_range_updates_record (K : Consts) (ctx : CommandContext)
    (t : TextureD3D12Impl) (Barrier Barrier2 : StateTransitionDesc) (mipCount sliceCount : Nat)
    (hU : K.RESOURCE_STATE_UNKNOWN = 0)
    (hM : t.MipLevels < 2 ^ 32) (hA : t.ArraySize < 2 ^ 32)
    (hmc : mipCount = if Barrier.MipLevelsCount = K.RemainingMipLevels
      then t.MipLevels - Barrier.FirstMipLevel else Barrier.MipLevelsCount)
    (hsc : sliceCount = if Barrier.ArraySliceCount = K.RemainingArraySlices
      then t.ArraySize - Barrier.FirstArraySlice else Barrier.ArraySliceCount)
    (hmips : Barrier.FirstMipLevel + mipCount ≤ t.MipLevels)
    (hslices : Barrier.FirstArraySlice + sliceCount ≤ t.ArraySize)
    (hbound : t.MipLevels * t.ArraySize ≤ 2 ^ 32)
    (hne : TransitionResource.oldState K (.texture t) Barrier &&& Barrier.NewState
      ≠ Barrier.NewState)
    (hpart : TransitionResource.coversAll K t Barrier = false)
    (hupd : Barrier.UpdateResourceState = true)
    (hsame : Barrier2.NewState = Barrier.NewState)
    (hnuav : ¬ (TransitionResource.newState K
        (TransitionResource.oldState K (.texture t) Barrier) Barrier
          = K.RESOURCE_STATE_UNORDERED_ACCESS ∧
      Barrier.NewState = K.RESOURCE_STATE_UNORDERED_ACCESS)) :
    let r := TransitionResource.core K ctx (.texture t) Barrier
    let added : List D3D12_RESOURCE_BARRIER :=
      (List.product (List.range' Barrier.FirstMipLevel mipCount)
        (List.range' Barrier.FirstArraySlice sliceCount)).map
        (fun ms => .Transition t.m_pd3d12Resource (ms.1 + ms.2 * t.MipLevels)
          (K.ResourceStateFlagsToD3D12ResourceStates
            (TransitionResource.oldState K (.texture t) Barrier))
          (K.ResourceStateFlagsToD3D12ResourceStates
            (TransitionResource.newState K
              (TransitionResource.oldState K (.texture t) Barrier) Barrier)))
    r.2.GetState = TransitionResource.newState K
      (TransitionResource.oldState K (.texture t) Barrier) Barrier ∧
    r.1.enqueued = ctx.enqueued ++ added ∧
    (∀ mip slice, mip < t.MipLevels → slice < t.ArraySize →
      ((∃ before after, D3D12_RESOURCE_BARRIER.Transition t.m_pd3d12Resource
          (mip + slice * t.MipLevels) before after ∈ added) ↔
        (Barrier.FirstMipLevel ≤ mip ∧ mip < Barrier.FirstMipLevel + mipCount) ∧
        (Barrier.FirstArraySlice ≤ slice ∧
          slice < Barrier.FirstArraySlice + sliceCount))) ∧
    (TransitionResource.core K r.1 r.2 Barrier2).1.enqueued = r.1.enqueued ∧
    (TransitionResource.core K r.1 r.2 Barrier2).2 = r.2 := by
  intro r added
  have hnuav1 : ¬ (TransitionResource.oldState K (.texture t) Barrier
        = K.RESOURCE_STATE_UNORDERED_ACCESS ∧
      Barrier.NewState = K.RESOURCE_STATE_UNORDERED_ACCESS) := by
    rintro ⟨h1, h2⟩
    apply hne
    rw [h1, h2]
    simp
  have he : TransitionResource.enqueue K (.texture t) Barrier =
      (TransitionResource.transitionBarriers K (.texture t) Barrier
        (K.ResourceStateFlagsToD3D12ResourceStates
          (TransitionResource.oldState K (.texture t) Barrier))
        (K.ResourceStateFlagsToD3D12ResourceStates
          (TransitionResource.newState K
            (TransitionResource.oldState K (.texture t) Barrier) Barrier)),
        (Resource.texture t).SetState (TransitionResource.newState K
          (TransitionResource.oldState K (.texture t) Barrier) Barrier)) := by
    unfold TransitionResource.enqueue
    simp only [hne, ne_eq, not_false_eq_true, if_true, hnuav1, if_false, List.append_nil, hupd]
  have hstate : r.2.GetState = TransitionResource.newState K
      (TransitionResource.oldState K (.texture t) Barrier) Barrier := by
    show (TransitionResource.core K ctx (.texture t) Barrier).2.GetState = _
    rw [core_snd, he]
    simp only [GetState_SetState]
  have hcontains : r.2.GetState &&& Barrier.NewState = Barrier.NewState := by
    rw [hstate]
    unfold TransitionResource.newState
    split
    · exact lor_land_right _ _
    · simp
  have hB : Barrier.NewState ≠ 0 := by
    intro h0
    apply hne
    rw [h0]
    simp
  have hknown : r.2.GetState ≠ K.RESOURCE_STATE_UNKNOWN := by
    rw [hU]
    intro h0
    rw [h0] at hcontains
    apply hB
    rw [← hcontains]
    simp
  have hold2 : TransitionResource.oldState K r.2 Barrier2 = r.2.GetState := by
    unfold TransitionResource.oldState
    rw [if_neg hknown]
  have he2 : TransitionResource.enqueue K r.2 Barrier2 = ([], r.2) := by
    unfold TransitionResource.enqueue
    have hn2 : ¬ (r.2.GetState = K.RESOURCE_STATE_UNORDERED_ACCESS ∧
        Barrier.NewState = K.RESOURCE_STATE_UNORDERED_ACCESS) := by
      rw [hstate]; exact hnuav
    simp only [hold2, hsame, hcontains, ne_eq, not_true_eq_false, if_false, hn2,
      List.append_nil]
  refine ⟨hstate, ?_, ?_, ?_, ?_⟩
  · show (TransitionResource.core K ctx (.texture t) Barrier).1.enqueued = _
    rw [enqueued_core, enqueue_fst_of_transition K _ Barrier hne,
      transitionBarriers_split_unwrapped K t Barrier mipCount sliceCount _ _ hM hA hmc hsc
        hmips hslices hpart hbound]
  · intro mip slice hmip _
    constructor
    · rintro ⟨before, after, hb⟩
      obtain ⟨⟨m, s⟩, hms, heq⟩ := List.mem_map.mp hb
      have hlt := (split_index_lt t _ _ _ _ hmips hslices (m, s) hms).1
      simp only [D3D12_RESOURCE_BARRIER.Transition.injEq] at heq
      obtain ⟨h1, h2⟩ := split_index_injective t.MipLevels m s mip slice hlt hmip heq.2.1
      subst h1 h2
      rw [List.pair_mem_product, List.mem_range'_1, List.mem_range'_1] at hms
      exact hms
    · intro hr
      refine ⟨_, _, List.mem_map.mpr ⟨(mip, slice), ?_, rfl⟩⟩
      rw [List.pair_mem_product, List.mem_range'_1, List.mem_range'_1]
      exact hr
  · rw [enqueued_core, he2, List.append_nil]
  · rw [core_snd, he2]

/-- C27 (amended) on a texture with 4 mips and 6 slices, the range (1, 2, 3, remaining), from
the render-target to the shader-resource state. -/
theorem TransitionResource_sub_range_updates_record_witness :
    let r := TransitionResource.core sampleConsts ⟨[], []⟩ (.texture ⟨7, 0x10, 4, 6⟩)
      ⟨some 0, none, 1, 2, 3, 0xFFFFFFFF, 0, 0x100, true⟩
    let added : List D3D12_RESOURCE_BARRIER :=
      (List.product (List.range' 1 2) (List.range' 3 3)).map
        (fun ms => .Transition 7 (ms.1 + ms.2 * 4)
          (sampleConsts.ResourceStateFlagsToD3D12ResourceStates
            (TransitionResource.oldState sampleConsts (.texture ⟨7, 0x10, 4, 6⟩)
              ⟨some 0, none, 1, 2, 3, 0xFFFFFFFF, 0, 0x100, true⟩))
          (sampleConsts.ResourceStateFlagsToD3D12ResourceStates
            (TransitionResource.newState sampleConsts
              (TransitionResource.oldState sampleConsts (.texture ⟨7, 0x10, 4, 6⟩)
                ⟨some 0, none, 1, 2, 3, 0xFFFFFFFF, 0, 0x100, true⟩)
              ⟨some 0, none, 1, 2, 3, 0xFFFFFFFF, 0, 0x100, true⟩)))
    r.2.GetState = TransitionResource.newState sampleConsts
      (TransitionResource.oldState sampleConsts (.texture ⟨7, 0x10, 4, 6⟩)
        ⟨some 0, none, 1, 2, 3, 0xFFFFFFFF, 0, 0x100, true⟩)
      ⟨some 0, none, 1, 2, 3, 0xFFFFFFFF, 0, 0x100, true⟩ ∧
    r.1.enqueued = (⟨[], []⟩ : CommandContext).enqueued ++ added ∧
    (∀ mip slice, mip < 4 → slice < 6 →
      ((∃ before after, D3D12_RESOURCE_BARRIER.Transition 7
          (mip + slice * 4) before after ∈ added) ↔
        (1 ≤ mip ∧ mip < 1 + 2) ∧ (3 ≤ slice ∧ slice < 3 + 3))) ∧
    (TransitionResource.core sampleConsts r.1 r.2
      ⟨some 0, none, 0, 0xFFFFFFFF, 0, 0xFFFFFFFF, 0, 0x100, true⟩).1.enqueued
      = r.1.enqueued ∧
    (TransitionResource.core sampleConsts r.1 r.2
      ⟨some 0, none, 0, 0xFFFFFFFF, 0, 0xFFFFFFFF, 0, 0x100, true⟩).2 = r.2 :=
  TransitionResource_sub_range_updates_record sampleConsts ⟨[], []⟩ ⟨7, 0x10, 4, 6⟩
    ⟨some 0, none, 1, 2, 3, 0xFFFFFFFF, 0, 0x100, true⟩
    ⟨some 0, none, 0, 0xFFFFFFFF, 0, 0xFFFFFFFF, 0, 0x100, true⟩ 2 3
    rfl (by decide) (by decide) (by decide) (by decide) (by decide) (by decide) (by decide)
    (by decide) (by decide) rfl rfl (by decide)

/-- The subresource indices of the barriers of a split transition of a texture with at most
`2^32` subresources, mip-major. -/
theorem transitionBarriers_split_subresources (K : Consts) (t : TextureD3D12Impl)
    (Barrier : StateTransitionDesc) (mipCount sliceCount StateBefore StateAfter : Nat)
    (hM : t.MipLevels < 2 ^ 32) (hA : t.ArraySize < 2 ^ 32)
    (hmc : mipCount = if Barrier.MipLevelsCount = K.RemainingMipLevels
      then t.MipLevels - Barrier.FirstMipLevel else Barrier.MipLevelsCount)
    (hsc : sliceCount = if Barrier.ArraySliceCount = K.RemainingArraySlices
      then t.ArraySize - Barrier.FirstArraySlice else Barrier.ArraySliceCount)
    (hmips : Barrier.FirstMipLevel + mipCount ≤ t.MipLevels)
    (hslices : Barrier.FirstArraySlice + sliceCount ≤ t.ArraySize)
    (hpart : TransitionResource.coversAll K t Barrier = false)
    (hbound : t.MipLevels * t.ArraySize ≤ 2 ^ 32) :
    (TransitionResource.transitionBarriers K (.texture t) Barrier StateBefore
        StateAfter).filterMap D3D12_RESOURCE_BARRIER.transitionSubresource
      = (List.product (List.range' Barrier.FirstMipLevel mipCount)
          (List.range' Barrier.FirstArraySlice sliceCount)).map
        (fun ms => ms.1 + ms.2 * t.MipLevels) := by
  rw [transitionBarriers_split_unwrapped K t Barrier mipCount sliceCount StateBefore StateAfter
    hM hA hmc hsc hmips hslices hpart hbound, List.filterMap_map, ← List.filterMap_eq_map]
  rfl

/-- C28, as stated, fails: for a texture with 65536 mips and 65536 slices the barrier of the
range holding only the last mip of the last slice carries the subresource index
`0xFFFFFFFF`, the value of `D3D12_RESOURCE_BARRIER_ALL_SUBRESOURCES`; and for a texture with 4
mips and 6 slices the explicit range (0, 4, 0, 6), which lies within the extents, gets one
barrier carrying that sentinel. -/
theorem split_subresource_equals_sentinel :
    sampleConsts.D3D12_RESOURCE_BARRIER_ALL_SUBRESOURCES = 0xFFFFFFFF ∧
    TransitionResource.coversAll sampleConsts ⟨7, 0x10, 65536, 65536⟩
      ⟨some 0, none, 65535, 1, 65535, 1, 0, 0x100, true⟩ = false ∧
    (TransitionResource.enqueue sampleConsts (.texture ⟨7, 0x10, 65536, 65536⟩)
      ⟨some 0, none, 65535, 1, 65535, 1, 0, 0x100, true⟩).1
      = [.Transition 7 0xFFFFFFFF 0x10 0x100] ∧
    (TransitionResource.enqueue sampleConsts (.texture ⟨7, 0x10, 4, 6⟩)
      ⟨some 0, none, 0, 4, 0, 6, 0, 0x100, true⟩).1
      = [.Transition 7 0xFFFFFFFF 0x10 0x100] := by
  decide

/-- C28, amended. For a texture whose number of subresources `MipLevels × ArraySize` does not
exceed the sentinel `D3D12_RESOURCE_BARRIER_ALL_SUBRESOURCES`, a 32-bit value, and a range
within its extents that does not cover it all, the subresource indices of the transition
barriers appended by one `TransitionResource` call are pairwise distinct, each is below
`MipLevels × ArraySize`, and none is the sentinel. -/
theorem split_subresources_valid (K : Consts) (t : TextureD3D12Impl)
    (Barrier : StateTransitionDesc) (mipCount sliceCount : Nat)
    (hM : t.MipLevels < 2 ^ 32) (hA : t.ArraySize < 2 ^ 32)
    (hmc : mipCount = if Barrier.MipLevelsCount = K.RemainingMipLevels
      then t.MipLevels - Barrier.FirstMipLevel else Barrier.MipLevelsCount)
    (hsc : sliceCount = if Barrier.ArraySliceCount = K.RemainingArraySlices
      then t.ArraySize - Barrier.FirstArraySlice else Barrier.ArraySliceCount)
    (hmips : Barrier.FirstMipLevel + mipCount ≤ t.MipLevels)
    (hslices : Barrier.FirstArraySlice + sliceCount ≤ t.ArraySize)
    (hpart : TransitionResource.coversAll K t Barrier = false)
    (hsent : t.MipLevels * t.ArraySize ≤ K.D3D12_RESOURCE_BARRIER_ALL_SUBRESOURCES)
    (hsent32 : K.D3D12_RESOURCE_BARRIER_ALL_SUBRESOURCES < 2 ^ 32) :
    ((TransitionResource.enqueue K (.texture t) Barrier).1.filterMap
      D3D12_RESOURCE_BARRIER.transitionSubresource).Nodup ∧
    ∀ i ∈ (TransitionResource.enqueue K (.texture t) Barrier).1.filterMap
        D3D12_RESOURCE_BARRIER.transitionSubresource,
      i < t.MipLevels * t.ArraySize ∧ i ≠ K.D3D12_RESOURCE_BARRIER_ALL_SUBRESOURCES := by
  have hsub : ∃ l, (TransitionResource.enqueue K (.texture t) Barrier).1.filterMap
      D3D12_RESOURCE_BARRIER.transitionSubresource = l ∧
      (l = [] ∨ l = (List.product (List.range' Barrier.FirstMipLevel mipCount)
          (List.range' Barrier.FirstArraySlice sliceCount)).map
        (fun ms => ms.1 + ms.2 * t.MipLevels)) := by
    refine ⟨_, rfl, ?_⟩
    unfold TransitionResource.enqueue
    simp only [List.filterMap_append]
    have huav : ∀ c : Prop, ∀ _ : Decidable c,
        (if c then [D3D12_RESOURCE_BARRIER.UAV (Resource.texture t).GetD3D12Resource]
          else []).filterMap D3D12_RESOURCE_BARRIER.transitionSubresource = [] := by
      intro c _
      split <;> rfl
    rw [huav, List.append_nil]
    split
    · right
      exact transitionBarriers_split_subresources K t Barrier mipCount sliceCount _ _ hM hA
        hmc hsc hmips hslices hpart (by omega)
    · left
      rfl
  obtain ⟨l, hl, hcases⟩ := hsub
  rw [hl]
  rcases hcases with h | h
  · subst h
    exact ⟨List.nodup_nil, fun i hi => by cases hi⟩
  · subst h
    have hmem : ∀ ms ∈ List.product (List.range' Barrier.FirstMipLevel mipCount)
        (List.range' Barrier.FirstArraySlice sliceCount),
        ms.1 < t.MipLevels ∧ ms.2 < t.ArraySize := by
      rintro ⟨m, s⟩ hms
      rw [List.pair_mem_product, List.mem_range'_1, List.mem_range'_1] at hms
      exact ⟨by omega, by omega⟩
    constructor
    · refine List.Nodup.map_on ?_
        (List.Nodup.product (List.nodup_range' _ _) (List.nodup_range' _ _))
      rintro ⟨m1, s1⟩ h1 ⟨m2, s2⟩ h2 heq
      have b1 := (hmem _ h1).1
      have b2 := (hmem _ h2).1
      simp only at heq b1 b2
      have hmod : (m1 + s1 * t.MipLevels) % t.MipLevels
          = (m2 + s2 * t.MipLevels) % t.MipLevels := by rw [heq]
      rw [Nat.add_mul_mod_self_right, Nat.add_mul_mod_self_right, Nat.mod_eq_of_lt b1,
        Nat.mod_eq_of_lt b2] at hmod
      subst hmod
      have hs : s1 * t.MipLevels = s2 * t.MipLevels := by omega
      have hpos : 0 < t.MipLevels := by omega
      have := Nat.eq_of_mul_eq_mul_right hpos hs
      subst this
      rfl
    · intro i hi
      obtain ⟨⟨m, s⟩, hms, rfl⟩ := List.mem_map.mp hi
      obtain ⟨b1, b2⟩ := hmem _ hms
      simp only at b1 b2 ⊢
      have hlt : m + s * t.MipLevels < t.MipLevels * t.ArraySize := by
        have h1 : (s + 1) * t.MipLevels ≤ t.ArraySize * t.MipLevels :=
          Nat.mul_le_mul_right _ (by omega)
        rw [Nat.add_mul, Nat.one_mul, Nat.mul_comm t.ArraySize] at h1
        omega
      exact ⟨hlt, by omega⟩

/-- C28 (amended) on a texture with 4 mips and 6 slices and the range (1, 2, 3, remaining). -/
theorem split_subresources_valid_witness :
    ((TransitionResource.enqueue sampleConsts (.texture ⟨7, 0x10, 4, 6⟩)
        ⟨some 0, none, 1, 2, 3, 0xFFFFFFFF, 0, 0x100, true⟩).1.filterMap
      D3D12_RESOURCE_BARRIER.transitionSubresource).Nodup ∧
    ∀ i ∈ (TransitionResource.enqueue sampleConsts (.texture ⟨7, 0x10, 4, 6⟩)
        ⟨some 0, none, 1, 2, 3, 0xFFFFFFFF, 0, 0x100, true⟩).1.filterMap
        D3D12_RESOURCE_BARRIER.transitionSubresource,
      i < 4 * 6 ∧ i ≠ sampleConsts.D3D12_RESOURCE_BARRIER_ALL_SUBRESOURCES :=
  split_subresources_valid sampleConsts ⟨7, 0x10, 4, 6⟩
    ⟨some 0, none, 1, 2, 3, 0xFFFFFFFF, 0, 0x100, true⟩ 2 3
    (by decide) (by decide) (by decide) (by decide) (by decide) (by decide) (by decide)
    (by decide) (by decide)

/-! SetRenderTargets: the states of the targets -/

/-- What the conditional transition does to the heap: only the texture it is directed at can
change, it ends with every bit of `State` when it was in a known state, and nothing at all
changes when it was in the unknown state or had every bit of `State` already. -/
theorem transitionIfNotInState_heap (K : Consts) (ctx : CommandContext) (heap : Heap)
    (j State : Nat) (s : CommandContext × Heap)
    (h : transitionIfNotInState K ctx heap j State = some s) :
    ∃ t t1, heap.textures[j]? = some t ∧ s.2.textures[j]? = some t1 ∧
      (∀ i, i ≠ j → s.2.textures[i]? = heap.textures[i]?) ∧
      (t.m_State ≠ K.RESOURCE_STATE_UNKNOWN → t1.m_State &&& State = State) ∧
      (t.m_State = K.RESOURCE_STATE_UNKNOWN ∨ t.m_State &&& State = State →
        s = (ctx, heap)) := by
  cases ht : heap.textures[j]? with
  | none => simp [transitionIfNotInState, ht] at h
  | some t =>
    by_cases hk : t.m_State = K.RESOURCE_STATE_UNKNOWN
    · have hs : s = (ctx, heap) := by
        simp [transitionIfNotInState, ht, TextureD3D12Impl.IsInKnownState, hk] at h
        exact h.symm
      subst hs
      exact ⟨t, t, rfl, ht, fun _ _ => rfl, fun h1 => absurd hk h1, fun _ => rfl⟩
    · obtain ⟨s2, t1, hs2, ht1, _, hst⟩ :=
        transitionIfNotInState_known K ctx heap j State t ht hk
      rw [hs2] at h
      simp only [Option.some.injEq] at h
      subst h
      refine ⟨t, t1, rfl, ht1, ?_, fun _ => hst, ?_⟩
      · intro i hij
        by_cases hc : t.m_State &&& State = State
        · have : transitionIfNotInState K ctx heap j State = some (ctx, heap) := by
            simp [transitionIfNotInState, ht, TextureD3D12Impl.CheckState, hc]
          rw [this] at hs2
          simp only [Option.some.injEq] at hs2
          rw [← hs2]
        · have hcond : (t.IsInKnownState K && !t.CheckState State) = true := by
            simp [TextureD3D12Impl.IsInKnownState, TextureD3D12Impl.CheckState, hk, hc]
          simp only [transitionIfNotInState, ht, hcond, if_true, TransitionResourceTexture,
            TransitionResource, StateTransitionDesc.ofTexture, Option.some.injEq] at hs2
          rw [← hs2]
          exact List.getElem?_set_ne (Ne.symm hij)
      · rintro (h1 | h1)
        · exact absurd h1 hk
        · have : transitionIfNotInState K ctx heap j State = some (ctx, heap) := by
            simp [transitionIfNotInState, ht, TextureD3D12Impl.CheckState, h1]
          rw [this] at hs2
          simp only [Option.some.injEq] at hs2
          exact hs2.symm

/-- A texture that has every bit of the render-target state keeps it through the loop. -/
theorem colorTargets_keeps_state (K : Consts) (Flags : Nat) :
    ∀ (ppRTVs : List (Option TextureViewD3D12)) (s s1 : CommandContext × Heap),
      SetRenderTargets.colorTargets K Flags s ppRTVs = some s1 →
      ∀ (i : Nat) (t : TextureD3D12Impl), s.2.textures[i]? = some t →
        t.m_State &&& K.RESOURCE_STATE_RENDER_TARGET = K.RESOURCE_STATE_RENDER_TARGET →
        ∃ t1, s1.2.textures[i]? = some t1 ∧
          t1.m_State &&& K.RESOURCE_STATE_RENDER_TARGET = K.RESOURCE_STATE_RENDER_TARGET := by
  intro ppRTVs
  induction ppRTVs with
  | nil =>
    intro s s1 h i t ht hc
    simp only [SetRenderTargets.colorTargets, Option.some.injEq] at h
    subst h
    exact ⟨t, ht, hc⟩
  | cons v rest ih =>
    intro s s1 h i t ht hc
    cases v with
    | none => exact ih s s1 (by simpa [SetRenderTargets.colorTargets] using h) i t ht hc
    | some pRTV =>
      simp only [SetRenderTargets.colorTargets] at h
      split at h
      · split at h
        · cases h
        · rename_i s2 hs2
          obtain ⟨t0, t0', hl0, hl1, hframe, _, hsame⟩ :=
            transitionIfNotInState_heap K s.1 s.2 _ _ s2 hs2
          by_cases hij : i = pRTV.pTexture
          · subst hij
            rw [ht] at hl0
            cases hl0
            have := hsame (Or.inr hc)
            subst this
            exact ih _ s1 h _ t ht hc
          · exact ih s2 s1 h i t (by rw [hframe i hij]; exact ht) hc
      · exact ih s s1 h i t ht hc

/-- With the colour flag, the loop brings the texture of every render target that was in a
known state to a state with every bit of the render-target state. -/
theorem colorTargets_establish (K : Consts) (Flags : Nat)
    (hflag : Flags &&& K.SET_RENDER_TARGETS_FLAG_TRANSITION_COLOR ≠ 0) :
    ∀ (ppRTVs : List (Option TextureViewD3D12)) (s s1 : CommandContext × Heap),
      SetRenderTargets.colorTargets K Flags s ppRTVs = some s1 →
      ∀ view, some view ∈ ppRTVs →
        ∀ t : TextureD3D12Impl, s.2.textures[view.pTexture]? = some t →
        (t.m_State ≠ K.RESOURCE_STATE_UNKNOWN ∨
          t.m_State &&& K.RESOURCE_STATE_RENDER_TARGET = K.RESOURCE_STATE_RENDER_TARGET) →
        ∃ t1, s1.2.textures[view.pTexture]? = some t1 ∧
          t1.m_State &&& K.RESOURCE_STATE_RENDER_TARGET = K.RESOURCE_STATE_RENDER_TARGET := by
  intro ppRTVs
  induction ppRTVs with
  | nil => intro s s1 _ view hv; cases hv
  | cons v rest ih =>
    intro s s1 h view hv t ht hc
    cases v with
    | none =>
      have hv2 : some view ∈ rest := by
        rcases List.mem_cons.mp hv with h1 | h1
        · cases h1
        · exact h1
      exact ih s s1 (by simpa [SetRenderTargets.colorTargets] using h) view hv2 t ht hc
    | some pRTV =>
      simp only [SetRenderTargets.colorTargets, hflag, ne_eq, not_false_eq_true, if_true] at h
      split at h
      · cases h
      · rename_i s2 hs2
        obtain ⟨t0, t0', hl0, hl1, hframe, hknown, hsame⟩ :=
          transitionIfNotInState_heap K s.1 s.2 _ _ s2 hs2
        by_cases hij : view.pTexture = pRTV.pTexture
        · have hc2 : t0'.m_State &&& K.RESOURCE_STATE_RENDER_TARGET
              = K.RESOURCE_STATE_RENDER_TARGET := by
            rw [hij, hl0] at ht
            cases ht
            rcases hc with h1 | h1
            · exact hknown h1
            · have := hsame (Or.inr h1)
              subst this
              rw [hl0] at hl1
              cases hl1
              exact h1
          rw [hij]
          exact colorTargets_keeps_state K Flags rest s2 s1 h _ t0' hl1 hc2
        · have hv2 : some view ∈ rest := by
            rcases List.mem_cons.mp hv with h1 | h1
            · simp only [Option.some.injEq] at h1
              rw [h1] at hij
              exact absurd rfl hij
            · exact h1
          exact ih s2 s1 h view hv2 t (by rw [hframe _ hij]; exact ht) hc

/-- A texture in a known state stays in a known state through the loop, the unknown state
lacking a bit of the render-target state. -/
theorem colorTargets_keeps_known (K : Consts) (Flags : Nat)
    (hRT : K.RESOURCE_STATE_UNKNOWN &&& K.RESOURCE_STATE_RENDER_TARGET
      ≠ K.RESOURCE_STATE_RENDER_TARGET) :
    ∀ (ppRTVs : List (Option TextureViewD3D12)) (s s1 : CommandContext × Heap),
      SetRenderTargets.colorTargets K Flags s ppRTVs = some s1 →
      ∀ (i : Nat) (t : TextureD3D12Impl), s.2.textures[i]? = some t →
        t.m_State ≠ K.RESOURCE_STATE_UNKNOWN →
        ∃ t1, s1.2.textures[i]? = some t1 ∧ t1.m_State ≠ K.RESOURCE_STATE_UNKNOWN := by
  intro ppRTVs
  induction ppRTVs with
  | nil =>
    intro s s1 h i t ht hk
    simp only [SetRenderTargets.colorTargets, Option.some.injEq] at h
    subst h
    exact ⟨t, ht, hk⟩
  | cons v rest ih =>
    intro s s1 h i t ht hk
    cases v with
    | none => exact ih s s1 (by simpa [SetRenderTargets.colorTargets] using h) i t ht hk
    | some pRTV =>
      simp only [SetRenderTargets.colorTargets] at h
      split at h
      · split at h
        · cases h
        · rename_i s2 hs2
          obtain ⟨t0, t0', hl0, hl1, hframe, hknown, _⟩ :=
            transitionIfNotInState_heap K s.1 s.2 _ _ s2 hs2
          by_cases hij : i = pRTV.pTexture
          · subst hij
            rw [ht] at hl0
            cases hl0
            refine ih s2 s1 h _ t0' hl1 ?_
            intro h0
            have := hknown hk
            rw [h0] at this
            exact hRT this
          · exact ih s2 s1 h i t (by rw [hframe i hij]; exact ht) hk
      · exact ih s s1 h i t ht hk

/-- The loop leaves alone every texture that no flagged render target in a known state
refers to. -/
theorem colorTargets_frame (K : Consts) (Flags : Nat) :
    ∀ (ppRTVs : List (Option TextureViewD3D12)) (s s1 : CommandContext × Heap),
      SetRenderTargets.colorTargets K Flags s ppRTVs = some s1 →
      ∀ i, (∀ view, some view ∈ ppRTVs → view.pTexture = i →
          Flags &&& K.SET_RENDER_TARGETS_FLAG_TRANSITION_COLOR = 0 ∨
          ∃ t, s.2.textures[i]? = some t ∧ t.m_State = K.RESOURCE_STATE_UNKNOWN) →
        s1.2.textures[i]? = s.2.textures[i]? := by
  intro ppRTVs
  induction ppRTVs with
  | nil =>
    intro s s1 h i _
    simp only [SetRenderTargets.colorTargets, Option.some.injEq] at h
    subst h
    rfl
  | cons v rest ih =>
    intro s s1 h i hcond
    have hrest : ∀ view, some view ∈ rest → view.pTexture = i →
        Flags &&& K.SET_RENDER_TARGETS_FLAG_TRANSITION_COLOR = 0 ∨
        ∃ t, s.2.textures[i]? = some t ∧ t.m_State = K.RESOURCE_STATE_UNKNOWN :=
      fun view hv => hcond view (List.mem_cons_of_mem _ hv)
    cases v with
    | none => exact ih s s1 (by simpa [SetRenderTargets.colorTargets] using h) i hrest
    | some pRTV =>
      simp only [SetRenderTargets.colorTargets] at h
      split at h
      · rename_i hflag
        split at h
        · cases h
        · rename_i s2 hs2
          obtain ⟨t0, t0', hl0, hl1, hframe, _, hsame⟩ :=
            transitionIfNotInState_heap K s.1 s.2 _ _ s2 hs2
          have hs2i : s2.2.textures[i]? = s.2.textures[i]? := by
            by_cases hij : i = pRTV.pTexture
            · rcases hcond pRTV (by simp) hij.symm with h1 | ⟨t, ht, hu⟩
              · exact absurd h1 hflag
              · rw [hij, hl0] at ht
                cases ht
                have := hsame (Or.inl hu)
                subst this
                rfl
            · exact hframe i hij
          rw [← hs2i]
          exact ih s2 s1 h i (fun view hv hvi => by rw [hs2i]; exact hrest view hv hvi)
      · exact ih s s1 h i hrest

/-- The loop does nothing when every render target is null, or not flagged, or refers to a
texture in the unknown state. -/
theorem colorTargets_noop (K : Consts) (Flags : Nat) :
    ∀ (ppRTVs : List (Option TextureViewD3D12)) (s s1 : CommandContext × Heap),
      SetRenderTargets.colorTargets K Flags s ppRTVs = some s1 →
      (∀ view, some view ∈ ppRTVs →
        Flags &&& K.SET_RENDER_TARGETS_FLAG_TRANSITION_COLOR = 0 ∨
        ∃ t, s.2.textures[view.pTexture]? = some t ∧
          t.m_State = K.RESOURCE_STATE_UNKNOWN) →
      s1 = s := by
  intro ppRTVs
  induction ppRTVs with
  | nil =>
    intro s s1 h _
    simp only [SetRenderTargets.colorTargets, Option.some.injEq] at h
    exact h.symm
  | cons v rest ih =>
    intro s s1 h hcond
    have hrest : ∀ view, some view ∈ rest →
        Flags &&& K.SET_RENDER_TARGETS_FLAG_TRANSITION_COLOR = 0 ∨
        ∃ t, s.2.textures[view.pTexture]? = some t ∧
          t.m_State = K.RESOURCE_STATE_UNKNOWN :=
      fun view hv => hcond view (List.mem_cons_of_mem _ hv)
    cases v with
    | none => exact ih s s1 (by simpa [SetRenderTargets.colorTargets] using h) hrest
    | some pRTV =>
      simp only [SetRenderTargets.colorTargets] at h
      split at h
      · rename_i hflag
        split at h
        · cases h
        · rename_i s2 hs2
          obtain ⟨t0, t0', hl0, hl1, _, _, hsame⟩ :=
            transitionIfNotInState_heap K s.1 s.2 _ _ s2 hs2
          rcases hcond pRTV (by simp) with h1 | ⟨t, ht, hu⟩
          · exact absurd h1 hflag
          · rw [hl0] at ht
            cases ht
            have := hsame (Or.inl hu)
            subst this
            exact ih _ s1 h hrest
      · exact ih s s1 h hrest

theorem enqueued_record_OMSetRenderTargets (ctx : CommandContext) (NumRTVs : Nat)
    (RTVHandles : List (Option Nat)) (DSVHandle : Option Nat) :
    (ctx.record (.OMSetRenderTargets NumRTVs RTVHandles DSVHandle)).enqueued = ctx.enqueued := by
  simp [CommandContext.record, CommandContext.enqueued, List.flatMap_append]

/-- The steps of `SetRenderTargets`: the loop over the render targets (`s1`), then the
transition of the depth target when it is there and flagged (`s2`), then the recording, which
touches neither the heap nor the barriers. -/
theorem SetRenderTargets_steps (K : Consts) (ctx : CommandContext) (heap : Heap)
    (ppRTVs : List (Option TextureViewD3D12)) (pDSV : Option TextureViewD3D12) (Flags : Nat)
    (s : CommandContext × Heap)
    (h : SetRenderTargets K ctx heap ppRTVs pDSV Flags = some s) :
    ∃ s1 s2, SetRenderTargets.colorTargets K Flags (ctx, heap) ppRTVs = some s1 ∧
      (pDSV = none → s2 = s1) ∧
      (∀ dsv, pDSV = some dsv →
        (Flags &&& K.SET_RENDER_TARGETS_FLAG_TRANSITION_DEPTH = 0 → s2 = s1) ∧
        (Flags &&& K.SET_RENDER_TARGETS_FLAG_TRANSITION_DEPTH ≠ 0 →
          transitionIfNotInState K s1.1 s1.2 dsv.pTexture K.RESOURCE_STATE_DEPTH_WRITE
            = some s2)) ∧
      s.2 = s2.2 ∧
      s.1.m_PendingResourceBarriers = s2.1.m_PendingResourceBarriers ∧
      s.1.enqueued = s2.1.enqueued := by
  unfold SetRenderTargets at h
  split at h
  · cases h
  · split at h
    · cases h
    · rename_i s1 hs1
      cases pDSV with
      | none =>
        simp only at h
        refine ⟨s1, s1, hs1, fun _ => rfl, (fun dsv hd => by cases hd), ?_⟩
        split at h
        · simp only [Option.some.injEq] at h
          subst h
          exact ⟨rfl, rfl, enqueued_record_OMSetRenderTargets _ _ _ _⟩
        · simp only [Option.some.injEq] at h
          subst h
          exact ⟨rfl, rfl, rfl⟩
      | some dsv =>
        simp only at h
        split at h
        · cases h
        · rename_i s2 hs2
          simp only [Option.some.injEq] at h
          subst h
          refine ⟨s1, s2, hs1, (fun hd => by cases hd), ?_, rfl, rfl,
            enqueued_record_OMSetRenderTargets _ _ _ _⟩
          intro dsv2 hd
          cases hd
          constructor
          · intro hflag
            rw [if_neg (by simp [hflag])] at hs2
            simp only [Option.some.injEq] at hs2
            exact hs2.symm
          · intro hflag
            rw [if_pos hflag] at hs2
            exact hs2

/-- C21, as stated, fails: when the render target and the depth target are views of one
texture and both transition flags are set, the texture ends in the depth-write state, which
lacks the render-target bit. -/
theorem SetRenderTargets_depth_overrides_color :
    SetRenderTargets sampleConsts ⟨[], []⟩ ⟨[⟨7, 0x100, 1, 1⟩], []⟩ [some ⟨0, 50⟩]
        (some ⟨0, 60⟩) 3
      = some (⟨[.Transition 7 0xFFFFFFFF 0x100 0x10, .Transition 7 0xFFFFFFFF 0x10 0x40],
          [.OMSetRenderTargets 1 [some 50] (some 60)]⟩, ⟨[⟨7, 0x40, 1, 1⟩], []⟩) ∧
    (0x40 : Nat) &&& sampleConsts.RESOURCE_STATE_RENDER_TARGET
      ≠ sampleConsts.RESOURCE_STATE_RENDER_TARGET := by
  decide

/-- C21, amended. After `SetRenderTargets` (the unknown state lacking a render-target bit):
with the colour flag, the texture of every non-null render target that was in a known state,
and that is not also the texture of a flagged depth target, has every bit of
`RESOURCE_STATE_RENDER_TARGET`; with the depth flag, the texture of a non-null depth target
that was in a known state has every bit of `RESOURCE_STATE_DEPTH_WRITE`; a texture that only
null targets, targets whose flag is not set, or no target refers to, or whose state is
unknown, keeps its tracked state; and when this holds of every target the call enqueues no
barrier. -/
theorem SetRenderTargets_transitions (K : Consts) (ctx : CommandContext) (heap : Heap)
    (ppRTVs : List (Option TextureViewD3D12)) (pDSV : Option TextureViewD3D12) (Flags : Nat)
    (s : CommandContext × Heap)
    (h : SetRenderTargets K ctx heap ppRTVs pDSV Flags = some s)
    (hRT : K.RESOURCE_STATE_UNKNOWN &&& K.RESOURCE_STATE_RENDER_TARGET
      ≠ K.RESOURCE_STATE_RENDER_TARGET) :
    (Flags &&& K.SET_RENDER_TARGETS_FLAG_TRANSITION_COLOR ≠ 0 →
      ∀ view, some view ∈ ppRTVs →
        ∀ t : TextureD3D12Impl, heap.textures[view.pTexture]? = some t →
        t.m_State ≠ K.RESOURCE_STATE_UNKNOWN →
        (∀ dsv, pDSV = some dsv →
          Flags &&& K.SET_RENDER_TARGETS_FLAG_TRANSITION_DEPTH ≠ 0 →
          dsv.pTexture ≠ view.pTexture) →
        ∃ t1, s.2.textures[view.pTexture]? = some t1 ∧
          t1.m_State &&& K.RESOURCE_STATE_RENDER_TARGET
            = K.RESOURCE_STATE_RENDER_TARGET) ∧
    (Flags &&& K.SET_RENDER_TARGETS_FLAG_TRANSITION_DEPTH ≠ 0 →
      ∀ dsv, pDSV = some dsv →
        ∀ t : TextureD3D12Impl, heap.textures[dsv.pTexture]? = some t →
        t.m_State ≠ K.RESOURCE_STATE_UNKNOWN →
        ∃ t1, s.2.textures[dsv.pTexture]? = some t1 ∧
          t1.m_State &&& K.RESOURCE_STATE_DEPTH_WRITE = K.RESOURCE_STATE_DEPTH_WRITE) ∧
    (∀ i : Nat,
      (∀ view, some view ∈ ppRTVs → view.pTexture = i →
        Flags &&& K.SET_RENDER_TARGETS_FLAG_TRANSITION_COLOR = 0 ∨
        ∃ t, heap.textures[i]? = some t ∧ t.m_State = K.RESOURCE_STATE_UNKNOWN) →
      (∀ dsv, pDSV = some dsv → dsv.pTexture = i →
        Flags &&& K.SET_RENDER_TARGETS_FLAG_TRANSITION_DEPTH = 0 ∨
        ∃ t, heap.textures[i]? = some t ∧ t.m_State = K.RESOURCE_STATE_UNKNOWN) →
      s.2.textures[i]? = heap.textures[i]?) ∧
    ((∀ view, some view ∈ ppRTVs →
        Flags &&& K.SET_RENDER_TARGETS_FLAG_TRANSITION_COLOR = 0 ∨
        ∃ t, heap.textures[view.pTexture]? = some t ∧
          t.m_State = K.RESOURCE_STATE_UNKNOWN) →
      (∀ dsv, pDSV = some dsv →
        Flags &&& K.SET_RENDER_TARGETS_FLAG_TRANSITION_DEPTH = 0 ∨
        ∃ t, heap.textures[dsv.pTexture]? = some t ∧
          t.m_State = K.RESOURCE_STATE_UNKNOWN) →
      s.2 = heap ∧
      s.1.m_PendingResourceBarriers = ctx.m_PendingResourceBarriers ∧
      s.1.enqueued = ctx.enqueued) := by
  obtain ⟨s1, s2, hs1, hnone, hsome, hheap, hpend, henq⟩ :=
    SetRenderTargets_steps K ctx heap ppRTVs pDSV Flags s h
  refine ⟨?_, ?_, ?_, ?_⟩
  · intro hflag view hv t ht hk hdist
    obtain ⟨t1, ht1, hc1⟩ := colorTargets_establish K Flags hflag ppRTVs (ctx, heap) s1 hs1
      view hv t ht (Or.inl hk)
    rw [hheap]
    cases hd : pDSV with
    | none =>
      rw [hnone hd]
      exact ⟨t1, ht1, hc1⟩
    | some dsv =>
      obtain ⟨hoff, hon⟩ := hsome dsv hd
      by_cases hdf : Flags &&& K.SET_RENDER_TARGETS_FLAG_TRANSITION_DEPTH = 0
      · rw [hoff hdf]
        exact ⟨t1, ht1, hc1⟩
      · obtain ⟨_, _, _, _, hframe, _, _⟩ :=
          transitionIfNotInState_heap K s1.1 s1.2 _ _ s2 (hon hdf)
        rw [hframe _ (Ne.symm (hdist dsv hd hdf))]
        exact ⟨t1, ht1, hc1⟩
  · intro hflag dsv hd t ht hk
    obtain ⟨t1, ht1, hk1⟩ := colorTargets_keeps_known K Flags hRT ppRTVs (ctx, heap) s1 hs1
      dsv.pTexture t ht hk
    obtain ⟨t0, t0', hl0, hl1, _, hknown, _⟩ :=
      transitionIfNotInState_heap K s1.1 s1.2 _ _ s2 ((hsome dsv hd).2 hflag)
    rw [ht1] at hl0
    cases hl0
    rw [hheap]
    exact ⟨t0', hl1, hknown hk1⟩
  · intro i hcol hdep
    have h1 : s1.2.textures[i]? = heap.textures[i]? :=
      colorTargets_frame K Flags ppRTVs (ctx, heap) s1 hs1 i hcol
    rw [hheap, ← h1]
    cases hd : pDSV with
    | none => rw [hnone hd]
    | some dsv =>
      obtain ⟨hoff, hon⟩ := hsome dsv hd
      by_cases hdf : Flags &&& K.SET_RENDER_TARGETS_FLAG_TRANSITION_DEPTH = 0
      · rw [hoff hdf]
      · obtain ⟨t0, _, hl0, _, hframe, _, hsame⟩ :=
          transitionIfNotInState_heap K s1.1 s1.2 _ _ s2 (hon hdf)
        by_cases hij : i = dsv.pTexture
        · rcases hdep dsv hd hij.symm with h2 | ⟨t, ht, hu⟩
          · exact absurd h2 hdf
          · rw [← h1, hij, hl0] at ht
            cases ht
            rw [hsame (Or.inl hu)]
        · exact hframe i hij
  · intro hcol hdep
    have h1 : s1 = (ctx, heap) := colorTargets_noop K Flags ppRTVs (ctx, heap) s1 hs1 hcol
    subst h1
    have h2 : s2 = (ctx, heap) := by
      cases hd : pDSV with
      | none => exact hnone hd
      | some dsv =>
        obtain ⟨hoff, hon⟩ := hsome dsv hd
        by_cases hdf : Flags &&& K.SET_RENDER_TARGETS_FLAG_TRANSITION_DEPTH = 0
        · exact hoff hdf
        · obtain ⟨t0, _, hl0, _, _, _, hsame⟩ :=
            transitionIfNotInState_heap K ctx heap _ _ s2 (hon hdf)
          rcases hdep dsv hd with h3 | ⟨t, ht, hu⟩
          · exact absurd h3 hdf
          · rw [hl0] at ht
            cases ht
            exact hsame (Or.inl hu)
    subst h2
    exact ⟨hheap, hpend, henq⟩

/-- C21 (amended) on a render target and a depth target with textures of their own, both in
the shader-resource state, with both flags set. -/
theorem SetRenderTargets_transitions_witness :
    let K := sampleConsts
    let heap : Heap := ⟨[⟨7, 0x100, 1, 1⟩, ⟨8, 0x100, 1, 1⟩], []⟩
    let ctx : CommandContext := ⟨[.UAV 3], []⟩
    let ppRTVs : List (Option TextureViewD3D12) := [some ⟨0, 50⟩]
    let pDSV : Option TextureViewD3D12 := some ⟨1, 60⟩
    let Flags : Nat := 3
    let s : CommandContext × Heap :=
      (⟨[.UAV 3, .Transition 7 0xFFFFFFFF 0x100 0x10, .Transition 8 0xFFFFFFFF 0x100 0x40],
        [.OMSetRenderTargets 1 [some 50] (some 60)]⟩,
        ⟨[⟨7, 0x10, 1, 1⟩, ⟨8, 0x40, 1, 1⟩], []⟩)
    (Flags &&& K.SET_RENDER_TARGETS_FLAG_TRANSITION_COLOR ≠ 0 →
      ∀ view, some view ∈ ppRTVs →
        ∀ t : TextureD3D12Impl, heap.textures[view.pTexture]? = some t →
        t.m_State ≠ K.RESOURCE_STATE_UNKNOWN →
        (∀ dsv, pDSV = some dsv →
          Flags &&& K.SET_RENDER_TARGETS_FLAG_TRANSITION_DEPTH ≠ 0 →
          dsv.pTexture ≠ view.pTexture) →
        ∃ t1, s.2.textures[view.pTexture]? = some t1 ∧
          t1.m_State &&& K.RESOURCE_STATE_RENDER_TARGET
            = K.RESOURCE_STATE_RENDER_TARGET) ∧
    (Flags &&& K.SET_RENDER_TARGETS_FLAG_TRANSITION_DEPTH ≠ 0 →
      ∀ dsv, pDSV = some dsv →
        ∀ t : TextureD3D12Impl, heap.textures[dsv.pTexture]? = some t →
        t.m_State ≠ K.RESOURCE_STATE_UNKNOWN →
        ∃ t1, s.2.textures[dsv.pTexture]? = some t1 ∧
          t1.m_State &&& K.RESOURCE_STATE_DEPTH_WRITE = K.RESOURCE_STATE_DEPTH_WRITE) ∧
    (∀ i : Nat,
      (∀ view, some view ∈ ppRTVs → view.pTexture = i →
        Flags &&& K.SET_RENDER_TARGETS_FLAG_TRANSITION_COLOR = 0 ∨
        ∃ t, heap.textures[i]? = some t ∧ t.m_State = K.RESOURCE_STATE_UNKNOWN) →
      (∀ dsv, pDSV = some dsv → dsv.pTexture = i →
        Flags &&& K.SET_RENDER_TARGETS_FLAG_TRANSITION_DEPTH = 0 ∨
        ∃ t, heap.textures[i]? = some t ∧ t.m_State = K.RESOURCE_STATE_UNKNOWN) →
      s.2.textures[i]? = heap.textures[i]?) ∧
    ((∀ view, some view ∈ ppRTVs →
        Flags &&& K.SET_RENDER_TARGETS_FLAG_TRANSITION_COLOR = 0 ∨
        ∃ t, heap.textures[view.pTexture]? = some t ∧
          t.m_State = K.RESOURCE_STATE_UNKNOWN) →
      (∀ dsv, pDSV = some dsv →
        Flags &&& K.SET_RENDER_TARGETS_FLAG_TRANSITION_DEPTH = 0 ∨
        ∃ t, heap.textures[dsv.pTexture]? = some t ∧
          t.m_State = K.RESOURCE_STATE_UNKNOWN) →
      s.2 = heap ∧
      s.1.m_PendingResourceBarriers = ctx.m_PendingResourceBarriers ∧
      s.1.enqueued = ctx.enqueued) :=
  SetRenderTargets_transitions sampleConsts ⟨[.UAV 3], []⟩
    ⟨[⟨7, 0x100, 1, 1⟩, ⟨8, 0x100, 1, 1⟩], []⟩ [some ⟨0, 50⟩] (some ⟨1, 60⟩) 3
    (⟨[.UAV 3, .Transition 7 0xFFFFFFFF 0x100 0x10, .Transition 8 0xFFFFFFFF 0x100 0x40],
        [.OMSetRenderTargets 1 [some 50] (some 60)]⟩,
      ⟨[⟨7, 0x10, 1, 1⟩, ⟨8, 0x40, 1, 1⟩], []⟩)
    (by decide) (by decide)


end Diligent
